import Mathlib

/-! MMFF parameter resolution (chemkit, `src/plugins/mmff/mmffparameters.cpp`)

A shallow embedding of the index encoder, the internal table lookups, the
topology classifier, the equivalence resolver, `MmffParameters::read` with
the cache of the plugin, and of parts of `GenericFile` and `MoleculeFile`,
followed by the properties proved about them.

Conventions of the embedding

* a C++ `int` is an `Int`; the result of integer arithmetic is brought back
  into the 32-bit range by `toInt32`;
* a `double` is a value of an arbitrary type `F`, produced from a field of a
  row by the library function `toDouble : String → F` (QString::toDouble);
* a pointer that may be null is an `Option`; `QHash<int, const T *>` is an
  association list read by `QHash.value` and written by `QHash.insert`;
* a function that dereferences a pointer without testing it returns
  `Option`, `none` standing for the null dereference;
* the molecular graph (chemkit::Atom, Bond, Ring) is not part of these
  sources: its queries are the fields of `Molecule`, atoms, bonds and rings
  being named by natural numbers.
-/

namespace MmffParameters

/-! ## Index encoder -/

/-- Value held by a 32-bit two's complement `int` whose exact value is `x`. -/
def toInt32 (x : Int) : Int :=
  (x + 2147483648) % 4294967296 - 2147483648

/-- Source: `MmffParameters::calculateBondStrechIndex`. -/
def calculateBondStrechIndex (bondType typeA typeB : Int) : Int :=
  toInt32 (2 * (typeA * 136 + typeB) + bondType)

/-- Source: `MmffParameters::calculateAngleBendIndex`. -/
def calculateAngleBendIndex (angleType typeA typeB typeC : Int) : Int :=
  toInt32 (9 * (typeB * (136*136) + typeA * 136 + typeC) + angleType)

/-- Source: `MmffParameters::calculateStrechBendIndex`. -/
def calculateStrechBendIndex (strechBendType typeA typeB typeC : Int) : Int :=
  toInt32 (12 * (typeB * (136*136) + typeA * 136 + typeC) + strechBendType)

/-- Source: `MmffParameters::calculateOutOfPlaneBendingIndex`. -/
def calculateOutOfPlaneBendingIndex (typeA typeB typeC typeD : Int) : Int :=
  toInt32 (typeB * (136*136*136) + typeA * (136*136) + typeC * 136 + typeD)

/-- Source: `MmffParameters::calculateTorsionIndex`. -/
def calculateTorsionIndex (torsionType typeA typeB typeC typeD : Int) : Int :=
  toInt32 (6 * (typeB * (136*136*136) + typeC * (136*136) + typeA * 136 + typeD) + torsionType)

/-- A valid atom type number: 1..99. -/
def ValidType (t : Int) : Prop := 1 ≤ t ∧ t ≤ 99

instance (t : Int) : Decidable (ValidType t) := by
  unfold ValidType; infer_instance

/-- A classification code in `0..hi`. -/
def InRange (hi t : Int) : Prop := 0 ≤ t ∧ t ≤ hi

instance (hi t : Int) : Decidable (InRange hi t) := by
  unfold InRange; infer_instance

/-! ## Parameter records and table -/

/-- The Qt container `QHash<int, const T *>` as an association list. -/
structure QHash (V : Type) where
  entries : List (Int × V)

/-- Lookup `QHash::value(key, 0)`: the stored pointer, or null. -/
def QHash.value {V : Type} (h : QHash V) (key : Int) : Option V :=
  (h.entries.find? (fun e => e.1 == key)).map Prod.snd

/-- Assignment `hash[key] = v`: the entry of `key` is created or replaced. -/
def QHash.insert {V : Type} (h : QHash V) (key : Int) (v : V) : QHash V :=
  ⟨(key, v) :: h.entries.filter (fun e => e.1 != key)⟩

/-- Modelled from the spec: the declaration of `struct MmffAtomParameters`
(mmffparameters.h) is not among the sources; the rows of `AtomParameters`
have eight `int` members, of which the code reads `arom` and `sbmb`. -/
structure MmffAtomParameters where
  aspec : Int
  crd : Int
  val : Int
  pilp : Int
  mltb : Int
  arom : Int
  lin : Int
  sbmb : Int
deriving DecidableEq, Repr

structure MmffBondStrechParameters (F : Type) where
  kb : F
  r0 : F
deriving DecidableEq, Repr

structure MmffAngleBendParameters (F : Type) where
  ka : F
  theta0 : F
deriving DecidableEq, Repr

structure MmffStrechBendParameters (F : Type) where
  kba_ijk : F
  kba_kji : F
deriving DecidableEq, Repr

structure MmffDefaultStrechBendParameters (F : Type) where
  rowA : Int
  rowB : Int
  rowC : Int
  parameters : MmffStrechBendParameters F
deriving DecidableEq, Repr

structure MmffOutOfPlaneBendingParameters (F : Type) where
  koop : F
deriving DecidableEq, Repr

structure MmffTorsionParameters (F : Type) where
  V1 : F
  V2 : F
  V3 : F
deriving DecidableEq, Repr

structure MmffVanDerWaalsParameters (F : Type) where
  alpha : F
  N : F
  A : F
  G : F
  DA : Char
deriving DecidableEq, Repr

structure MmffChargeParameters (F : Type) where
  bondType : Int
  typeA : Int
  typeB : Int
  bci : F
deriving DecidableEq, Repr

structure MmffPartialChargeParameters (F : Type) where
  pbci : F
  fcadj : F
deriving DecidableEq, Repr

/-- The tables of `MmffParametersData` (the object `d` points to). -/
structure MmffParametersData (F : Type) where
  bondStrechParameters : QHash (MmffBondStrechParameters F)
  angleBendParameters : QHash (MmffAngleBendParameters F)
  strechBendParameters : QHash (MmffStrechBendParameters F)
  defaultStrechBendParameters : List (MmffDefaultStrechBendParameters F)
  outOfPlaneBendingParameters : QHash (MmffOutOfPlaneBendingParameters F)
  torsionParameters : QHash (MmffTorsionParameters F)
  vanDerWaalsParameters : QHash (MmffVanDerWaalsParameters F)
  chargeParameters : List (MmffChargeParameters F)
  partialChargeParameters : QHash (MmffPartialChargeParameters F)

/-- A freshly constructed `MmffParametersData`: every table empty. -/
def MmffParametersData.empty (F : Type) : MmffParametersData F :=
  ⟨⟨[]⟩, ⟨[]⟩, ⟨[]⟩, [], ⟨[]⟩, ⟨[]⟩, ⟨[]⟩, [], ⟨[]⟩⟩

/-! ## Internal lookups (by type numbers) -/

namespace Internal

/-- Source: `MmffParameters::bondStrechParameters(int, int, int)`. -/
def bondStrechParameters {F : Type} (dat : MmffParametersData F)
    (bondType typeA typeB : Int) : Option (MmffBondStrechParameters F) :=
  let (typeA, typeB) := if typeA > typeB then (typeB, typeA) else (typeA, typeB)
  let index := calculateBondStrechIndex bondType typeA typeB
  dat.bondStrechParameters.value index

/-- Source: `MmffParameters::angleBendParameters(int, int, int, int)`. -/
def angleBendParameters {F : Type} (dat : MmffParametersData F)
    (angleType typeA typeB typeC : Int) : Option (MmffAngleBendParameters F) :=
  let (typeA, typeC) := if typeA > typeC then (typeC, typeA) else (typeA, typeC)
  let index := calculateAngleBendIndex angleType typeA typeB typeC
  dat.angleBendParameters.value index

/-- Source: `MmffParameters::strechBendParameters(int, int, int, int)`. -/
def strechBendParameters {F : Type} (dat : MmffParametersData F)
    (strechBendType typeA typeB typeC : Int) : Option (MmffStrechBendParameters F) :=
  let index := calculateStrechBendIndex strechBendType typeA typeB typeC
  dat.strechBendParameters.value index

/-- Source: `MmffParameters::defaultStrechBendParameters(int, int, int)`. -/
def defaultStrechBendParameters {F : Type} (dat : MmffParametersData F)
    (rowA rowB rowC : Int) : Option (MmffStrechBendParameters F) :=
  (dat.defaultStrechBendParameters.find?
    (fun p => p.rowA == rowA && p.rowB == rowB && p.rowC == rowC)).map (fun p => p.parameters)

/-- Source: `MmffParameters::outOfPlaneBendingParameters(int, int, int, int)`:
the first test compares `typeA` with `typeC` and exchanges `typeA` with
`typeD`; the second orders `typeC` and `typeD`. -/
def outOfPlaneBendingParameters {F : Type} (dat : MmffParametersData F)
    (typeA typeB typeC typeD : Int) : Option (MmffOutOfPlaneBendingParameters F) :=
  let (typeA, typeD) := if typeA > typeC then (typeD, typeA) else (typeA, typeD)
  let (typeC, typeD) := if typeC > typeD then (typeD, typeC) else (typeC, typeD)
  let index := calculateOutOfPlaneBendingIndex typeA typeB typeC typeD
  dat.outOfPlaneBendingParameters.value index

/-- Source: `MmffParameters::torsionParameters(int, int, int, int, int)`. -/
def torsionParameters {F : Type} (dat : MmffParametersData F)
    (torsionType typeA typeB typeC typeD : Int) : Option (MmffTorsionParameters F) :=
  let (typeA, typeB, typeC, typeD) :=
    if typeB > typeC then (typeD, typeC, typeB, typeA)
    else if typeB = typeC ∧ typeA > typeD then (typeD, typeB, typeC, typeA)
    else (typeA, typeB, typeC, typeD)
  let index := calculateTorsionIndex torsionType typeA typeB typeC typeD
  dat.torsionParameters.value index

end Internal

/-! ## Molecular graph and force-field atoms -/

/-- The queries the code makes to the molecular graph. Atoms, bonds and rings
are named by natural numbers (pointer identity). -/
structure Molecule where
  /-- Query `Atom::bondTo`: the bond between two atoms, or null. -/
  bondTo : Nat → Nat → Option Nat
  /-- Query `Atom::isBondedTo`. -/
  isBondedTo : Nat → Nat → Bool
  /-- Query `Atom::neighbors`. -/
  neighbors : Nat → List Nat
  /-- Query `Atom::rings`. -/
  rings : Nat → List Nat
  /-- Query `Bond::order`. -/
  order : Nat → Int
  /-- Query `MmffForceField::isAromatic(const Bond *)`. -/
  isAromaticBond : Nat → Bool
  /-- Query `Ring::size`. -/
  ringSize : Nat → Int
  /-- Query `Ring::contains`. -/
  ringContains : Nat → Nat → Bool
  /-- Query `MmffForceField::isAromatic(const Ring *)`. -/
  isAromaticRing : Nat → Bool

/-- Modelled from the spec: the enumerator `chemkit::Bond::Single` (bond.h is
not among the sources), the order of a formal single bond. -/
def Bond.Single : Int := 1

/-- What the code reads from an `MmffAtom`: the underlying atom, its type
number, its period and its atom-type record (null when it has none). -/
structure MmffAtom where
  atom : Nat
  typeNumber : Int
  period : Int
  parameters : Option MmffAtomParameters
deriving DecidableEq, Repr

/-- An undirected molecular graph: the bond between two atoms is the same
from either end, `isBondedTo` is symmetric, and the neighbours of an atom are
exactly the atoms it is bonded to. -/
def Molecule.Undirected (m : Molecule) : Prop :=
  (∀ x y, m.bondTo x y = m.bondTo y x) ∧
  (∀ x y, m.isBondedTo x y = m.isBondedTo y x) ∧
  (∀ x y, x ∈ m.neighbors y ↔ m.isBondedTo x y = true)

/-! ## Topology classifier -/

/-- Source: `MmffParameters::calculateBondType`. The bond pointer is
dereferenced only after both records were found non-null; `none` is the
dereference of a null bond. -/
def calculateBondType (m : Molecule) (a b : MmffAtom) : Option Int :=
  let bond := m.bondTo a.atom b.atom
  match a.parameters, b.parameters with
  | some pa, some pb =>
    match bond with
    | none => none
    | some bond =>
      if m.order bond = Bond.Single ∧ m.isAromaticBond bond = false then
        if pa.sbmb ≠ 0 ∧ pb.sbmb ≠ 0 then some 1
        else if pa.arom ≠ 0 ∧ pb.arom ≠ 0 then some 1
        else some 0
      else some 0
  | _, _ => some 0

/-- The flag `inFourMemberedRing` of `calculateAngleType` after its loop over
the neighbours of `a`: some neighbour other than `b` is bonded to `c`. -/
def angleInFourMemberedRing (m : Molecule) (a b c : MmffAtom) : Bool :=
  (m.neighbors a.atom).any (fun neighbor => neighbor != b.atom && m.isBondedTo neighbor c.atom)

/-- Source: `MmffParameters::calculateAngleType`. -/
def calculateAngleType (m : Molecule) (a b c : MmffAtom) : Option Int :=
  match calculateBondType m a b, calculateBondType m b c with
  | some bondTypeAB, some bondTypeBC =>
    let bondTypeSum := bondTypeAB + bondTypeBC
    let inThreeMemberedRing := m.isBondedTo a.atom c.atom
    let inFourMemberedRing := !inThreeMemberedRing && angleInFourMemberedRing m a b c
    if inThreeMemberedRing then
      if bondTypeSum = 1 then some 5
      else if bondTypeSum = 2 then some 6
      else some 3
    else if inFourMemberedRing then
      if bondTypeSum = 1 then some 7
      else if bondTypeSum = 2 then some 8
      else some 4
    else if bondTypeSum = 1 then some 1
    else if bondTypeSum = 2 then some 2
    else some 0
  | _, _ => none

/-- Source: `MmffParameters::calculateStrechBendType`. -/
def calculateStrechBendType (m : Molecule) (a b c : MmffAtom) : Option Int :=
  match calculateBondType m a b, calculateBondType m b c, calculateAngleType m a b c with
  | some bondTypeAB, some bondTypeBC, some angleType =>
    if angleType = 0 then some 0
    else if angleType = 1 then
      if bondTypeAB = 1 then some 1 else if bondTypeBC = 1 then some 2 else some 0
    else if angleType = 2 then some 3
    else if angleType = 3 then some 5
    else if angleType = 4 then some 4
    else if angleType = 5 then
      if bondTypeAB = 1 then some 6 else if bondTypeBC = 1 then some 7 else some 0
    else if angleType = 6 then some 8
    else if angleType = 7 then
      if bondTypeAB = 1 then some 9 else if bondTypeBC = 1 then some 10 else some 0
    else if angleType = 8 then some 11
    else some 0
  | _, _, _ => none

/-- The flag `inFiveMemberedRing` of `calculateTorsionType` after its loop
over the rings of `a`: some ring of size 5 holds `b`, `c` and `d` and is not
aromatic. -/
def torsionInFiveMemberedRing (m : Molecule) (a b c d : MmffAtom) : Bool :=
  (m.rings a.atom).any (fun ring =>
    m.ringSize ring == 5 &&
    (m.ringContains ring b.atom && m.ringContains ring c.atom && m.ringContains ring d.atom) &&
    !m.isAromaticRing ring)

/-- Source: `MmffParameters::calculateTorsionType`. -/
def calculateTorsionType (m : Molecule) (a b c d : MmffAtom) : Option Int :=
  match calculateBondType m a b, calculateBondType m b c, calculateBondType m c d with
  | some bondTypeAB, some bondTypeBC, some bondTypeCD =>
    let inFourMemberedRing := m.isBondedTo a.atom d.atom
    let inFiveMemberedRing := torsionInFiveMemberedRing m a b c d
    if inFourMemberedRing then some 4
    else if inFiveMemberedRing then some 5
    else if bondTypeBC = 1 then some 1
    else if bondTypeAB = 1 ∨ bondTypeCD = 1 then some 2
    else some 0
  | _, _, _ => none

/-! ## Equivalence resolver -/

/-- Source: the static table `EquivalentTypes[][5]`. -/
def EquivalentTypes : List (List Int) :=
  [[1, 1, 1, 1, 0], [2, 2, 2, 1, 0], [3, 3, 3, 1, 0], [4, 4, 4, 1, 0],
   [5, 5, 5, 5, 0], [6, 6, 6, 6, 0], [7, 7, 7, 6, 0], [8, 8, 8, 8, 0],
   [9, 9, 9, 8, 0], [10, 10, 10, 8, 0], [11, 11, 11, 11, 0], [12, 12, 12, 12, 0],
   [13, 13, 13, 13, 0], [14, 14, 14, 14, 0], [15, 15, 15, 15, 0], [16, 16, 16, 15, 0],
   [17, 17, 17, 15, 0], [18, 18, 18, 15, 0], [19, 19, 19, 19, 0], [20, 20, 1, 1, 0],
   [21, 21, 21, 5, 0], [22, 22, 22, 1, 0], [23, 23, 23, 5, 0], [24, 24, 24, 5, 0],
   [25, 25, 25, 25, 0], [26, 26, 26, 25, 0], [27, 27, 28, 5, 0], [28, 28, 28, 5, 0],
   [29, 29, 29, 5, 0], [30, 30, 2, 1, 0], [31, 31, 31, 31, 0], [32, 32, 7, 6, 0],
   [33, 33, 21, 5, 0], [34, 34, 8, 8, 0], [35, 35, 6, 6, 0], [36, 36, 36, 5, 0],
   [37, 37, 2, 1, 0], [38, 38, 9, 8, 0], [39, 39, 10, 8, 0], [40, 40, 10, 8, 0],
   [41, 41, 3, 1, 0], [42, 42, 42, 8, 0], [43, 43, 10, 8, 0], [44, 44, 16, 15, 0],
   [45, 45, 10, 8, 0], [46, 46, 9, 8, 0], [47, 47, 42, 8, 0], [48, 48, 9, 8, 0],
   [49, 49, 6, 6, 0], [50, 50, 21, 5, 0], [51, 51, 7, 6, 0], [52, 52, 21, 5, 0],
   [53, 53, 42, 8, 0], [54, 54, 9, 8, 0], [55, 55, 10, 8, 0], [56, 56, 10, 8, 0],
   [57, 57, 2, 1, 0], [58, 58, 10, 8, 0], [59, 59, 6, 6, 0], [60, 60, 4, 1, 0],
   [61, 61, 42, 8, 0], [62, 62, 10, 8, 0], [63, 63, 2, 1, 0], [64, 64, 2, 1, 0],
   [65, 65, 9, 8, 0], [66, 66, 9, 8, 0], [67, 67, 9, 8, 0], [68, 68, 8, 8, 0],
   [69, 69, 9, 8, 0], [70, 70, 70, 70, 70], [71, 71, 5, 5, 0], [72, 72, 16, 15, 0],
   [73, 73, 18, 15, 0], [74, 74, 17, 15, 0], [75, 75, 26, 25, 0], [76, 76, 9, 8, 0],
   [77, 77, 12, 12, 0], [78, 78, 2, 1, 0], [79, 79, 9, 8, 0], [80, 80, 2, 1, 0],
   [81, 81, 10, 8, 0], [82, 82, 9, 8, 0], [87, 87, 87, 87, 87], [88, 88, 88, 88, 88],
   [89, 89, 89, 89, 89], [90, 90, 90, 90, 90], [91, 91, 91, 91, 91], [92, 92, 92, 92, 92],
   [93, 93, 93, 93, 93], [94, 94, 94, 94, 94], [95, 95, 95, 95, 95], [96, 96, 96, 96, 96],
   [97, 97, 97, 97, 97], [98, 98, 98, 98, 98], [99, 99, 99, 99, 99]]

/-- Source: `MmffParameters::equivalentType`. The callers pass the levels 3,
4 and 5 only; column `level-1` of a row is read with `getD`. -/
def equivalentType (atom : MmffAtom) (level : Int) : Int :=
  if level < 3 then atom.typeNumber
  else
    match EquivalentTypes.find? (fun row => row.getD 0 0 == atom.typeNumber) with
    | some row => row.getD (level - 1).toNat 0
    | none => 0

/-! ## Lookups by atoms -/

/-- Source: `MmffParameters::bondStrechParameters(const MmffAtom *, const MmffAtom *)`.
The outer `Option` is `none` when `calculateBondType` dereferences a null bond. -/
def bondStrechParameters {F : Type} (m : Molecule) (dat : MmffParametersData F)
    (a b : MmffAtom) : Option (Option (MmffBondStrechParameters F)) :=
  let typeA := a.typeNumber
  let typeB := b.typeNumber
  (calculateBondType m a b).map fun bondType =>
    Internal.bondStrechParameters dat bondType typeA typeB

/-- Source: `MmffParameters::angleBendParameters(const MmffAtom *, ...)`. -/
def angleBendParameters {F : Type} (m : Molecule) (dat : MmffParametersData F)
    (a b c : MmffAtom) : Option (Option (MmffAngleBendParameters F)) :=
  let typeA := min a.typeNumber c.typeNumber
  let typeB := b.typeNumber
  let typeC := max a.typeNumber c.typeNumber
  (calculateAngleType m a b c).map fun angleType =>
    Internal.angleBendParameters dat angleType typeA typeB typeC

/-- Source: `MmffParameters::strechBendParameters(const MmffAtom *, ...)`. -/
def strechBendParameters {F : Type} (m : Molecule) (dat : MmffParametersData F)
    (a b c : MmffAtom) : Option (Option (MmffStrechBendParameters F)) :=
  let typeA := a.typeNumber
  let typeB := b.typeNumber
  let typeC := c.typeNumber
  (calculateStrechBendType m a b c).map fun strechBendType =>
    Internal.strechBendParameters dat strechBendType typeA typeB typeC

/-- Source: `MmffParameters::outOfPlaneBendingParameters(const MmffAtom *, ...)`. -/
def outOfPlaneBendingParameters {F : Type} (dat : MmffParametersData F)
    (a b c d : MmffAtom) : Option (MmffOutOfPlaneBendingParameters F) :=
  let typeA := a.typeNumber
  let typeB := b.typeNumber
  let typeC := c.typeNumber
  let typeD := d.typeNumber
  match Internal.outOfPlaneBendingParameters dat typeA typeB typeC typeD with
  | some parameters => some parameters
  | none =>
  -- step down 3-2-3-3
  match Internal.outOfPlaneBendingParameters dat
      (equivalentType a 3) typeB (equivalentType c 3) (equivalentType d 3) with
  | some parameters => some parameters
  | none =>
  -- step down 4-2-4-4
  match Internal.outOfPlaneBendingParameters dat
      (equivalentType a 4) typeB (equivalentType c 4) (equivalentType d 4) with
  | some parameters => some parameters
  | none =>
  -- step down 5-2-5-5
  match Internal.outOfPlaneBendingParameters dat
      (equivalentType a 5) typeB (equivalentType c 5) (equivalentType d 5) with
  | some parameters => some parameters
  | none => none

/-- Source: `MmffParameters::torsionParameters(const MmffAtom *, ...)`. The
outer `Option` is `none` when `calculateTorsionType` dereferences a null
bond. -/
def torsionParameters {F : Type} (m : Molecule) (dat : MmffParametersData F)
    (a b c d : MmffAtom) : Option (Option (MmffTorsionParameters F)) :=
  let typeA := a.typeNumber
  let typeB := b.typeNumber
  let typeC := c.typeNumber
  let typeD := d.typeNumber
  (calculateTorsionType m a b c d).map fun torsionType =>
  match Internal.torsionParameters dat torsionType typeA typeB typeC typeD with
  | some parameters => some parameters
  | none =>
  -- step down 3-2-2-5
  match Internal.torsionParameters dat torsionType
      (equivalentType a 3) typeB typeC (equivalentType d 5) with
  | some parameters => some parameters
  | none =>
  -- step down 5-2-2-3
  match Internal.torsionParameters dat torsionType
      (equivalentType a 5) typeB typeC (equivalentType d 3) with
  | some parameters => some parameters
  | none =>
  -- step down 5-2-2-5
  match Internal.torsionParameters dat torsionType
      (equivalentType a 5) typeB typeC (equivalentType d 5) with
  | some parameters => some parameters
  | none =>
  match Internal.torsionParameters dat 0
      (equivalentType a 5) typeB typeC (equivalentType d 5) with
  | some parameters => some parameters
  | none => none

/-! ## The line loop of `MmffParameters::read` -/

/-- The library function `QChar::isSpace()` of Qt 4, the library of the source
(it calls `QChar::toAscii`): the characters U+0009 to U+000D (tab, line feed,
vertical tab, form feed, carriage return) and the separators of the Unicode
categories Zs, Zl and Zp of the Unicode tables of that library: U+0020,
U+00A0, U+1680, U+180E, U+2000 to U+200A, U+2028, U+2029, U+202F, U+205F and
U+3000. -/
def isSpace (c : Char) : Bool :=
  (9 ≤ c.toNat && c.toNat ≤ 13) || c.toNat == 0x20 || c.toNat == 0xA0 ||
    c.toNat == 0x1680 || c.toNat == 0x180E || (0x2000 ≤ c.toNat && c.toNat ≤ 0x200A) ||
    c.toNat == 0x2028 || c.toNat == 0x2029 || c.toNat == 0x202F || c.toNat == 0x205F ||
    c.toNat == 0x3000

/-- The library function `QString::toInt()`: surrounding white space
(`QChar::isSpace`) is ignored, an optional sign and decimal digits are read,
and 0 is returned for any other text and for a value outside the range of
`int`. -/
def toInt (s : String) : Int :=
  let cs := ((s.data.dropWhile isSpace).reverse.dropWhile isSpace).reverse
  let (negative, digits) :=
    match cs with
    | '-' :: r => (true, r)
    | '+' :: r => (false, r)
    | r => (false, r)
  if digits.isEmpty || !digits.all Char.isDigit then 0
  else
    let n : Int := digits.foldl (fun acc c => 10 * acc + ((c.toNat - 48 : Nat) : Int)) 0
    let v := if negative then -n else n
    if -2147483648 ≤ v ∧ v ≤ 2147483647 then v else 0

/-- The library function `QString::toDouble()`, which returns 0.0 when the
conversion fails. The conversion of a text that is empty or holds white space
only fails; for any other text `convert` is the conversion of the library:
the value, or nothing when it fails. `zero` is the value 0.0. -/
def QString.toDouble {F : Type} (zero : F) (convert : String → Option F) (s : String) : F :=
  if s.data.all isSpace then zero
  else
    match convert s with
    | some value => value
    | none => zero

/-- The library call `line.startsWith(c)` for a one-character text `c`. -/
def startsWith (line : String) (c : Char) : Bool :=
  match line.data with
  | x :: _ => x == c
  | [] => false

/-- Fields of `cs` between single spaces, empty fields dropped; `cur` holds
the characters of the field being read, last one first. -/
def splitAux : List Char → List Char → List String
  | cur, [] => if cur.isEmpty then [] else [String.mk cur.reverse]
  | cur, c :: cs =>
    if c = ' ' then
      if cur.isEmpty then splitAux [] cs else String.mk cur.reverse :: splitAux [] cs
    else splitAux (c :: cur) cs

/-- The library call `line.split(" ", QString::SkipEmptyParts)`. -/
def split (line : String) : List String :=
  splitAux [] line.data

/-- The library call `data.value(i)` of a `QStringList`: field `i`, or the
empty text when the row has no field `i`. -/
def QStringList.value (data : List String) (i : Nat) : String :=
  data.getD i ""

/-- The library call `QChar::toAscii()` with the default (Latin-1) codec. -/
def toAscii (c : Char) : Char :=
  if c.toNat < 256 then c else Char.ofNat 0

/-- Modelled from the spec: the constant `MaxAtomType`, declared outside these
sources; the spec gives 99 as the greatest valid type number. -/
def MaxAtomType : Int := 99

namespace Section

/-- Source: `enum Section` of `read`. -/
def BondStrech : Nat := 0
def EmpiricalBondStrech : Nat := 1
def AngleBend : Nat := 2
def StrechBend : Nat := 3
def DefaultStrechBend : Nat := 4
def OutOfPlaneBending : Nat := 5
def Torsion : Nat := 6
def VanDerWaals : Nat := 7
def Charge : Nat := 8
def PartialCharge : Nat := 9
def End : Nat := 10

end Section

/-- Source: `MmffParameters::read`, the section dispatch applied to the fields
`data` of one row (lines 334-447). `none` is the read of character 0 of an
empty field 5 in the van der Waals section. -/
def readRow {F : Type} (toDouble : String → F) (sect : Nat) (data : List String)
    (dat : MmffParametersData F) : Option (MmffParametersData F) :=
  let value := QStringList.value data
  if sect = Section.BondStrech then
    let bondType := toInt (value 0)
    let typeA := toInt (value 1)
    let typeB := toInt (value 2)
    let index := calculateBondStrechIndex bondType typeA typeB
    let parameters : MmffBondStrechParameters F :=
      { kb := toDouble (value 3), r0 := toDouble (value 4) }
    some { dat with bondStrechParameters := dat.bondStrechParameters.insert index parameters }
  else if sect = Section.EmpiricalBondStrech then
    some dat
  else if sect = Section.AngleBend then
    let angleType := toInt (value 0)
    let typeA := toInt (value 1)
    let typeB := toInt (value 2)
    let typeC := toInt (value 3)
    let index := calculateAngleBendIndex angleType typeA typeB typeC
    let parameters : MmffAngleBendParameters F :=
      { ka := toDouble (value 4), theta0 := toDouble (value 5) }
    some { dat with angleBendParameters := dat.angleBendParameters.insert index parameters }
  else if sect = Section.StrechBend then
    let strechBendType := toInt (value 0)
    let typeA := toInt (value 1)
    let typeB := toInt (value 2)
    let typeC := toInt (value 3)
    let index := calculateStrechBendIndex strechBendType typeA typeB typeC
    let parameters : MmffStrechBendParameters F :=
      { kba_ijk := toDouble (value 4), kba_kji := toDouble (value 5) }
    some { dat with strechBendParameters := dat.strechBendParameters.insert index parameters }
  else if sect = Section.DefaultStrechBend then
    let parameters : MmffDefaultStrechBendParameters F :=
      { rowA := toInt (value 0), rowB := toInt (value 1), rowC := toInt (value 2),
        parameters := { kba_ijk := toDouble (value 3), kba_kji := toDouble (value 4) } }
    some { dat with defaultStrechBendParameters := dat.defaultStrechBendParameters ++ [parameters] }
  else if sect = Section.OutOfPlaneBending then
    let typeA := toInt (value 0)
    let typeB := toInt (value 1)
    let typeC := toInt (value 2)
    let typeD := toInt (value 3)
    let index := calculateOutOfPlaneBendingIndex typeA typeB typeC typeD
    let parameters : MmffOutOfPlaneBendingParameters F := { koop := toDouble (value 4) }
    some { dat with
      outOfPlaneBendingParameters := dat.outOfPlaneBendingParameters.insert index parameters }
  else if sect = Section.Torsion then
    let torsionType := toInt (value 0)
    let typeA := toInt (value 1)
    let typeB := toInt (value 2)
    let typeC := toInt (value 3)
    let typeD := toInt (value 4)
    let index := calculateTorsionIndex torsionType typeA typeB typeC typeD
    let parameters : MmffTorsionParameters F :=
      { V1 := toDouble (value 5), V2 := toDouble (value 6), V3 := toDouble (value 7) }
    some { dat with torsionParameters := dat.torsionParameters.insert index parameters }
  else if sect = Section.VanDerWaals then
    let type := toInt (value 0)
    if type > MaxAtomType then some dat
    else
      match (value 5).data with
      | [] => none
      | c :: _ =>
        let parameters : MmffVanDerWaalsParameters F :=
          { alpha := toDouble (value 1), N := toDouble (value 2), A := toDouble (value 3),
            G := toDouble (value 4), DA := toAscii c }
        some { dat with vanDerWaalsParameters := dat.vanDerWaalsParameters.insert type parameters }
  else if sect = Section.Charge then
    let parameters : MmffChargeParameters F :=
      { bondType := toInt (value 0), typeA := toInt (value 1), typeB := toInt (value 2),
        bci := toDouble (value 3) }
    some { dat with chargeParameters := dat.chargeParameters ++ [parameters] }
  else if sect = Section.PartialCharge then
    let type := toInt (value 1)
    if type > MaxAtomType then some dat
    else
      let parameters : MmffPartialChargeParameters F :=
        { pbci := toDouble (value 2), fcadj := toDouble (value 3) }
      some { dat with
        partialChargeParameters := dat.partialChargeParameters.insert type parameters }
  else
    some dat

/-- Source: `MmffParameters::read`, the loop `while(!file.atEnd())` (lines
308-449) over the lines still to be read, from the current section and
table; the result is the table when the loop is left. -/
def readLines {F : Type} (toDouble : String → F) :
    List String → Nat → MmffParametersData F → Option (MmffParametersData F)
  | [], _, dat => some dat
  | line :: rest, sect, dat =>
    -- lines that start with '$' indicate a new section
    if startsWith line '$' then
      if sect + 1 = Section.End then some dat
      else readLines toDouble rest (sect + 1) dat
    -- lines starting with '#' are comments
    else if startsWith line '#' then
      readLines toDouble rest sect dat
    -- read data from line
    else
      let data := split line
      if data.isEmpty || data.length < 2 then
        readLines toDouble rest sect dat
      else
        match readRow toDouble sect data dat with
        | none => none
        | some dat => readLines toDouble rest sect dat

/-- Source: `MmffParameters::read` from the creation of the new table to the
end of the loop, for a file that was opened and holds `lines`. -/
def readFile {F : Type} (toDouble : String → F) (lines : List String) :
    Option (MmffParametersData F) :=
  readLines toDouble lines Section.BondStrech (MmffParametersData.empty F)

/-- The first hit among lookups made in the order of the list: the result of
the first one that is not a miss, and a miss when all of them miss. -/
def firstHit {α : Type} : List (Option α) → Option α
  | [] => none
  | some x :: _ => some x
  | none :: rest => firstHit rest

/-- Field `i` of a row read as `int`: `data.value(i).toInt()`. -/
def intField (data : List String) (i : Nat) : Int :=
  toInt (QStringList.value data i)

/-- Field `i` of a row read as `double`: `data.value(i).toDouble()`. -/
def doubleField {F : Type} (toDouble : String → F) (data : List String) (i : Nat) : F :=
  toDouble (QStringList.value data i)

/-! ## Lookups keyed by the type number -/

/-- Source: the static table `AtomParameters[]`, one row per type 1..99. -/
def AtomParameters : List MmffAtomParameters :=
  [MmffAtomParameters.mk 6 4 4 0 0 0 0 0,
   MmffAtomParameters.mk 6 3 4 0 2 0 0 1,
   MmffAtomParameters.mk 6 3 4 0 2 0 0 1,
   MmffAtomParameters.mk 6 2 4 0 3 0 1 1,
   MmffAtomParameters.mk 1 1 1 0 0 0 0 0,
   MmffAtomParameters.mk 8 2 2 1 0 0 0 0,
   MmffAtomParameters.mk 8 1 2 0 2 0 0 0,
   MmffAtomParameters.mk 7 3 3 1 0 0 0 0,
   MmffAtomParameters.mk 7 2 3 0 2 0 0 1,
   MmffAtomParameters.mk 7 3 3 1 1 0 0 0,
   MmffAtomParameters.mk 9 1 1 1 0 0 0 0,
   MmffAtomParameters.mk 17 1 1 1 0 0 0 0,
   MmffAtomParameters.mk 35 1 1 1 0 0 0 0,
   MmffAtomParameters.mk 53 1 1 1 0 0 0 0,
   MmffAtomParameters.mk 16 2 2 1 0 0 0 0,
   MmffAtomParameters.mk 16 1 2 0 2 0 0 0,
   MmffAtomParameters.mk 16 3 4 0 2 0 0 0,
   MmffAtomParameters.mk 16 4 4 0 0 0 0 0,
   MmffAtomParameters.mk 14 4 4 0 0 0 0 0,
   MmffAtomParameters.mk 6 4 4 0 0 0 0 0,
   MmffAtomParameters.mk 1 1 1 0 0 0 0 0,
   MmffAtomParameters.mk 6 4 4 0 0 0 0 0,
   MmffAtomParameters.mk 1 1 1 0 0 0 0 0,
   MmffAtomParameters.mk 1 1 1 0 0 0 0 0,
   MmffAtomParameters.mk 15 4 4 0 0 0 0 0,
   MmffAtomParameters.mk 15 3 3 1 0 0 0 0,
   MmffAtomParameters.mk 1 1 1 0 0 0 0 0,
   MmffAtomParameters.mk 1 1 1 0 0 0 0 0,
   MmffAtomParameters.mk 1 1 1 0 0 0 0 0,
   MmffAtomParameters.mk 6 3 4 0 2 0 0 1,
   MmffAtomParameters.mk 1 1 1 0 0 0 0 0,
   MmffAtomParameters.mk 8 1 12 1 1 0 0 0,
   MmffAtomParameters.mk 1 1 1 0 0 0 0 0,
   MmffAtomParameters.mk 7 4 4 0 0 0 0 0,
   MmffAtomParameters.mk 8 1 1 1 1 0 0 0,
   MmffAtomParameters.mk 1 1 1 0 0 0 0 0,
   MmffAtomParameters.mk 6 3 4 0 2 1 0 1,
   MmffAtomParameters.mk 7 2 3 0 2 1 0 0,
   MmffAtomParameters.mk 7 3 3 1 1 1 0 1,
   MmffAtomParameters.mk 7 3 3 1 0 0 0 0,
   MmffAtomParameters.mk 6 3 4 0 1 0 0 0,
   MmffAtomParameters.mk 7 1 3 0 3 0 0 0,
   MmffAtomParameters.mk 7 3 3 1 0 0 0 0,
   MmffAtomParameters.mk 16 2 2 1 1 1 0 0,
   MmffAtomParameters.mk 7 3 4 0 2 0 0 0,
   MmffAtomParameters.mk 7 2 3 0 2 0 0 0,
   MmffAtomParameters.mk 7 1 2 0 2 0 0 0,
   MmffAtomParameters.mk 7 2 2 0 0 0 0 0,
   MmffAtomParameters.mk 8 3 3 0 0 0 0 0,
   MmffAtomParameters.mk 1 1 1 0 0 0 0 0,
   MmffAtomParameters.mk 8 2 3 0 2 0 0 0,
   MmffAtomParameters.mk 1 1 1 0 0 0 0 0,
   MmffAtomParameters.mk 7 2 4 0 2 0 1 0,
   MmffAtomParameters.mk 7 3 4 0 2 0 0 1,
   MmffAtomParameters.mk 7 3 34 0 1 0 0 0,
   MmffAtomParameters.mk 7 3 34 0 1 0 0 0,
   MmffAtomParameters.mk 6 3 4 0 2 0 0 1,
   MmffAtomParameters.mk 7 3 4 0 1 1 0 1,
   MmffAtomParameters.mk 8 2 2 1 1 1 0 0,
   MmffAtomParameters.mk 6 1 3 0 3 0 0 0,
   MmffAtomParameters.mk 7 2 4 0 3 0 1 0,
   MmffAtomParameters.mk 7 2 2 1 0 0 0 0,
   MmffAtomParameters.mk 6 3 4 0 2 1 0 1,
   MmffAtomParameters.mk 6 3 4 0 2 1 0 1,
   MmffAtomParameters.mk 7 2 3 0 2 1 0 0,
   MmffAtomParameters.mk 7 2 3 0 2 1 0 0,
   MmffAtomParameters.mk 7 3 4 0 2 0 0 1,
   MmffAtomParameters.mk 7 4 4 0 0 0 0 0,
   MmffAtomParameters.mk 7 3 4 0 1 1 0 0,
   MmffAtomParameters.mk 8 2 2 1 0 0 0 0,
   MmffAtomParameters.mk 1 1 1 0 0 0 0 0,
   MmffAtomParameters.mk 16 1 1 1 1 0 0 0,
   MmffAtomParameters.mk 16 3 3 0 0 0 0 0,
   MmffAtomParameters.mk 16 2 4 0 2 0 0 0,
   MmffAtomParameters.mk 15 2 3 0 2 0 0 1,
   MmffAtomParameters.mk 7 2 2 1 0 0 0 0,
   MmffAtomParameters.mk 17 4 4 0 0 0 0 0,
   MmffAtomParameters.mk 6 3 4 0 2 1 0 1,
   MmffAtomParameters.mk 7 2 3 0 2 1 0 0,
   MmffAtomParameters.mk 6 3 4 0 2 0 0 1,
   MmffAtomParameters.mk 7 3 4 0 1 1 0 1,
   MmffAtomParameters.mk 7 3 4 0 1 1 0 0,
   MmffAtomParameters.mk 0 0 0 0 0 0 0 0,
   MmffAtomParameters.mk 0 0 0 0 0 0 0 0,
   MmffAtomParameters.mk 0 0 0 0 0 0 0 0,
   MmffAtomParameters.mk 0 0 0 0 0 0 0 0,
   MmffAtomParameters.mk 26 0 0 0 0 0 0 0,
   MmffAtomParameters.mk 26 0 0 0 0 0 0 0,
   MmffAtomParameters.mk 9 0 0 0 0 0 0 0,
   MmffAtomParameters.mk 17 0 0 0 0 0 0 0,
   MmffAtomParameters.mk 35 0 0 0 0 0 0 0,
   MmffAtomParameters.mk 3 0 0 0 0 0 0 0,
   MmffAtomParameters.mk 11 0 0 0 0 0 0 0,
   MmffAtomParameters.mk 19 0 0 0 0 0 0 0,
   MmffAtomParameters.mk 30 0 0 0 0 0 0 0,
   MmffAtomParameters.mk 20 0 0 0 0 0 0 0,
   MmffAtomParameters.mk 29 0 0 0 0 0 0 0,
   MmffAtomParameters.mk 29 0 0 0 0 0 0 0,
   MmffAtomParameters.mk 12 0 0 0 0 0 0 0]

/-- Source: `MmffParameters::atomParameters`. The table is read at index
`type-1` only behind the range test, which keeps the index below its 99
entries. -/
def atomParameters (atom : MmffAtom) : Option MmffAtomParameters :=
  if h : atom.typeNumber < 1 ∨ atom.typeNumber > 99 then none
  else
    some (AtomParameters.get ⟨(atom.typeNumber - 1).toNat, by
      have hlen : AtomParameters.length = 99 := rfl
      omega⟩)

/-- Source: `MmffParameters::vanDerWaalsParameters`. -/
def vanDerWaalsParameters {F : Type} (dat : MmffParametersData F) (atom : MmffAtom) :
    Option (MmffVanDerWaalsParameters F) :=
  let type := atom.typeNumber
  dat.vanDerWaalsParameters.value type

/-- Source: `MmffParameters::partialChargeParameters`. -/
def partialChargeParameters {F : Type} (dat : MmffParametersData F) (atom : MmffAtom) :
    Option (MmffPartialChargeParameters F) :=
  let type := atom.typeNumber
  dat.partialChargeParameters.value type

/-- Number of section markers among `lines`: the lines starting with `$`. -/
def markerCount (lines : List String) : Nat :=
  (lines.filter (fun line => startsWith line '$')).length

/-- The rows that the loop hands to the section dispatch among `lines`: the
lines that are no section marker and no comment and have at least 2 fields,
each split into its fields. -/
def rowsOf (lines : List String) : List (List String) :=
  (lines.filter (fun line =>
    !startsWith line '$' && !startsWith line '#' && decide (2 ≤ (split line).length))).map split

/-- Source: `MmffParameters::defaultStrechBendParameters(const MmffAtom *, ...)`. -/
def defaultStrechBendParameters {F : Type} (dat : MmffParametersData F)
    (a b c : MmffAtom) : Option (MmffStrechBendParameters F) :=
  Internal.defaultStrechBendParameters dat (a.period - 1) (b.period - 1) (c.period - 1)

/-- Source: `MmffParameters::chargeParameters`. The outer `Option` is `none`
when `calculateBondType` dereferences a null bond. -/
def chargeParameters {F : Type} (m : Molecule) (dat : MmffParametersData F)
    (a b : MmffAtom) : Option (Option (MmffChargeParameters F)) :=
  let typeA := a.typeNumber
  let typeB := b.typeNumber
  (calculateBondType m a b).map fun bondType =>
    dat.chargeParameters.find? (fun parameters =>
      parameters.bondType == bondType && parameters.typeA == typeA &&
        parameters.typeB == typeB)

/-! ## Entries of a mapping -/

/-- Number of entries a mapping holds for `key`. -/
def QHash.count {V : Type} (h : QHash V) (key : Int) : Nat :=
  (h.entries.filter (fun e => e.1 == key)).length

/-- Every key of `h` is still a key of `h'`. -/
def QHash.KeysKept {V : Type} (h h' : QHash V) : Prop :=
  ∀ key, (h.value key).isSome = true → (h'.value key).isSome = true

/-- From `dat` to `dat'` no mapping has lost a key, and the two lists have
only got longer at their end. -/
def MmffParametersData.GrowsTo {F : Type} (dat dat' : MmffParametersData F) : Prop :=
  dat.bondStrechParameters.KeysKept dat'.bondStrechParameters ∧
  dat.angleBendParameters.KeysKept dat'.angleBendParameters ∧
  dat.strechBendParameters.KeysKept dat'.strechBendParameters ∧
  dat.defaultStrechBendParameters <+: dat'.defaultStrechBendParameters ∧
  dat.outOfPlaneBendingParameters.KeysKept dat'.outOfPlaneBendingParameters ∧
  dat.torsionParameters.KeysKept dat'.torsionParameters ∧
  dat.vanDerWaalsParameters.KeysKept dat'.vanDerWaalsParameters ∧
  dat.chargeParameters <+: dat'.chargeParameters ∧
  dat.partialChargeParameters.KeysKept dat'.partialChargeParameters

/-! ## Shared tables: reference counts, the plugin cache and `read` -/

/-- Modelled from the spec: the class `MmffParametersData` (mmffparametersdata.h)
is not among the sources. It is the reference-counted table of the spec: an
object holds its tables and the number of references held on it. -/
structure MmffParametersDataObject (F : Type) where
  refCount : Nat
  tables : MmffParametersData F

/-- The objects of class `MmffParametersData` that exist, by address; `next`
is the address the next allocation returns. An address whose object was
destroyed holds no object and is not used again. -/
structure Heap (F : Type) where
  objects : Nat → Option (MmffParametersDataObject F)
  next : Nat

/-- Modelled from the spec: `new MmffParametersData`, a new object with empty
tables and one reference, the one of its creator. -/
def Heap.new {F : Type} (heap : Heap F) : Nat × Heap F :=
  (heap.next,
   { objects := fun q =>
       if q = heap.next then some ⟨1, MmffParametersData.empty F⟩ else heap.objects q
     next := heap.next + 1 })

/-- Modelled from the spec: `MmffParametersData::ref()`, one reference more.
`none` is the use of an object that does not exist. -/
def Heap.ref {F : Type} (heap : Heap F) (p : Nat) : Option (Heap F) :=
  match heap.objects p with
  | none => none
  | some obj =>
    some { heap with
      objects := fun q =>
        if q = p then some { obj with refCount := obj.refCount + 1 } else heap.objects q }

/-- Modelled from the spec: `MmffParametersData::deref()`, one reference less;
the object is destroyed when its reference count reaches zero. `none` is the
use of an object that does not exist. -/
def Heap.deref {F : Type} (heap : Heap F) (p : Nat) : Option (Heap F) :=
  match heap.objects p with
  | none => none
  | some obj =>
    some { heap with
      objects := fun q =>
        if q = p then
          if obj.refCount ≤ 1 then none else some { obj with refCount := obj.refCount - 1 }
        else heap.objects q }

/-- The tables of the object at `p` are replaced: the effect of the stores
that the loop of `read` makes through `d`. -/
def Heap.setTables {F : Type} (heap : Heap F) (p : Nat) (tables : MmffParametersData F) :
    Option (Heap F) :=
  match heap.objects p with
  | none => none
  | some obj =>
    some { heap with
      objects := fun q => if q = p then some { obj with tables := tables } else heap.objects q }

/-- The Qt container `QHash<QString, T *>` as an association list; a pointer
is an address of the heap. -/
structure QStringHash where
  entries : List (String × Nat)

/-- Lookup `QHash::value(name, 0)`: the stored pointer, or null. -/
def QStringHash.value (h : QStringHash) (name : String) : Option Nat :=
  (h.entries.find? (fun e => e.1 == name)).map Prod.snd

/-- Library call `QHash::insert(name, p)`: the entry of `name` is created or
replaced. -/
def QStringHash.insert (h : QStringHash) (name : String) (p : Nat) : QStringHash :=
  ⟨(name, p) :: h.entries.filter (fun e => e.1 != name)⟩

/-- Number of entries the cache holds for `name`. -/
def QStringHash.count (h : QStringHash) (name : String) : Nat :=
  (h.entries.filter (fun e => e.1 == name)).length

/-- The data member of `MmffPlugin`. -/
structure MmffPlugin where
  m_parametersCache : QStringHash

/-- Source: `MmffPlugin::parameters` (mmffplugin.cpp). -/
def MmffPlugin.parameters (plugin : MmffPlugin) (name : String) : Option Nat :=
  plugin.m_parametersCache.value name

/-- Source: `MmffPlugin::storeParameters` (mmffplugin.cpp): the table stored
under `name`, if any, is dereferenced, `parameters` is inserted and
referenced. `none` is the use of an object that does not exist. -/
def MmffPlugin.storeParameters {F : Type} (plugin : MmffPlugin) (heap : Heap F)
    (name : String) (parameters : Nat) : Option (MmffPlugin × Heap F) :=
  let heap1 :=
    match plugin.m_parametersCache.value name with
    | some old => heap.deref old
    | none => some heap
  match heap1 with
  | none => none
  | some heap1 =>
    let cache := plugin.m_parametersCache.insert name parameters
    (heap1.ref parameters).map fun heap2 => (⟨cache⟩, heap2)

/-- The data members of an `MmffParameters`: the pointer `d` to its table,
the file name and the error string. -/
structure State where
  d : Option Nat
  m_fileName : String
  m_errorString : String
deriving DecidableEq, Repr

/-- What `read` shares with the rest of the program: the heap of tables and
the mmff plugin of the plugin manager (null when it is not loaded). -/
structure World (F : Type) where
  heap : Heap F
  mmffPlugin : Option MmffPlugin

/-- Source: `MmffParameters::MmffParameters()`: `d(new MmffParametersData)`. -/
def construct {F : Type} (w : World F) : State × World F :=
  let (p, heap) := w.heap.new
  ({ d := some p, m_fileName := "", m_errorString := "" }, { w with heap := heap })

/-- Source: `MmffParameters::read`, lines 262-266: the old table is
dereferenced and `d` set to null. -/
def releaseOld {F : Type} (d : Option Nat) (heap : Heap F) : Option (Heap F) :=
  match d with
  | some p => heap.deref p
  | none => some heap

/-- Source: `MmffParameters::read`. `openFile` is the file system: the lines
of a file that can be opened, or the error string of `QFile`. The result is
the value returned and the state left, or `none` when an object that does
not exist is used or the loop faults. -/
def read {F : Type} (toDouble : String → F) (openFile : String → Except String (List String))
    (fileName : String) (self : State) (w : World F) : Option (Bool × State × World F) :=
  -- delete old parameters data
  match releaseOld self.d w.heap with
  | none => none
  | some heap1 =>
  -- try to load cached parameters
  match w.mmffPlugin.bind (fun mmffPlugin => mmffPlugin.parameters fileName) with
  | some p =>
    (heap1.ref p).map fun heap2 => (true, { self with d := some p }, { w with heap := heap2 })
  | none =>
  -- create new parameters data if we don't have a cached one
  let (p, heap2) := heap1.new
  match openFile fileName with
  | .error errorString =>
    some (false, { self with d := some p, m_errorString := errorString },
      { w with heap := heap2 })
  | .ok lines =>
    match heap2.objects p with
    | none => none
    | some obj =>
    match readLines toDouble lines Section.BondStrech obj.tables with
    | none => none
    | some tables =>
    match heap2.setTables p tables with
    | none => none
    | some heap3 =>
      let self' : State :=
        { d := some p, m_fileName := fileName, m_errorString := self.m_errorString }
      -- store parameters in the cache
      match w.mmffPlugin with
      | none => some (true, self', { w with heap := heap3 })
      | some mmffPlugin =>
        (mmffPlugin.storeParameters heap3 fileName p).map fun (mmffPlugin, heap4) =>
          (true, self', { heap := heap4, mmffPlugin := some mmffPlugin })

/-- The table `d` points to, on which the lookups of an `MmffParameters`
work. -/
def currentTables {F : Type} (self : State) (w : World F) : Option (MmffParametersData F) :=
  match self.d with
  | none => none
  | some p => (w.heap.objects p).map (fun obj => obj.tables)

/-- Source: `MmffParameters::fileName`. -/
def fileName (self : State) : String :=
  self.m_fileName

/-! ## Sample data used to instantiate the theorems -/

namespace Sample

/-- Atom-type record of type 1 (first row of `AtomParameters`). -/
def record1 : MmffAtomParameters := ⟨6, 4, 4, 0, 0, 0, 0, 0⟩

/-- Atom-type record of type 2 (second row of `AtomParameters`), `sbmb` set. -/
def record2 : MmffAtomParameters := ⟨6, 3, 4, 0, 2, 0, 0, 1⟩

/-- A chain of four atoms 0-1-2-3: bond 0 joins atoms 0 and 1, bond 1 joins
1 and 2 and bond 2 joins 2 and 3; bond 0 is double, bonds 1 and 2 are
single; nothing is aromatic and there is no ring. -/
def chain : Molecule where
  bondTo x y :=
    if (x = 0 ∧ y = 1) ∨ (x = 1 ∧ y = 0) then some 0
    else if (x = 1 ∧ y = 2) ∨ (x = 2 ∧ y = 1) then some 1
    else if (x = 2 ∧ y = 3) ∨ (x = 3 ∧ y = 2) then some 2
    else none
  isBondedTo x y :=
    decide ((x = 0 ∧ y = 1) ∨ (x = 1 ∧ y = 0) ∨ (x = 1 ∧ y = 2) ∨ (x = 2 ∧ y = 1) ∨
      (x = 2 ∧ y = 3) ∨ (x = 3 ∧ y = 2))
  neighbors x :=
    if x = 0 then [1] else if x = 1 then [0, 2] else if x = 2 then [1, 3]
    else if x = 3 then [2] else []
  rings _ := []
  order bond := if bond = 0 then 2 else 1
  isAromaticBond _ := false
  ringSize _ := 0
  ringContains _ _ := false
  isAromaticRing _ := false

/-- The four atoms of `chain`, of types 2, 3, 2 and 1 (the records of the
types 2 and 3 are equal in `AtomParameters`). -/
def c0 : MmffAtom := { atom := 0, typeNumber := 2, period := 2, parameters := some record2 }
def c1 : MmffAtom := { atom := 1, typeNumber := 3, period := 2, parameters := some record2 }
def c2 : MmffAtom := { atom := 2, typeNumber := 2, period := 2, parameters := some record2 }
def c3 : MmffAtom := { atom := 3, typeNumber := 1, period := 2, parameters := some record1 }

/-- A ring of five atoms 0-1-2-3-4-0 with single bonds, bond i joining atom i
and the next atom; ring 0 holds the five atoms and is not aromatic. -/
def ring5 : Molecule where
  bondTo x y :=
    if x < 5 ∧ y < 5 ∧ y = (x + 1) % 5 then some x
    else if x < 5 ∧ y < 5 ∧ x = (y + 1) % 5 then some y
    else none
  isBondedTo x y := decide (x < 5 ∧ y < 5 ∧ (y = (x + 1) % 5 ∨ x = (y + 1) % 5))
  neighbors x := if x < 5 then [(x + 4) % 5, (x + 1) % 5] else []
  rings x := if x < 5 then [0] else []
  order _ := 1
  isAromaticBond _ := false
  ringSize _ := 5
  ringContains ring x := decide (ring = 0 ∧ x < 5)
  isAromaticRing _ := false

/-- Four consecutive atoms of `ring5`, all of type 1. -/
def r0 : MmffAtom := { atom := 0, typeNumber := 1, period := 2, parameters := some record1 }
def r1 : MmffAtom := { atom := 1, typeNumber := 1, period := 2, parameters := some record1 }
def r2 : MmffAtom := { atom := 2, typeNumber := 1, period := 2, parameters := some record1 }
def r3 : MmffAtom := { atom := 3, typeNumber := 1, period := 2, parameters := some record1 }

/-- An atom of type 83, a type that has no row in `EquivalentTypes`, in the
place of atom 0 of `chain`; its record is row 83 of `AtomParameters`. -/
def x83 : MmffAtom :=
  { atom := 0, typeNumber := 83, period := 4, parameters := some ⟨0, 0, 0, 0, 0, 0, 0, 0⟩ }

/-- A table with one bond-strech entry (bond type 1, types 2 and 3), one
angle-bend entry (angle type 1, types 1, 2, 3), the generic out-of-plane
entry of centre type 3 (outer types 0), the generic torsion entry of torsion
type 1 and centre types 2 and 3 (outer types 0), and nothing else; the values
are kept as the text of the fields. -/
def table : MmffParametersData String :=
  { MmffParametersData.empty String with
    bondStrechParameters := ⟨[(calculateBondStrechIndex 1 2 3, ⟨"5.310", "1.430"⟩)]⟩
    angleBendParameters := ⟨[(calculateAngleBendIndex 1 1 2 3, ⟨"0.695", "119.1"⟩)]⟩
    outOfPlaneBendingParameters := ⟨[(calculateOutOfPlaneBendingIndex 0 3 0 0, ⟨"0.020"⟩)]⟩
    torsionParameters := ⟨[(calculateTorsionIndex 1 0 2 3 0, ⟨"0.000", "1.500", "0.000"⟩)]⟩ }

/-- A table whose only entry is the out-of-plane row `1 5 2 3 0.050`, the
outer types 1, 2, 3 written in ascending order around the centre type 5. -/
def oopSorted : MmffParametersData String :=
  { MmffParametersData.empty String with
    outOfPlaneBendingParameters := ⟨[(calculateOutOfPlaneBendingIndex 1 5 2 3, ⟨"0.050"⟩)]⟩ }

/-- A table whose only entry is the out-of-plane row `2 5 1 3 0.050`. -/
def oopUnsorted : MmffParametersData String :=
  { MmffParametersData.empty String with
    outOfPlaneBendingParameters := ⟨[(calculateOutOfPlaneBendingIndex 2 5 1 3, ⟨"0.050"⟩)]⟩ }

/-- A heap with two tables, at the addresses 0 and 1, each empty and with one
reference. -/
def heap : Heap String :=
  { objects := fun q => if q ≤ 1 then some ⟨1, MmffParametersData.empty String⟩ else none
    next := 2 }

/-- A plugin whose cache maps `a.prm` to the table at address 0. -/
def plugin : MmffPlugin := ⟨⟨[("a.prm", 0)]⟩⟩

/-- A table with two torsion entries of torsion type 1 and centre types 2 and
3, the rows `1 0 2 3 2 0.000 1.000 0.000` and `1 1 2 3 0 0.000 2.000 0.000`,
each generic (type 0) at one end only. -/
def torsionBothEnds : MmffParametersData String :=
  { MmffParametersData.empty String with
    torsionParameters :=
      ⟨[(calculateTorsionIndex 1 0 2 3 2, ⟨"0.000", "1.000", "0.000"⟩),
        (calculateTorsionIndex 1 1 2 3 0, ⟨"0.000", "2.000", "0.000"⟩)]⟩ }

/-- A table with the three charge rows `0 3 2 -0.5`, `0 2 3 0.1` and
`0 2 3 0.9`, in this order. -/
def chargeTable : MmffParametersData String :=
  { MmffParametersData.empty String with
    chargeParameters := [⟨0, 3, 2, "-0.5"⟩, ⟨0, 2, 3, "0.1"⟩, ⟨0, 2, 3, "0.9"⟩] }

/-- A conversion to `double` for the instances, the value kept as the text:
it fails on a text that holds a character other than a digit, a point or a
minus sign. -/
def convert : String → Option String := fun s =>
  if s.data.all (fun c => c.isDigit || c == '.' || c == '-') then some s else none

/-- A world with no table and a plugin whose cache is empty. -/
def world : World String :=
  { heap := { objects := fun _ => none, next := 0 }, mmffPlugin := some ⟨⟨[]⟩⟩ }

/-- A file system in which only `mmff.prm` can be opened; it holds one
bond-strech row. -/
def openFile : String → Except String (List String) := fun name =>
  if name = "mmff.prm" then .ok ["0 1 5 4.258 1.508"] else .error "No such file or directory"

end Sample

end MmffParameters

/-! # Generic files (chemkit, `src/chemkit/genericfile-inline.h`) -/

namespace GenericFile

/-- What the class template `GenericFile<File, Format>` takes from its
parameter `Format` and from the libraries: the format factory
`Format::create`, `boost::filesystem::extension`, the opening of a file for
reading, and `Format::read`, which returns its result, the contents it gave
to the file and its error string. -/
structure Env (Format Device Contents : Type) where
  create : String → Option Format
  extension : String → String
  openRead : String → Option Device
  formatRead : Format → Device → Contents → Bool × Contents × String

/-- The data members of a `GenericFile` the code reads and writes, and the
contents a format reads into the file. -/
structure File (Format Contents : Type) where
  m_fileName : String
  m_format : Option Format
  m_errorString : String
  contents : Contents

variable {Format Device Contents : Type}

/-- Source: `GenericFile::suffix`. -/
def suffix (env : Env Format Device Contents) (fileName : String) : String :=
  let extension := env.extension fileName
  if extension.isEmpty then ""
  else
    -- remove the leading '.' character
    String.mk (extension.data.drop 1)

/-- Source: `GenericFile::setErrorString`. -/
def setErrorString (file : File Format Contents) (errorString : String) :
    File Format Contents :=
  { file with m_errorString := errorString }

/-- Source: `GenericFile::setFormat(Format *format)`. -/
def setFormat (file : File Format Contents) (format : Option Format) : File Format Contents :=
  { file with m_format := format }

/-- Source: `GenericFile::setFormat(const std::string &formatName)`. -/
def setFormatName (env : Env Format Device Contents) (file : File Format Contents)
    (formatName : String) : Bool × File Format Contents :=
  match env.create formatName with
  | none =>
    (false, setErrorString file ("File format '" ++ formatName ++ "' is not supported."))
  | some format => (true, setFormat file (some format))

/-- Source: `GenericFile::setFileName`. -/
def setFileName (env : Env Format Device Contents) (file : File Format Contents)
    (fileName : String) : File Format Contents :=
  let file := { file with m_fileName := fileName }
  if file.m_format.isNone then (setFormatName env file (suffix env fileName)).2
  else file

/-- Source: `GenericFile::read(QIODevice *iodev)`. -/
def readIODevice (env : Env Format Device Contents) (file : File Format Contents)
    (iodev : Device) : Bool × File Format Contents :=
  -- check for valid format
  match file.m_format with
  | none => (false, setErrorString file "No file format set for reading.")
  | some format =>
    -- read the file
    let (ok, contents, errorString) := env.formatRead format iodev file.contents
    let file := { file with contents := contents }
    if !ok then (ok, setErrorString file errorString) else (ok, file)

/-- Source: `GenericFile::read()`. -/
def read (env : Env Format Device Contents) (file : File Format Contents) :
    Bool × File Format Contents :=
  if file.m_fileName.isEmpty then
    (false, setErrorString file "No file name set for reading.")
  else if file.m_format.isNone then
    (false, setErrorString file "No file format set for reading.")
  else
    -- open file
    match env.openRead file.m_fileName with
    | none => (false, setErrorString file "Failed to open file for reading.")
    | some iodev => readIODevice env file iodev

/-- Source: `GenericFile::read(const std::string &fileName, const std::string
&formatName)`. -/
def readFileNameFormat (env : Env Format Device Contents) (file : File Format Contents)
    (fileName formatName : String) : Bool × File Format Contents :=
  -- set the file name for the file
  let file := setFileName env file fileName
  -- set the format for the file
  let (ok, file) := setFormatName env file formatName
  if !ok then (false, file)
  else read env file

/-- Source: `GenericFile::read(const std::string &fileName)`. -/
def readFileName (env : Env Format Device Contents) (file : File Format Contents)
    (fileName : String) : Bool × File Format Contents :=
  readFileNameFormat env file fileName (suffix env fileName)

/-- The sequence the documentation of `read(fileName)` calls equivalent to it:
`file.setFileName(fileName); file.read();`. -/
def setFileNameThenRead (env : Env Format Device Contents) (file : File Format Contents)
    (fileName : String) : Bool × File Format Contents :=
  read env (setFileName env file fileName)

/-- A sample environment: the formats `mol` and `xyz` exist and are named by
their text, the extension of a file name starts at its last dot, every file
can be opened, and reading with a format puts the name of the format in
the file. -/
def sampleEnv : Env String Unit (List String) where
  create name := if name = "mol" ∨ name = "xyz" then some name else none
  extension fileName :=
    match (fileName.data.reverse.span (fun c => c != '.')) with
    | (_, []) => ""
    | (tail, _ :: _) => String.mk ('.' :: tail.reverse)
  openRead _ := some ()
  formatRead format _ contents := (true, contents ++ [format], "")

/-- A file on which the format `mol` was set and no file name. -/
def sampleFile : File String (List String) :=
  { m_fileName := "", m_format := some "mol", m_errorString := "", contents := [] }

end GenericFile

/-! # Molecule files (chemkit, `src/chemkit/moleculefile.cpp`) -/

namespace MoleculeFile

/-- Source: `class MoleculeFilePrivate`. A molecule is named by its address,
a `QVariant` is a value of type `V`, and `std::map` is an association
list. -/
structure MoleculeFilePrivate (Format V : Type) where
  fileName : String
  errorString : String
  format : Option Format
  molecules : List Nat
  fileData : List (String × V)
  moleculeData : List (Nat × List (String × V))

variable {Format V : Type}

/-- The library call `std::find(begin, end, x)` on a vector: the position of
the first element equal to `x`, or the size of the vector for `end()`. -/
def find (x : Nat) : List Nat → Nat
  | [] => 0
  | y :: ys => if y = x then 0 else find x ys + 1

/-- Source: `MoleculeFile::setFormat(MoleculeFileFormat *format)`. -/
def setFormat (d : MoleculeFilePrivate Format V) (format : Option Format) :
    MoleculeFilePrivate Format V :=
  { d with format := format }

/-- Source: `MoleculeFile::setFormat(const std::string &name)`; `create` is
`MoleculeFileFormat::create`. -/
def setFormatName (create : String → Option Format) (d : MoleculeFilePrivate Format V)
    (name : String) : Bool × MoleculeFilePrivate Format V :=
  let format := create name
  match format with
  | none => (false, d)
  | some format => (true, setFormat d (some format))

/-- Source: `MoleculeFile::removeMolecule`. -/
def removeMolecule (d : MoleculeFilePrivate Format V) (molecule : Nat) :
    Bool × MoleculeFilePrivate Format V :=
  let location := find molecule d.molecules
  if location = d.molecules.length then (false, d)
  else
    (true,
     { d with
       molecules := d.molecules.eraseIdx location
       moleculeData := d.moleculeData.filter (fun e => e.1 != molecule) })

/-- Source: `MoleculeFile::moleculeCount`. -/
def moleculeCount (d : MoleculeFilePrivate Format V) : Int :=
  d.molecules.length

/-- Source: `MoleculeFile::contains`. -/
def contains (d : MoleculeFilePrivate Format V) (molecule : Nat) : Bool :=
  find molecule d.molecules != d.molecules.length

end MoleculeFile

namespace MmffParameters

/-! # Properties -/

/-- Inside the 32-bit range `toInt32` changes nothing. -/
theorem toInt32_of_inRange (x : Int) (h1 : -2147483648 ≤ x) (h2 : x < 2147483648) :
    toInt32 x = x := by
  unfold toInt32; omega

/-- C1. Each of the five key functions is injective on valid inputs: with all
atom types in 1..99 and the classification in its range (bond 0..1, angle
0..8, strech-bend 0..11, torsion 0..5), equal keys force equal argument
tuples. -/
theorem index_injective_on_valid
    (a b c d a' b' c' d' : Int)
    (ha : ValidType a) (hb : ValidType b) (hc : ValidType c) (hd : ValidType d)
    (ha' : ValidType a') (hb' : ValidType b') (hc' : ValidType c') (hd' : ValidType d') :
    (∀ t t', InRange 1 t → InRange 1 t' →
        calculateBondStrechIndex t a b = calculateBondStrechIndex t' a' b' →
        (t, a, b) = (t', a', b')) ∧
    (∀ t t', InRange 8 t → InRange 8 t' →
        calculateAngleBendIndex t a b c = calculateAngleBendIndex t' a' b' c' →
        (t, a, b, c) = (t', a', b', c')) ∧
    (∀ t t', InRange 11 t → InRange 11 t' →
        calculateStrechBendIndex t a b c = calculateStrechBendIndex t' a' b' c' →
        (t, a, b, c) = (t', a', b', c')) ∧
    (calculateOutOfPlaneBendingIndex a b c d = calculateOutOfPlaneBendingIndex a' b' c' d' →
        (a, b, c, d) = (a', b', c', d')) ∧
    (∀ t t', InRange 5 t → InRange 5 t' →
        calculateTorsionIndex t a b c d = calculateTorsionIndex t' a' b' c' d' →
        (t, a, b, c, d) = (t', a', b', c', d')) := by
  unfold ValidType at *
  refine ⟨?_, ?_, ?_, ?_, ?_⟩
  · intro t t' ht ht' h
    unfold InRange at *
    unfold calculateBondStrechIndex at h
    rw [toInt32_of_inRange _ (by omega) (by omega), toInt32_of_inRange _ (by omega) (by omega)] at h
    simp only [Prod.mk.injEq]
    omega
  · intro t t' ht ht' h
    unfold InRange at *
    unfold calculateAngleBendIndex at h
    rw [toInt32_of_inRange _ (by omega) (by omega), toInt32_of_inRange _ (by omega) (by omega)] at h
    simp only [Prod.mk.injEq]
    omega
  · intro t t' ht ht' h
    unfold InRange at *
    unfold calculateStrechBendIndex at h
    rw [toInt32_of_inRange _ (by omega) (by omega), toInt32_of_inRange _ (by omega) (by omega)] at h
    simp only [Prod.mk.injEq]
    omega
  · intro h
    unfold calculateOutOfPlaneBendingIndex at h
    rw [toInt32_of_inRange _ (by omega) (by omega), toInt32_of_inRange _ (by omega) (by omega)] at h
    simp only [Prod.mk.injEq]
    omega
  · intro t t' ht ht' h
    unfold InRange at *
    unfold calculateTorsionIndex at h
    rw [toInt32_of_inRange _ (by omega) (by omega), toInt32_of_inRange _ (by omega) (by omega)] at h
    simp only [Prod.mk.injEq]
    omega

/-- Instance of C1: the valid torsion descriptions (5, 99, 98, 99, 1) and
(0, 1, 99, 99, 99), at the two ends of the range, have different keys. -/
theorem index_injective_on_valid_witness :
    (ValidType 99 ∧ ValidType 98 ∧ ValidType 1 ∧ InRange 5 5 ∧ InRange 5 0) ∧
    calculateTorsionIndex 5 99 98 99 1 ≠ calculateTorsionIndex 0 1 99 99 99 :=
  ⟨by decide, fun h => absurd
    ((index_injective_on_valid 99 98 99 1 1 99 99 99
      (by decide) (by decide) (by decide) (by decide)
      (by decide) (by decide) (by decide) (by decide)).2.2.2.2 5 0 (by decide) (by decide) h)
    (by decide)⟩

/-- The bond-strech lookup reads the table at the key of the two types in
ascending order. -/
theorem Internal.bondStrechParameters_eq {F : Type} (dat : MmffParametersData F)
    (bondType typeA typeB : Int) :
    Internal.bondStrechParameters dat bondType typeA typeB =
      dat.bondStrechParameters.value
        (calculateBondStrechIndex bondType (min typeA typeB) (max typeA typeB)) := by
  unfold Internal.bondStrechParameters
  by_cases h : typeA > typeB
  · have h1 : min typeA typeB = typeB := min_eq_right (le_of_lt h)
    have h2 : max typeA typeB = typeA := max_eq_left (le_of_lt h)
    simp [h, h1, h2]
  · have h1 : min typeA typeB = typeA := min_eq_left (not_lt.mp h)
    have h2 : max typeA typeB = typeB := max_eq_right (not_lt.mp h)
    simp [h, h1, h2]

/-- C2. Bond-strech lookup is symmetric: for every table, bond type and pair
of atom types the internal lookup gives the same result for (bt, a, b) and
(bt, b, a); hence for two atoms whose bond type is the same in both orders the
lookup by atoms gives the same result for (a, b) and (b, a). -/
theorem bondStrechParameters_symmetric {F : Type} (m : Molecule)
    (dat : MmffParametersData F) :
    (∀ bondType typeA typeB : Int,
      Internal.bondStrechParameters dat bondType typeA typeB =
        Internal.bondStrechParameters dat bondType typeB typeA) ∧
    (∀ a b : MmffAtom, calculateBondType m a b = calculateBondType m b a →
      bondStrechParameters m dat a b = bondStrechParameters m dat b a) := by
  have key : ∀ bondType typeA typeB : Int,
      Internal.bondStrechParameters dat bondType typeA typeB =
        Internal.bondStrechParameters dat bondType typeB typeA := by
    intro bondType typeA typeB
    rw [Internal.bondStrechParameters_eq, Internal.bondStrechParameters_eq,
      min_comm, max_comm]
  refine ⟨key, ?_⟩
  intro a b h
  unfold bondStrechParameters
  rw [h]
  cases calculateBondType m b a with
  | none => rfl
  | some bt => simp [key bt a.typeNumber b.typeNumber]

/-- Instance of C2 on the central bond of `Sample.chain`: the bond type is
1 in both orders, and both orders find the entry of `Sample.table`. -/
theorem bondStrechParameters_symmetric_witness :
    calculateBondType Sample.chain Sample.c1 Sample.c2 =
      calculateBondType Sample.chain Sample.c2 Sample.c1 ∧
    bondStrechParameters Sample.chain Sample.table Sample.c1 Sample.c2 =
      bondStrechParameters Sample.chain Sample.table Sample.c2 Sample.c1 ∧
    bondStrechParameters Sample.chain Sample.table Sample.c2 Sample.c1 =
      some (some ⟨"5.310", "1.430"⟩) :=
  ⟨by decide,
   (bondStrechParameters_symmetric Sample.chain Sample.table).2 Sample.c1 Sample.c2
     (by decide),
   by decide⟩

/-- The bond type does not depend on the order of the two atoms when the bond
between them is the same from either end. -/
theorem calculateBondType_comm (m : Molecule) (hm : ∀ x y, m.bondTo x y = m.bondTo y x)
    (a b : MmffAtom) : calculateBondType m a b = calculateBondType m b a := by
  unfold calculateBondType
  rw [hm a.atom b.atom]
  cases a.parameters <;> cases b.parameters <;> simp only []
  cases m.bondTo b.atom a.atom with
  | none => rfl
  | some bond =>
    simp only []
    rename_i pa pb
    by_cases s1 : pa.sbmb = 0 <;> by_cases s2 : pb.sbmb = 0 <;>
      by_cases r1 : pa.arom = 0 <;> by_cases r2 : pb.arom = 0 <;>
      simp [s1, s2, r1, r2]

/-- The four-membered-ring flag of an angle is a statement about a common
neighbour. -/
theorem angleInFourMemberedRing_iff (m : Molecule) (a b c : MmffAtom) :
    angleInFourMemberedRing m a b c = true ↔
      ∃ n, n ∈ m.neighbors a.atom ∧ n ≠ b.atom ∧ m.isBondedTo n c.atom = true := by
  unfold angleInFourMemberedRing
  simp [List.any_eq_true]

/-- In an undirected graph the four-membered-ring flag is the same from
either end of the angle. -/
theorem angleInFourMemberedRing_comm (m : Molecule) (hm : m.Undirected) (a b c : MmffAtom) :
    angleInFourMemberedRing m a b c = angleInFourMemberedRing m c b a := by
  obtain ⟨_, hsym, hnb⟩ := hm
  rw [Bool.eq_iff_iff, angleInFourMemberedRing_iff, angleInFourMemberedRing_iff]
  constructor
  · rintro ⟨n, hn, hne, hb⟩
    refine ⟨n, ?_, hne, ?_⟩
    · rw [hnb]; exact hb
    · rw [← hnb]; exact hn
  · rintro ⟨n, hn, hne, hb⟩
    refine ⟨n, ?_, hne, ?_⟩
    · rw [hnb]; exact hb
    · rw [← hnb]; exact hn

/-- The angle type is the same from either end in an undirected graph. -/
theorem calculateAngleType_comm (m : Molecule) (hm : m.Undirected) (a b c : MmffAtom) :
    calculateAngleType m a b c = calculateAngleType m c b a := by
  unfold calculateAngleType
  rw [calculateBondType_comm m hm.1 c b, calculateBondType_comm m hm.1 b a,
    angleInFourMemberedRing_comm m hm a b c, hm.2.1 a.atom c.atom]
  cases calculateBondType m a b <;> cases calculateBondType m b c <;> simp only []
  rename_i x y
  rw [add_comm y x]

/-- The angle-bend lookup reads the table at the key of the outer types in
ascending order, the centre type in the middle. -/
theorem Internal.angleBendParameters_eq {F : Type} (dat : MmffParametersData F)
    (angleType typeA typeB typeC : Int) :
    Internal.angleBendParameters dat angleType typeA typeB typeC =
      dat.angleBendParameters.value
        (calculateAngleBendIndex angleType (min typeA typeC) typeB (max typeA typeC)) := by
  unfold Internal.angleBendParameters
  by_cases h : typeA > typeC
  · have h1 : min typeA typeC = typeC := min_eq_right (le_of_lt h)
    have h2 : max typeA typeC = typeA := max_eq_left (le_of_lt h)
    simp [h, h1, h2]
  · have h1 : min typeA typeC = typeA := min_eq_left (not_lt.mp h)
    have h2 : max typeA typeC = typeC := max_eq_right (not_lt.mp h)
    simp [h, h1, h2]

/-- C3. Angle-bend lookup is symmetric in the outer atoms: in an undirected
molecular graph `calculateAngleType` gives the same angle type for (a, b, c)
and (c, b, a), the internal lookup orders the two outer types ascending with
the centre fixed, and so `angleBendParameters` gives the same result for
(a, b, c) and (c, b, a), for every table. -/
theorem angleBendParameters_symmetric {F : Type} (m : Molecule) (hm : m.Undirected)
    (dat : MmffParametersData F) (a b c : MmffAtom) :
    calculateAngleType m a b c = calculateAngleType m c b a ∧
    (∀ angleType typeA typeB typeC : Int,
      Internal.angleBendParameters dat angleType typeA typeB typeC =
        dat.angleBendParameters.value
          (calculateAngleBendIndex angleType (min typeA typeC) typeB (max typeA typeC))) ∧
    angleBendParameters m dat a b c = angleBendParameters m dat c b a := by
  refine ⟨calculateAngleType_comm m hm a b c, Internal.angleBendParameters_eq dat, ?_⟩
  unfold angleBendParameters
  rw [calculateAngleType_comm m hm a b c, min_comm, max_comm]

/-- The sample graph is undirected. -/
theorem Sample.chain_undirected : Sample.chain.Undirected := by
  refine ⟨?_, ?_, ?_⟩
  · intro x y
    simp only [Sample.chain]
    split_ifs <;> first | rfl | omega
  · intro x y
    simp only [Sample.chain, decide_eq_decide]
    omega
  · intro x y
    simp only [Sample.chain, decide_eq_true_eq]
    split_ifs <;> simp <;> omega

/-- Instance of C3 on the angle 3-2-1 of `Sample.chain` (types 1, 2, 3):
both directions have angle type 1 and find the entry of `Sample.table`. -/
theorem angleBendParameters_symmetric_witness :
    Sample.chain.Undirected ∧
    angleBendParameters Sample.chain Sample.table Sample.c3 Sample.c2 Sample.c1 =
      angleBendParameters Sample.chain Sample.table Sample.c1 Sample.c2 Sample.c3 ∧
    angleBendParameters Sample.chain Sample.table Sample.c1 Sample.c2 Sample.c3 =
      some (some ⟨"0.695", "119.1"⟩) :=
  ⟨Sample.chain_undirected,
   (angleBendParameters_symmetric Sample.chain Sample.chain_undirected
     Sample.table Sample.c3 Sample.c2 Sample.c1).2.2,
   by decide⟩

/-! ## Loading rows -/

/-- Reading the key just written gives the value written. -/
theorem QHash.value_insert_self {V : Type} (h : QHash V) (key : Int) (v : V) :
    (h.insert key v).value key = some v := by
  simp [QHash.insert, QHash.value]

/-- Section markers only advance the section counter. -/
theorem readLines_markers {F : Type} (toDouble : String → F) (rest : List String)
    (dat : MmffParametersData F) :
    ∀ (k sect : Nat), sect + k < Section.End →
      readLines toDouble (List.replicate k "$\n" ++ rest) sect dat =
        readLines toDouble rest (sect + k) dat
  | 0, sect, _ => by simp
  | k + 1, sect, h => by
    have hs : startsWith "$\n" '$' = true := by decide
    have hne : ¬ (sect + 1 = Section.End) := by omega
    rw [List.replicate_succ, List.cons_append, readLines]
    simp only [hs, if_true, hne, if_false]
    rw [readLines_markers toDouble rest dat k (sect + 1) (by omega)]
    congr 1
    omega

/-- A single data line is handed to the section dispatch. -/
theorem readLines_single_row {F : Type} (toDouble : String → F) (line : String)
    (data : List String) (sect : Nat) (dat : MmffParametersData F)
    (h1 : startsWith line '$' = false) (h2 : startsWith line '#' = false)
    (hs : split line = data) (hl : 2 ≤ data.length) :
    readLines toDouble [line] sect dat = readRow toDouble sect data dat := by
  have hc : (data.isEmpty || decide (data.length < 2)) = false := by
    cases data with
    | nil => simp at hl
    | cons x xs => simp at hl ⊢; exact hl
  rw [readLines]
  simp only [h1, h2, hs, hc, Bool.false_eq_true, if_false]
  cases readRow toDouble sect data dat with
  | none => rfl
  | some dat' => simp [readLines]

/-- A source made of `k` section markers and one data line: the line is
dispatched in section `k` on the empty table. -/
theorem readFile_single_row {F : Type} (toDouble : String → F) (line : String)
    (data : List String) (k : Nat) (hk : k < Section.End)
    (h1 : startsWith line '$' = false) (h2 : startsWith line '#' = false)
    (hs : split line = data) (hl : 2 ≤ data.length) :
    readFile toDouble (List.replicate k "$\n" ++ [line]) =
      readRow toDouble k data (MmffParametersData.empty F) := by
  unfold readFile
  rw [readLines_markers toDouble [line] _ k Section.BondStrech
    (by simp only [Section.BondStrech]; omega)]
  simp only [Section.BondStrech, Nat.zero_add]
  exact readLines_single_row toDouble line data k _ h1 h2 hs hl

/-- C4 (as amended). `read` stores the record of a bond-strech, angle-bend,
out-of-plane or torsion row under the key of the row's types in the order
the row writes them. After loading a source whose only row is that row, the
lookup with the row's own classification and types returns exactly the
parsed values when the types are written in the order the lookup uses: bond
a ≤ b; angle a ≤ c; out-of-plane a ≤ c ≤ d; torsion b < c, or b = c and
a ≤ d. -/
theorem read_row_roundtrip_in_lookup_order {F : Type} (toDouble : String → F)
    (line : String) (data : List String)
    (h1 : startsWith line '$' = false) (h2 : startsWith line '#' = false)
    (hs : split line = data) (hl : 2 ≤ data.length) :
    (∃ dat, readFile toDouble (List.replicate Section.BondStrech "$\n" ++ [line]) = some dat ∧
      dat.bondStrechParameters.entries =
        [(calculateBondStrechIndex (intField data 0) (intField data 1) (intField data 2),
          ⟨doubleField toDouble data 3, doubleField toDouble data 4⟩)] ∧
      (intField data 1 ≤ intField data 2 →
        Internal.bondStrechParameters dat (intField data 0) (intField data 1) (intField data 2) =
          some ⟨doubleField toDouble data 3, doubleField toDouble data 4⟩)) ∧
    (∃ dat, readFile toDouble (List.replicate Section.AngleBend "$\n" ++ [line]) = some dat ∧
      dat.angleBendParameters.entries =
        [(calculateAngleBendIndex (intField data 0) (intField data 1) (intField data 2)
            (intField data 3),
          ⟨doubleField toDouble data 4, doubleField toDouble data 5⟩)] ∧
      (intField data 1 ≤ intField data 3 →
        Internal.angleBendParameters dat (intField data 0) (intField data 1) (intField data 2)
            (intField data 3) =
          some ⟨doubleField toDouble data 4, doubleField toDouble data 5⟩)) ∧
    (∃ dat, readFile toDouble (List.replicate Section.OutOfPlaneBending "$\n" ++ [line]) =
        some dat ∧
      dat.outOfPlaneBendingParameters.entries =
        [(calculateOutOfPlaneBendingIndex (intField data 0) (intField data 1) (intField data 2)
            (intField data 3),
          ⟨doubleField toDouble data 4⟩)] ∧
      (intField data 0 ≤ intField data 2 → intField data 2 ≤ intField data 3 →
        Internal.outOfPlaneBendingParameters dat (intField data 0) (intField data 1)
            (intField data 2) (intField data 3) =
          some ⟨doubleField toDouble data 4⟩)) ∧
    (∃ dat, readFile toDouble (List.replicate Section.Torsion "$\n" ++ [line]) = some dat ∧
      dat.torsionParameters.entries =
        [(calculateTorsionIndex (intField data 0) (intField data 1) (intField data 2)
            (intField data 3) (intField data 4),
          ⟨doubleField toDouble data 5, doubleField toDouble data 6,
            doubleField toDouble data 7⟩)] ∧
      (intField data 2 < intField data 3 ∨
          (intField data 2 = intField data 3 ∧ intField data 1 ≤ intField data 4) →
        Internal.torsionParameters dat (intField data 0) (intField data 1) (intField data 2)
            (intField data 3) (intField data 4) =
          some ⟨doubleField toDouble data 5, doubleField toDouble data 6,
            doubleField toDouble data 7⟩)) := by
  refine ⟨?_, ?_, ?_, ?_⟩
  · rw [readFile_single_row toDouble line data _ (by decide) h1 h2 hs hl]
    refine ⟨_, rfl, rfl, fun h => ?_⟩
    unfold Internal.bondStrechParameters
    simp only [gt_iff_lt, not_lt.mpr h, if_false]
    exact QHash.value_insert_self _ _ _
  · rw [readFile_single_row toDouble line data _ (by decide) h1 h2 hs hl]
    refine ⟨_, rfl, rfl, fun h => ?_⟩
    unfold Internal.angleBendParameters
    simp only [gt_iff_lt, not_lt.mpr h, if_false]
    exact QHash.value_insert_self _ _ _
  · rw [readFile_single_row toDouble line data _ (by decide) h1 h2 hs hl]
    refine ⟨_, rfl, rfl, fun h h' => ?_⟩
    unfold Internal.outOfPlaneBendingParameters
    simp only [gt_iff_lt, not_lt.mpr h, not_lt.mpr h', if_false]
    exact QHash.value_insert_self _ _ _
  · rw [readFile_single_row toDouble line data _ (by decide) h1 h2 hs hl]
    refine ⟨_, rfl, rfl, fun h => ?_⟩
    unfold Internal.torsionParameters
    have hb : ¬ (intField data 2 > intField data 3) := by
      rcases h with h | h <;> omega
    have hc : ¬ (intField data 2 = intField data 3 ∧ intField data 1 > intField data 4) := by
      rcases h with h | h <;> omega
    simp only [hb, hc, if_false]
    exact QHash.value_insert_self _ _ _

/-- Instance of C4 (as amended): the bond-strech row `0 1 5 4.258 1.508`,
written with its types ascending, is found again by the lookup (0, 1, 5);
the values are kept as the text of the fields. -/
theorem read_row_roundtrip_in_lookup_order_witness :
    (startsWith "0 1 5 4.258 1.508\n" '$' = false ∧
      startsWith "0 1 5 4.258 1.508\n" '#' = false ∧
      split "0 1 5 4.258 1.508\n" = ["0", "1", "5", "4.258", "1.508\n"] ∧
      2 ≤ ["0", "1", "5", "4.258", "1.508\n"].length) ∧
    ∃ dat, readFile (fun s => s) ["0 1 5 4.258 1.508\n"] = some dat ∧
      Internal.bondStrechParameters dat 0 1 5 = some ⟨"4.258", "1.508\n"⟩ :=
  ⟨by decide,
   match (read_row_roundtrip_in_lookup_order (fun s => s) "0 1 5 4.258 1.508\n"
      ["0", "1", "5", "4.258", "1.508\n"] (by decide) (by decide) (by decide) (by decide)).1 with
   | ⟨dat, hread, _, hround⟩ => ⟨dat, hread, hround (by decide)⟩⟩

/-- C4, counterexample. The bond-strech row `0 5 1 4.258 1.508` has valid
types written in descending order. `read` stores its record under the key of
(0, 5, 1), which is not the canonical key of (0, 1, 5), and the lookup with
the row's own classification and types (0, 5, 1) finds nothing. -/
theorem read_row_key_counterexample :
    split "0 5 1 4.258 1.508\n" = ["0", "5", "1", "4.258", "1.508\n"] ∧
    InRange 1 (toInt "0") ∧ ValidType (toInt "5") ∧ ValidType (toInt "1") ∧
    calculateBondStrechIndex 0 5 1 ≠ calculateBondStrechIndex 0 1 5 ∧
    ∃ dat, readFile (fun s => s) ["0 5 1 4.258 1.508\n"] = some dat ∧
      dat.bondStrechParameters.entries =
        [(calculateBondStrechIndex 0 5 1, ⟨"4.258", "1.508\n"⟩)] ∧
      Internal.bondStrechParameters dat 0 5 1 = none :=
  ⟨by decide, by decide, by decide, by decide, by decide,
   ⟨_, rfl, by decide, by decide⟩⟩

/-! ## Equivalence resolver -/

/-- C5. `outOfPlaneBendingParameters(a, b, c, d)` is the first hit among four
lookups in this order: the exact types; the outer types of a, c, d replaced
by their level-3, then level-4, then level-5 equivalents, the centre type of
b unchanged each time. It returns nothing when all four miss, and the
level-5 entry when the first three miss. -/
theorem outOfPlaneBendingParameters_first_hit {F : Type} (dat : MmffParametersData F)
    (a b c d : MmffAtom) :
    outOfPlaneBendingParameters dat a b c d =
      firstHit
        [Internal.outOfPlaneBendingParameters dat
            a.typeNumber b.typeNumber c.typeNumber d.typeNumber,
         Internal.outOfPlaneBendingParameters dat
            (equivalentType a 3) b.typeNumber (equivalentType c 3) (equivalentType d 3),
         Internal.outOfPlaneBendingParameters dat
            (equivalentType a 4) b.typeNumber (equivalentType c 4) (equivalentType d 4),
         Internal.outOfPlaneBendingParameters dat
            (equivalentType a 5) b.typeNumber (equivalentType c 5) (equivalentType d 5)] ∧
    (Internal.outOfPlaneBendingParameters dat
          a.typeNumber b.typeNumber c.typeNumber d.typeNumber = none →
      Internal.outOfPlaneBendingParameters dat
          (equivalentType a 3) b.typeNumber (equivalentType c 3) (equivalentType d 3) = none →
      Internal.outOfPlaneBendingParameters dat
          (equivalentType a 4) b.typeNumber (equivalentType c 4) (equivalentType d 4) = none →
      outOfPlaneBendingParameters dat a b c d =
        Internal.outOfPlaneBendingParameters dat
          (equivalentType a 5) b.typeNumber (equivalentType c 5) (equivalentType d 5)) ∧
    (Internal.outOfPlaneBendingParameters dat
          a.typeNumber b.typeNumber c.typeNumber d.typeNumber = none →
      Internal.outOfPlaneBendingParameters dat
          (equivalentType a 3) b.typeNumber (equivalentType c 3) (equivalentType d 3) = none →
      Internal.outOfPlaneBendingParameters dat
          (equivalentType a 4) b.typeNumber (equivalentType c 4) (equivalentType d 4) = none →
      Internal.outOfPlaneBendingParameters dat
          (equivalentType a 5) b.typeNumber (equivalentType c 5) (equivalentType d 5) = none →
      outOfPlaneBendingParameters dat a b c d = none) := by
  unfold outOfPlaneBendingParameters
  dsimp only
  generalize Internal.outOfPlaneBendingParameters dat
    a.typeNumber b.typeNumber c.typeNumber d.typeNumber = p0
  generalize Internal.outOfPlaneBendingParameters dat
    (equivalentType a 3) b.typeNumber (equivalentType c 3) (equivalentType d 3) = p3
  generalize Internal.outOfPlaneBendingParameters dat
    (equivalentType a 4) b.typeNumber (equivalentType c 4) (equivalentType d 4) = p4
  generalize Internal.outOfPlaneBendingParameters dat
    (equivalentType a 5) b.typeNumber (equivalentType c 5) (equivalentType d 5) = p5
  refine ⟨?_, ?_, ?_⟩
  · cases p0 <;> cases p3 <;> cases p4 <;> cases p5 <;> rfl
  · intro h0 h3 h4
    subst h0 h3 h4
    cases p5 <;> rfl
  · intro h0 h3 h4 h5
    subst h0 h3 h4 h5
    rfl

/-- Instance of C5 on `Sample.table`, which holds only the generic entry of
centre type 3: for outer atoms of types 2, 2, 1 the exact, level-3 and
level-4 lookups miss and the level-5 entry is returned. -/
theorem outOfPlaneBendingParameters_first_hit_witness :
    (Internal.outOfPlaneBendingParameters Sample.table 2 3 2 1 = none ∧
      Internal.outOfPlaneBendingParameters Sample.table (equivalentType Sample.c0 3) 3
        (equivalentType Sample.c2 3) (equivalentType Sample.c3 3) = none ∧
      Internal.outOfPlaneBendingParameters Sample.table (equivalentType Sample.c0 4) 3
        (equivalentType Sample.c2 4) (equivalentType Sample.c3 4) = none) ∧
    outOfPlaneBendingParameters Sample.table Sample.c0 Sample.c1 Sample.c2 Sample.c3 =
      Internal.outOfPlaneBendingParameters Sample.table (equivalentType Sample.c0 5) 3
        (equivalentType Sample.c2 5) (equivalentType Sample.c3 5) ∧
    outOfPlaneBendingParameters Sample.table Sample.c0 Sample.c1 Sample.c2 Sample.c3 =
      some ⟨"0.020"⟩ :=
  ⟨by decide,
   (outOfPlaneBendingParameters_first_hit Sample.table
      Sample.c0 Sample.c1 Sample.c2 Sample.c3).2.1 (by decide) (by decide) (by decide),
   by decide⟩

/-- C6. `torsionParameters(a, b, c, d)` computes the torsion type t and
returns the first hit among five lookups in this order, the centre types of
b and c unchanged each time: the exact types with t; the outer pair
(level 3 of a, level 5 of d) with t; (level 5 of a, level 3 of d) with t;
(level 5 of a, level 5 of d) with t; (level 5 of a, level 5 of d) with
torsion type 0. It returns nothing when all five miss. -/
theorem torsionParameters_first_hit {F : Type} (m : Molecule) (dat : MmffParametersData F)
    (a b c d : MmffAtom) :
    torsionParameters m dat a b c d =
      (calculateTorsionType m a b c d).map (fun t =>
        firstHit
          [Internal.torsionParameters dat t a.typeNumber b.typeNumber c.typeNumber d.typeNumber,
           Internal.torsionParameters dat t
              (equivalentType a 3) b.typeNumber c.typeNumber (equivalentType d 5),
           Internal.torsionParameters dat t
              (equivalentType a 5) b.typeNumber c.typeNumber (equivalentType d 3),
           Internal.torsionParameters dat t
              (equivalentType a 5) b.typeNumber c.typeNumber (equivalentType d 5),
           Internal.torsionParameters dat 0
              (equivalentType a 5) b.typeNumber c.typeNumber (equivalentType d 5)]) ∧
    (∀ t, calculateTorsionType m a b c d = some t →
      Internal.torsionParameters dat t
          a.typeNumber b.typeNumber c.typeNumber d.typeNumber = none →
      Internal.torsionParameters dat t
          (equivalentType a 3) b.typeNumber c.typeNumber (equivalentType d 5) = none →
      Internal.torsionParameters dat t
          (equivalentType a 5) b.typeNumber c.typeNumber (equivalentType d 3) = none →
      Internal.torsionParameters dat t
          (equivalentType a 5) b.typeNumber c.typeNumber (equivalentType d 5) = none →
      Internal.torsionParameters dat 0
          (equivalentType a 5) b.typeNumber c.typeNumber (equivalentType d 5) = none →
      torsionParameters m dat a b c d = some none) := by
  unfold torsionParameters
  dsimp only
  refine ⟨?_, ?_⟩
  · cases calculateTorsionType m a b c d with
    | none => rfl
    | some t =>
      simp only [Option.map_some']
      congr 1
      generalize Internal.torsionParameters dat t
        a.typeNumber b.typeNumber c.typeNumber d.typeNumber = p0
      generalize Internal.torsionParameters dat t
        (equivalentType a 3) b.typeNumber c.typeNumber (equivalentType d 5) = p1
      generalize Internal.torsionParameters dat t
        (equivalentType a 5) b.typeNumber c.typeNumber (equivalentType d 3) = p2
      generalize Internal.torsionParameters dat t
        (equivalentType a 5) b.typeNumber c.typeNumber (equivalentType d 5) = p3
      generalize Internal.torsionParameters dat 0
        (equivalentType a 5) b.typeNumber c.typeNumber (equivalentType d 5) = p4
      cases p0 <;> cases p1 <;> cases p2 <;> cases p3 <;> cases p4 <;> rfl
  · intro t ht h0 h1 h2 h3 h4
    simp only [ht, Option.map_some', h0, h1, h2, h3, h4]

/-- Instance of C6 on the torsion 0-1-2-3 of `Sample.chain` (types 2, 3,
2, 1, torsion type 1) and `Sample.table`, which holds only the generic entry
of centre types 2 and 3: the first three lookups miss and the fourth, with
both outer types at level 5, hits. -/
theorem torsionParameters_first_hit_witness :
    calculateTorsionType Sample.chain Sample.c0 Sample.c1 Sample.c2 Sample.c3 = some 1 ∧
    torsionParameters Sample.chain Sample.table Sample.c0 Sample.c1 Sample.c2 Sample.c3 =
      some (firstHit [none, none, none, some ⟨"0.000", "1.500", "0.000"⟩, none]) ∧
    torsionParameters Sample.chain (MmffParametersData.empty String)
      Sample.c0 Sample.c1 Sample.c2 Sample.c3 = some none :=
  ⟨by decide,
   ((torsionParameters_first_hit Sample.chain Sample.table
      Sample.c0 Sample.c1 Sample.c2 Sample.c3).1.trans (by decide)),
   (torsionParameters_first_hit Sample.chain (MmffParametersData.empty String)
      Sample.c0 Sample.c1 Sample.c2 Sample.c3).2 1 (by decide)
      (by decide) (by decide) (by decide) (by decide) (by decide)⟩

/-! ## Direction of traversal -/

/-- C7. The torsion lookup does not depend on the direction of traversal: for
every table, torsion type and atom types the internal lookup gives the same
result for (t, a, b, c, d) and (t, d, c, b, a). With the centres out of
order the key is that of the reversed tuple (centre pair and outer pair
swapped together), with the centres in order it is the key of the tuple as
given, and with equal centres the outer pair is ordered ascending. -/
theorem torsionParameters_direction_independent {F : Type} (dat : MmffParametersData F)
    (t a b c d : Int) :
    Internal.torsionParameters dat t a b c d = Internal.torsionParameters dat t d c b a ∧
    (b > c → Internal.torsionParameters dat t a b c d =
      dat.torsionParameters.value (calculateTorsionIndex t d c b a)) ∧
    (b < c → Internal.torsionParameters dat t a b c d =
      dat.torsionParameters.value (calculateTorsionIndex t a b c d)) ∧
    (b = c → Internal.torsionParameters dat t a b c d =
      dat.torsionParameters.value (calculateTorsionIndex t (min a d) b c (max a d))) := by
  unfold Internal.torsionParameters
  refine ⟨?_, ?_, ?_, ?_⟩
  · rcases lt_trichotomy b c with h | h | h
    · have h1 : ¬ (b > c) := by omega
      have h2 : ¬ (b = c ∧ a > d) := by omega
      have h3 : c > b := h
      simp only [h1, h2, h3, if_true, if_false]
    · subst h
      rcases lt_trichotomy a d with g | g | g
      · have g1 : ¬ (a > d) := by omega
        have g2 : d > a := g
        simp only [gt_iff_lt, lt_self_iff_false, if_false, true_and, g1, g2, if_true]
      · subst g
        simp only [gt_iff_lt, lt_self_iff_false, if_false, and_false]
      · have g1 : a > d := g
        have g2 : ¬ (d > a) := by omega
        simp only [gt_iff_lt, lt_self_iff_false, if_false, true_and, g1, g2, if_true]
    · have h1 : b > c := h
      have h2 : ¬ (c > b) := by omega
      have h3 : ¬ (c = b ∧ d > a) := by omega
      simp only [h1, h2, h3, if_true, if_false]
  · intro h
    simp only [h, if_true]
  · intro h
    have h1 : ¬ (b > c) := by omega
    have h2 : ¬ (b = c ∧ a > d) := by omega
    simp only [h1, h2, if_false]
  · intro h
    subst h
    by_cases g : a > d
    · have e1 : min a d = d := min_eq_right (le_of_lt g)
      have e2 : max a d = a := max_eq_left (le_of_lt g)
      simp only [gt_iff_lt, lt_self_iff_false, if_false, true_and, g, if_true, e1, e2]
    · have e1 : min a d = a := min_eq_left (not_lt.mp g)
      have e2 : max a d = d := max_eq_right (not_lt.mp g)
      simp only [gt_iff_lt, lt_self_iff_false, if_false, true_and, g, e1, e2]

/-- Instance of C7 on `Sample.table`: the torsion (1; 1, 3, 2, 0) has its
centres out of order, and both directions read the key of (1; 0, 2, 3, 1),
where the table holds nothing, while (1; 0, 3, 2, 0) finds the generic entry
from either end. -/
theorem torsionParameters_direction_independent_witness :
    ((3 : Int) > 2) ∧
    Internal.torsionParameters Sample.table 1 1 3 2 0 =
      Sample.table.torsionParameters.value (calculateTorsionIndex 1 0 2 3 1) ∧
    Internal.torsionParameters Sample.table 1 0 3 2 0 =
      Internal.torsionParameters Sample.table 1 0 2 3 0 ∧
    Internal.torsionParameters Sample.table 1 0 2 3 0 = some ⟨"0.000", "1.500", "0.000"⟩ :=
  ⟨by decide,
   (torsionParameters_direction_independent Sample.table 1 1 3 2 0).2.1 (by decide),
   (torsionParameters_direction_independent Sample.table 1 0 3 2 0).1,
   by decide⟩

/-- C8, the code at the failing input. The out-of-plane lookup does not give
the same result for every ordering of the outer types 1, 2, 3 around the
centre type 5. On the table loaded from the row `1 5 2 3 0.050` the
ordering (1, 2, 3) hits and the ordering (2, 1, 3) reads the key of
(3, 5, 1, 2) and misses; on the table loaded from the row `2 5 1 3 0.050`
the ordering (2, 3, 1) hits and the ordering (2, 1, 3), with the last two
exchanged, misses. -/
theorem outOfPlaneBendingParameters_order_dependent :
    (ValidType 1 ∧ ValidType 2 ∧ ValidType 3 ∧ ValidType 5) ∧
    readFile (fun s => s) (List.replicate Section.OutOfPlaneBending "$\n" ++ ["1 5 2 3 0.050"]) =
      some Sample.oopSorted ∧
    Internal.outOfPlaneBendingParameters Sample.oopSorted 1 5 2 3 = some ⟨"0.050"⟩ ∧
    Internal.outOfPlaneBendingParameters Sample.oopSorted 2 5 1 3 =
      Sample.oopSorted.outOfPlaneBendingParameters.value
        (calculateOutOfPlaneBendingIndex 3 5 1 2) ∧
    Internal.outOfPlaneBendingParameters Sample.oopSorted 2 5 1 3 = none ∧
    readFile (fun s => s) (List.replicate Section.OutOfPlaneBending "$\n" ++ ["2 5 1 3 0.050"]) =
      some Sample.oopUnsorted ∧
    Internal.outOfPlaneBendingParameters Sample.oopUnsorted 2 5 3 1 = some ⟨"0.050"⟩ ∧
    Internal.outOfPlaneBendingParameters Sample.oopUnsorted 2 5 1 3 = none :=
  ⟨by decide, rfl, by decide, by decide, by decide, rfl, by decide, by decide⟩

/-! ## Topology classifier -/

/-- C9. For two atoms with a bond between them, `calculateBondType(a, b)`
returns 1 exactly when both atoms have an atom-type record, the bond has
order single and is not aromatic, and either both records have `sbmb` set or
both have `arom` set; in every other case it returns 0, so the result is
always 0 or 1. -/
theorem calculateBondType_spec (m : Molecule) (a b : MmffAtom) (bond : Nat)
    (hb : m.bondTo a.atom b.atom = some bond) :
    (calculateBondType m a b = some 1 ↔
      ∃ pa pb, a.parameters = some pa ∧ b.parameters = some pb ∧
        m.order bond = Bond.Single ∧ m.isAromaticBond bond = false ∧
        ((pa.sbmb ≠ 0 ∧ pb.sbmb ≠ 0) ∨ (pa.arom ≠ 0 ∧ pb.arom ≠ 0))) ∧
    (calculateBondType m a b ≠ some 1 → calculateBondType m a b = some 0) ∧
    (calculateBondType m a b = some 0 ∨ calculateBondType m a b = some 1) := by
  unfold calculateBondType
  rw [hb]
  cases hpa : a.parameters with
  | none => simp
  | some pa =>
    cases hpb : b.parameters with
    | none => simp
    | some pb =>
      simp only [Option.some.injEq, exists_and_left, exists_eq_left']
      by_cases ho : m.order bond = Bond.Single <;>
        by_cases har : m.isAromaticBond bond = false <;>
        by_cases s1 : pa.sbmb = 0 <;> by_cases s2 : pb.sbmb = 0 <;>
        by_cases r1 : pa.arom = 0 <;> by_cases r2 : pb.arom = 0 <;>
        simp [ho, har, s1, s2, r1, r2]

/-- Instance of C9 on `Sample.chain`: the central bond 1-2 is single, not
aromatic, and both atoms have `sbmb` set, so its bond type is 1; the bond
0-1 is double, so its bond type is 0. -/
theorem calculateBondType_spec_witness :
    Sample.chain.bondTo Sample.c1.atom Sample.c2.atom = some 1 ∧
    calculateBondType Sample.chain Sample.c1 Sample.c2 = some 1 ∧
    calculateBondType Sample.chain Sample.c0 Sample.c1 = some 0 :=
  ⟨by decide,
   (calculateBondType_spec Sample.chain Sample.c1 Sample.c2 1 (by decide)).1.mpr
     ⟨Sample.record2, Sample.record2, rfl, rfl, by decide, by decide, Or.inl (by decide)⟩,
   (calculateBondType_spec Sample.chain Sample.c0 Sample.c1 0 (by decide)).2.1 (by decide)⟩

/-- A bond type that was computed is 0 or 1. -/
theorem calculateBondType_range (m : Molecule) (a b : MmffAtom) (x : Int)
    (h : calculateBondType m a b = some x) : x = 0 ∨ x = 1 := by
  unfold calculateBondType at h
  cases hpa : a.parameters with
  | none => rw [hpa] at h; simp at h; exact Or.inl h.symm
  | some pa =>
    cases hpb : b.parameters with
    | none => rw [hpa, hpb] at h; simp at h; exact Or.inl h.symm
    | some pb =>
      rw [hpa, hpb] at h
      cases hbd : m.bondTo a.atom b.atom with
      | none => rw [hbd] at h; simp at h
      | some bond =>
        rw [hbd] at h
        simp only [] at h
        split_ifs at h <;> simp at h <;> omega

/-- C10. With s the sum of the bond types of a-b and b-c (s is 0, 1 or 2),
`calculateAngleType(a, b, c)` returns 3, 5, 6 for s = 0, 1, 2 if a is bonded
to c; otherwise 4, 7, 8 if some neighbour of a other than b is bonded to c;
otherwise 0, 1, 2. The 3-ring case is tested first, and the result is always
in 0..8. -/
theorem calculateAngleType_spec (m : Molecule) (a b c : MmffAtom) (x y : Int)
    (hab : calculateBondType m a b = some x) (hbc : calculateBondType m b c = some y) :
    (x + y = 0 ∨ x + y = 1 ∨ x + y = 2) ∧
    (m.isBondedTo a.atom c.atom = true →
      calculateAngleType m a b c =
        some (if x + y = 0 then 3 else if x + y = 1 then 5 else 6)) ∧
    (m.isBondedTo a.atom c.atom = false →
      (∃ n, n ∈ m.neighbors a.atom ∧ n ≠ b.atom ∧ m.isBondedTo n c.atom = true) →
      calculateAngleType m a b c =
        some (if x + y = 0 then 4 else if x + y = 1 then 7 else 8)) ∧
    (m.isBondedTo a.atom c.atom = false →
      (¬ ∃ n, n ∈ m.neighbors a.atom ∧ n ≠ b.atom ∧ m.isBondedTo n c.atom = true) →
      calculateAngleType m a b c =
        some (if x + y = 0 then 0 else if x + y = 1 then 1 else 2)) ∧
    (∃ r, calculateAngleType m a b c = some r ∧ 0 ≤ r ∧ r ≤ 8) := by
  have hx := calculateBondType_range m a b x hab
  have hy := calculateBondType_range m b c y hbc
  have hs : x + y = 0 ∨ x + y = 1 ∨ x + y = 2 := by omega
  unfold calculateAngleType
  rw [hab, hbc]
  simp only []
  refine ⟨hs, ?_, ?_, ?_, ?_⟩
  · intro h3
    simp only [h3, if_true]
    rcases hs with h | h | h <;> simp [h]
  · intro h3 h4
    have h4' : angleInFourMemberedRing m a b c = true :=
      (angleInFourMemberedRing_iff m a b c).mpr h4
    simp only [h3, h4', Bool.not_false, Bool.and_self, Bool.false_eq_true, if_false, if_true]
    rcases hs with h | h | h <;> simp [h]
  · intro h3 h4
    have h4' : angleInFourMemberedRing m a b c = false := by
      rw [← Bool.not_eq_true]
      exact fun h => h4 ((angleInFourMemberedRing_iff m a b c).mp h)
    simp only [h3, h4', Bool.not_false, Bool.and_false, Bool.false_eq_true, if_false]
    rcases hs with h | h | h <;> simp [h]
  · cases m.isBondedTo a.atom c.atom <;> cases angleInFourMemberedRing m a b c <;>
      rcases hs with h | h | h <;> simp [h]

/-- Instance of C10 on the angle 0-1-2 of `Sample.chain`: the bond types
are 0 and 1, atom 0 is not bonded to atom 2 and has no neighbour other than
atom 1, so the angle type is 1. -/
theorem calculateAngleType_spec_witness :
    (calculateBondType Sample.chain Sample.c0 Sample.c1 = some 0 ∧
      calculateBondType Sample.chain Sample.c1 Sample.c2 = some 1 ∧
      Sample.chain.isBondedTo Sample.c0.atom Sample.c2.atom = false ∧
      ¬ ∃ n, n ∈ Sample.chain.neighbors Sample.c0.atom ∧ n ≠ Sample.c1.atom ∧
        Sample.chain.isBondedTo n Sample.c2.atom = true) ∧
    calculateAngleType Sample.chain Sample.c0 Sample.c1 Sample.c2 = some 1 :=
  have hn : ¬ ∃ n, n ∈ Sample.chain.neighbors Sample.c0.atom ∧ n ≠ Sample.c1.atom ∧
      Sample.chain.isBondedTo n Sample.c2.atom = true := by
    rintro ⟨n, hn, hne, _⟩
    have h1 : n = 1 := by simpa [Sample.chain, Sample.c0] using hn
    exact hne (by simp [h1, Sample.c1])
  ⟨⟨by decide, by decide, by decide, hn⟩,
   (calculateAngleType_spec Sample.chain Sample.c0 Sample.c1 Sample.c2 0 1
      (by decide) (by decide)).2.2.2.1 (by decide) hn⟩

/-- C11. With the bond types of a-b and b-c and the angle type computed,
`calculateStrechBendType(a, b, c)` is in 0..11 and follows the case table:
angle type 0 gives 0, 2 gives 3, 3 gives 5, 4 gives 4, 6 gives 8, 8 gives 11;
the angle types 1, 5, 7 give 1, 6, 9 when bond a-b has bond type 1 and
2, 7, 10 when bond b-c has bond type 1. -/
theorem calculateStrechBendType_spec (m : Molecule) (a b c : MmffAtom) (x y t : Int)
    (hab : calculateBondType m a b = some x) (hbc : calculateBondType m b c = some y)
    (hang : calculateAngleType m a b c = some t) :
    ∃ r, calculateStrechBendType m a b c = some r ∧ 0 ≤ r ∧ r ≤ 11 ∧
      (t = 0 → r = 0) ∧ (t = 2 → r = 3) ∧ (t = 3 → r = 5) ∧ (t = 4 → r = 4) ∧
      (t = 6 → r = 8) ∧ (t = 8 → r = 11) ∧
      (x = 1 → (t = 1 → r = 1) ∧ (t = 5 → r = 6) ∧ (t = 7 → r = 9)) ∧
      (y = 1 → (t = 1 → r = 2) ∧ (t = 5 → r = 7) ∧ (t = 7 → r = 10)) := by
  have hx := calculateBondType_range m a b x hab
  have hy := calculateBondType_range m b c y hbc
  have ht := hang
  unfold calculateAngleType at ht
  rw [hab, hbc] at ht
  simp only [] at ht
  unfold calculateStrechBendType
  rw [hab, hbc, hang]
  simp only []
  rcases hx with hx | hx <;> rcases hy with hy | hy <;> subst hx <;> subst hy <;>
    cases h3 : m.isBondedTo a.atom c.atom <;>
    cases h4 : angleInFourMemberedRing m a b c <;>
    simp [h3, h4] at ht <;> subst ht <;> simp

/-- Instance of C11 on the angle 0-1-2 of `Sample.chain`: the bond types are 0
and 1 and the angle type is 1, so the strech-bend type is 2. -/
theorem calculateStrechBendType_spec_witness :
    (calculateBondType Sample.chain Sample.c0 Sample.c1 = some 0 ∧
      calculateBondType Sample.chain Sample.c1 Sample.c2 = some 1 ∧
      calculateAngleType Sample.chain Sample.c0 Sample.c1 Sample.c2 = some 1) ∧
    calculateStrechBendType Sample.chain Sample.c0 Sample.c1 Sample.c2 = some 2 :=
  ⟨by decide,
   match calculateStrechBendType_spec Sample.chain Sample.c0 Sample.c1 Sample.c2 0 1 1
      (by decide) (by decide) (by decide) with
   | ⟨_, hr, _, _, _, _, _, _, _, _, _, h⟩ => by rw [hr, (h rfl).1 rfl]⟩

/-- The five-membered-ring flag of a torsion is a statement about a ring of
the first atom. -/
theorem torsionInFiveMemberedRing_iff (m : Molecule) (a b c d : MmffAtom) :
    torsionInFiveMemberedRing m a b c d = true ↔
      ∃ ring, ring ∈ m.rings a.atom ∧ m.ringSize ring = 5 ∧
        m.ringContains ring b.atom = true ∧ m.ringContains ring c.atom = true ∧
        m.ringContains ring d.atom = true ∧ m.isAromaticRing ring = false := by
  unfold torsionInFiveMemberedRing
  simp [List.any_eq_true, and_assoc]

/-- C12. With the bond types x, y, z of a-b, b-c, c-d computed,
`calculateTorsionType(a, b, c, d)` returns 4 if a is bonded to d; else 5 if
some ring of size 5 of a contains b, c and d and is not aromatic; else 1 if
y is 1; else 2 if x or z is 1; else 0, in this order of priority. -/
theorem calculateTorsionType_spec (m : Molecule) (a b c d : MmffAtom) (x y z : Int)
    (hab : calculateBondType m a b = some x) (hbc : calculateBondType m b c = some y)
    (hcd : calculateBondType m c d = some z) :
    (m.isBondedTo a.atom d.atom = true → calculateTorsionType m a b c d = some 4) ∧
    (m.isBondedTo a.atom d.atom = false →
      ((∃ ring, ring ∈ m.rings a.atom ∧ m.ringSize ring = 5 ∧
          m.ringContains ring b.atom = true ∧ m.ringContains ring c.atom = true ∧
          m.ringContains ring d.atom = true ∧ m.isAromaticRing ring = false) →
        calculateTorsionType m a b c d = some 5) ∧
      ((¬ ∃ ring, ring ∈ m.rings a.atom ∧ m.ringSize ring = 5 ∧
          m.ringContains ring b.atom = true ∧ m.ringContains ring c.atom = true ∧
          m.ringContains ring d.atom = true ∧ m.isAromaticRing ring = false) →
        (y = 1 → calculateTorsionType m a b c d = some 1) ∧
        (y ≠ 1 → (x = 1 ∨ z = 1) → calculateTorsionType m a b c d = some 2) ∧
        (y ≠ 1 → x ≠ 1 → z ≠ 1 → calculateTorsionType m a b c d = some 0))) := by
  unfold calculateTorsionType
  rw [hab, hbc, hcd]
  simp only []
  refine ⟨fun h4 => by simp [h4], fun h4 => ⟨fun h5 => ?_, fun h5 =>
    ⟨fun hy => ?_, fun hy hxz => ?_, fun hy hx hz => ?_⟩⟩⟩
  · have h5' := (torsionInFiveMemberedRing_iff m a b c d).mpr h5
    simp [h4, h5']
  · have h5' : torsionInFiveMemberedRing m a b c d = false := by
      rw [← Bool.not_eq_true]
      exact fun h => h5 ((torsionInFiveMemberedRing_iff m a b c d).mp h)
    simp [h4, h5', hy]
  · have h5' : torsionInFiveMemberedRing m a b c d = false := by
      rw [← Bool.not_eq_true]
      exact fun h => h5 ((torsionInFiveMemberedRing_iff m a b c d).mp h)
    simp [h4, h5', hy, hxz]
  · have h5' : torsionInFiveMemberedRing m a b c d = false := by
      rw [← Bool.not_eq_true]
      exact fun h => h5 ((torsionInFiveMemberedRing_iff m a b c d).mp h)
    simp [h4, h5', hy, hx, hz]

/-- Instance of C12: the torsion 0-1-2-3 of `Sample.ring5` lies in the
non-aromatic ring 0 of size 5 and its ends are not bonded, so its type is 5;
the torsion 0-1-2-3 of `Sample.chain` is in no ring and its central bond has
bond type 1, so its type is 1. -/
theorem calculateTorsionType_spec_witness :
    (calculateBondType Sample.ring5 Sample.r0 Sample.r1 = some 0 ∧
      calculateBondType Sample.ring5 Sample.r1 Sample.r2 = some 0 ∧
      calculateBondType Sample.ring5 Sample.r2 Sample.r3 = some 0 ∧
      Sample.ring5.isBondedTo Sample.r0.atom Sample.r3.atom = false) ∧
    calculateTorsionType Sample.ring5 Sample.r0 Sample.r1 Sample.r2 Sample.r3 = some 5 ∧
    calculateTorsionType Sample.chain Sample.c0 Sample.c1 Sample.c2 Sample.c3 = some 1 :=
  ⟨by decide,
   ((calculateTorsionType_spec Sample.ring5 Sample.r0 Sample.r1 Sample.r2 Sample.r3 0 0 0
      (by decide) (by decide) (by decide)).2 (by decide)).1
      ⟨0, by decide, by decide, by decide, by decide, by decide, by decide⟩,
   (((calculateTorsionType_spec Sample.chain Sample.c0 Sample.c1 Sample.c2 Sample.c3 0 1 0
      (by decide) (by decide) (by decide)).2 (by decide)).2
      (fun ⟨_, hr, _⟩ => by simp [Sample.chain] at hr)).1 rfl⟩

/-! ## Strech-bend keys -/

/-- Writing another key leaves the value of a key unchanged. -/
theorem QHash.value_insert_of_ne {V : Type} (h : QHash V) (key key' : Int) (v : V)
    (hne : key ≠ key') : (h.insert key v).value key' = h.value key' := by
  simp only [QHash.insert, QHash.value]
  rw [List.find?_cons_of_neg _ (by simpa using hne)]
  congr 1
  induction h.entries with
  | nil => rfl
  | cons e es ih =>
    by_cases he : e.1 = key
    · have hk : ¬ (e.1 = key') := fun h' => hne (he.symm.trans h')
      rw [List.filter_cons_of_neg (by simpa using he),
        List.find?_cons_of_neg _ (by simpa using hk)]
      exact ih
    · rw [List.filter_cons_of_pos (by simpa using he)]
      by_cases hk : e.1 = key'
      · rw [List.find?_cons_of_pos _ (by simpa using hk),
          List.find?_cons_of_pos _ (by simpa using hk)]
      · rw [List.find?_cons_of_neg _ (by simpa using hk),
          List.find?_cons_of_neg _ (by simpa using hk)]
        exact ih

/-- C13. Strech-bend lookups are not reordered: `strechBendParameters(t, a, b,
c)` reads the table at the key of (t, a, b, c) as given; for a strech-bend
type in 0..11 and types in 1..99 with a different from c the key of
(t, a, b, c) differs from the key of (t, c, b, a), and some table holds any
two given records for the two directions. -/
theorem strechBendParameters_not_reordered {F : Type} (t a b c : Int)
    (ht : InRange 11 t) (ha : ValidType a) (hb : ValidType b) (hc : ValidType c)
    (hac : a ≠ c) :
    (∀ dat : MmffParametersData F, Internal.strechBendParameters dat t a b c =
      dat.strechBendParameters.value (calculateStrechBendIndex t a b c)) ∧
    calculateStrechBendIndex t a b c ≠ calculateStrechBendIndex t c b a ∧
    (∀ p q : MmffStrechBendParameters F, ∃ dat : MmffParametersData F,
      Internal.strechBendParameters dat t a b c = some p ∧
      Internal.strechBendParameters dat t c b a = some q) := by
  have hne : calculateStrechBendIndex t a b c ≠ calculateStrechBendIndex t c b a := by
    unfold ValidType InRange at *
    unfold calculateStrechBendIndex
    rw [toInt32_of_inRange _ (by omega) (by omega), toInt32_of_inRange _ (by omega) (by omega)]
    omega
  refine ⟨fun dat => rfl, hne, fun p q => ?_⟩
  refine ⟨{ MmffParametersData.empty F with
    strechBendParameters :=
      ((QHash.mk []).insert (calculateStrechBendIndex t a b c) p).insert
        (calculateStrechBendIndex t c b a) q }, ?_, ?_⟩
  · show QHash.value _ _ = _
    rw [QHash.value_insert_of_ne _ _ _ _ hne.symm]
    exact QHash.value_insert_self _ _ _
  · exact QHash.value_insert_self _ _ _

/-- Instance of C13 for the strech-bend type 2 and the types 1, 2, 3: the keys
of (2; 1, 2, 3) and (2; 3, 2, 1) differ. -/
theorem strechBendParameters_not_reordered_witness :
    (InRange 11 2 ∧ ValidType 1 ∧ ValidType 2 ∧ ValidType 3 ∧ (1 : Int) ≠ 3) ∧
    calculateStrechBendIndex 2 1 2 3 ≠ calculateStrechBendIndex 2 3 2 1 ∧
    ∃ dat : MmffParametersData String,
      Internal.strechBendParameters dat 2 1 2 3 = some ⟨"0.206", "0.290"⟩ ∧
      Internal.strechBendParameters dat 2 3 2 1 = some ⟨"0.290", "0.206"⟩ :=
  ⟨by decide,
   (@strechBendParameters_not_reordered String 2 1 2 3
      (by decide) (by decide) (by decide) (by decide) (by decide)).2.1,
   (@strechBendParameters_not_reordered String 2 1 2 3
      (by decide) (by decide) (by decide) (by decide) (by decide)).2.2
      ⟨"0.206", "0.290"⟩ ⟨"0.290", "0.206"⟩⟩

/-! ## Static tables -/

/-- C14. `atomParameters` returns no record for an atom whose type number is
below 1 or above 99, and for a type t in 1..99 it returns entry t-1 of
`AtomParameters`, which has exactly 99 entries, so that the index is within
the table. -/
theorem atomParameters_spec (atom : MmffAtom) :
    AtomParameters.length = 99 ∧
    (atom.typeNumber < 1 ∨ atom.typeNumber > 99 → atomParameters atom = none) ∧
    (1 ≤ atom.typeNumber ∧ atom.typeNumber ≤ 99 →
      (atom.typeNumber - 1).toNat < AtomParameters.length ∧
      (atomParameters atom).isSome = true ∧
      atomParameters atom = AtomParameters[(atom.typeNumber - 1).toNat]?) := by
  have hlen : AtomParameters.length = 99 := rfl
  refine ⟨hlen, fun h => ?_, fun h => ?_⟩
  · unfold atomParameters
    rw [dif_pos h]
  · have hi : (atom.typeNumber - 1).toNat < AtomParameters.length := by omega
    have hn : ¬ (atom.typeNumber < 1 ∨ atom.typeNumber > 99) := by omega
    unfold atomParameters
    rw [dif_neg hn]
    refine ⟨hi, rfl, ?_⟩
    rw [List.getElem?_eq_getElem hi]
    rfl

/-- Instance of C14: the types 0 and 100 have no record, and the types 1 and
99 have the first and the last row of the table. -/
theorem atomParameters_spec_witness :
    atomParameters { atom := 0, typeNumber := 0, period := 0, parameters := none } = none ∧
    atomParameters { atom := 0, typeNumber := 100, period := 0, parameters := none } = none ∧
    atomParameters { atom := 0, typeNumber := 1, period := 0, parameters := none } =
      some ⟨6, 4, 4, 0, 0, 0, 0, 0⟩ ∧
    atomParameters { atom := 0, typeNumber := 99, period := 0, parameters := none } =
      some ⟨12, 0, 0, 0, 0, 0, 0, 0⟩ :=
  ⟨(atomParameters_spec _).2.1 (Or.inl (by decide)),
   (atomParameters_spec _).2.1 (Or.inr (by decide)),
   ((atomParameters_spec _).2.2 ⟨by decide, by decide⟩).2.2.trans (by decide),
   ((atomParameters_spec _).2.2 ⟨by decide, by decide⟩).2.2.trans (by decide)⟩

/-- Every row of `EquivalentTypes` is found again by its own primary type. -/
theorem EquivalentTypes_find_row :
    ∀ row ∈ EquivalentTypes,
      EquivalentTypes.find? (fun r => r.getD 0 0 == row.getD 0 0) = some row := by
  decide

/-- C15. `equivalentType(atom, level)` returns the atom's own type number for
every level below 3; for level 3, 4 or 5 and a type that is the primary type
of a row of `EquivalentTypes` it returns the entry of that row in column
`level-1`; every row has five columns and no primary type occurs in two
rows. -/
theorem equivalentType_spec (atom : MmffAtom) :
    (∀ level : Int, level < 3 → equivalentType atom level = atom.typeNumber) ∧
    (∀ row ∈ EquivalentTypes, row.getD 0 0 = atom.typeNumber →
      equivalentType atom 3 = row.getD 2 0 ∧
      equivalentType atom 4 = row.getD 3 0 ∧
      equivalentType atom 5 = row.getD 4 0) ∧
    (∀ row ∈ EquivalentTypes, row.length = 5) ∧
    (EquivalentTypes.map (fun row => row.getD 0 0)).Nodup ∧
    (∀ row ∈ EquivalentTypes, ∀ row' ∈ EquivalentTypes,
      row.getD 0 0 = row'.getD 0 0 → row = row') := by
  refine ⟨?_, ?_, by decide, by decide, ?_⟩
  · intro level h
    unfold equivalentType
    rw [if_pos h]
  · intro row hrow hty
    have hfind := EquivalentTypes_find_row row hrow
    rw [hty] at hfind
    unfold equivalentType
    simp only [hfind]
    exact ⟨rfl, rfl, rfl⟩
  · intro row hrow row' hrow' h
    have h1 := EquivalentTypes_find_row row hrow
    have h2 := EquivalentTypes_find_row row' hrow'
    rw [h] at h1
    rw [h1] at h2
    exact Option.some.inj h2

/-- Instance of C15 for an atom of type 20, whose row is 20, 20, 1, 1, 0: the
levels 1 and 2 give 20, the levels 3 and 4 give 1 and the level 5 gives 0. -/
theorem equivalentType_spec_witness :
    ([20, 20, 1, 1, 0] ∈ EquivalentTypes ∧ (2 : Int) < 3) ∧
    equivalentType { atom := 0, typeNumber := 20, period := 2, parameters := none } 2 = 20 ∧
    equivalentType { atom := 0, typeNumber := 20, period := 2, parameters := none } 3 = 1 ∧
    equivalentType { atom := 0, typeNumber := 20, period := 2, parameters := none } 4 = 1 ∧
    equivalentType { atom := 0, typeNumber := 20, period := 2, parameters := none } 5 = 0 :=
  ⟨by decide,
   (equivalentType_spec _).1 2 (by decide),
   ((equivalentType_spec { atom := 0, typeNumber := 20, period := 2, parameters := none }).2.1
      [20, 20, 1, 1, 0] (by decide) rfl).1,
   ((equivalentType_spec { atom := 0, typeNumber := 20, period := 2, parameters := none }).2.1
      [20, 20, 1, 1, 0] (by decide) rfl).2.1,
   ((equivalentType_spec { atom := 0, typeNumber := 20, period := 2, parameters := none }).2.1
      [20, 20, 1, 1, 0] (by decide) rfl).2.2⟩

/-! ## Types without a row in the equivalence table -/

/-- A type without a row in `EquivalentTypes` has the equivalent type 0 at
every level from 3 on. -/
theorem equivalentType_of_absent (x : MmffAtom)
    (hx : ∀ row ∈ EquivalentTypes, row.getD 0 0 ≠ x.typeNumber) (level : Int)
    (hl : 3 ≤ level) : equivalentType x level = 0 := by
  have hfind : EquivalentTypes.find? (fun row => row.getD 0 0 == x.typeNumber) = none := by
    rw [List.find?_eq_none]
    intro row hrow
    simpa using hx row hrow
  unfold equivalentType
  rw [if_neg (by omega), hfind]

/-- The out-of-plane resolver as the first hit of its four lookups. -/
theorem outOfPlaneBendingParameters_eq_firstHit {F : Type} (dat : MmffParametersData F)
    (a b c d : MmffAtom) :
    outOfPlaneBendingParameters dat a b c d =
      firstHit
        [Internal.outOfPlaneBendingParameters dat
            a.typeNumber b.typeNumber c.typeNumber d.typeNumber,
         Internal.outOfPlaneBendingParameters dat
            (equivalentType a 3) b.typeNumber (equivalentType c 3) (equivalentType d 3),
         Internal.outOfPlaneBendingParameters dat
            (equivalentType a 4) b.typeNumber (equivalentType c 4) (equivalentType d 4),
         Internal.outOfPlaneBendingParameters dat
            (equivalentType a 5) b.typeNumber (equivalentType c 5) (equivalentType d 5)] := by
  unfold outOfPlaneBendingParameters
  dsimp only
  generalize Internal.outOfPlaneBendingParameters dat
    a.typeNumber b.typeNumber c.typeNumber d.typeNumber = p0
  generalize Internal.outOfPlaneBendingParameters dat
    (equivalentType a 3) b.typeNumber (equivalentType c 3) (equivalentType d 3) = p3
  generalize Internal.outOfPlaneBendingParameters dat
    (equivalentType a 4) b.typeNumber (equivalentType c 4) (equivalentType d 4) = p4
  generalize Internal.outOfPlaneBendingParameters dat
    (equivalentType a 5) b.typeNumber (equivalentType c 5) (equivalentType d 5) = p5
  cases p0 <;> cases p3 <;> cases p4 <;> cases p5 <;> rfl

/-- The torsion resolver as the first hit of its five lookups. -/
theorem torsionParameters_eq_firstHit {F : Type} (m : Molecule) (dat : MmffParametersData F)
    (a b c d : MmffAtom) :
    torsionParameters m dat a b c d =
      (calculateTorsionType m a b c d).map (fun t =>
        firstHit
          [Internal.torsionParameters dat t a.typeNumber b.typeNumber c.typeNumber d.typeNumber,
           Internal.torsionParameters dat t
              (equivalentType a 3) b.typeNumber c.typeNumber (equivalentType d 5),
           Internal.torsionParameters dat t
              (equivalentType a 5) b.typeNumber c.typeNumber (equivalentType d 3),
           Internal.torsionParameters dat t
              (equivalentType a 5) b.typeNumber c.typeNumber (equivalentType d 5),
           Internal.torsionParameters dat 0
              (equivalentType a 5) b.typeNumber c.typeNumber (equivalentType d 5)]) := by
  unfold torsionParameters
  dsimp only
  cases calculateTorsionType m a b c d with
  | none => rfl
  | some t =>
    simp only [Option.map_some']
    congr 1
    generalize Internal.torsionParameters dat t
      a.typeNumber b.typeNumber c.typeNumber d.typeNumber = p0
    generalize Internal.torsionParameters dat t
      (equivalentType a 3) b.typeNumber c.typeNumber (equivalentType d 5) = p1
    generalize Internal.torsionParameters dat t
      (equivalentType a 5) b.typeNumber c.typeNumber (equivalentType d 3) = p2
    generalize Internal.torsionParameters dat t
      (equivalentType a 5) b.typeNumber c.typeNumber (equivalentType d 5) = p3
    generalize Internal.torsionParameters dat 0
      (equivalentType a 5) b.typeNumber c.typeNumber (equivalentType d 5) = p4
    cases p0 <;> cases p1 <;> cases p2 <;> cases p3 <;> cases p4 <;> rfl

/-- C16 (as amended). A type without a row in `EquivalentTypes` has the
equivalent type 0 at the levels 3, 4 and 5, and the resolver does not stop:
an out-of-plane or torsion query in which an outer atom x has such a type
makes the same lookups as for any atom, with 0 in the place of the type of
x in the generalized ones, and returns the first hit among them. -/
theorem absent_type_resolves_with_zero {F : Type} (dat : MmffParametersData F) (x : MmffAtom)
    (hx : ∀ row ∈ EquivalentTypes, row.getD 0 0 ≠ x.typeNumber) :
    (equivalentType x 3 = 0 ∧ equivalentType x 4 = 0 ∧ equivalentType x 5 = 0) ∧
    (∀ b c d : MmffAtom, outOfPlaneBendingParameters dat x b c d =
      firstHit
        [Internal.outOfPlaneBendingParameters dat
            x.typeNumber b.typeNumber c.typeNumber d.typeNumber,
         Internal.outOfPlaneBendingParameters dat
            0 b.typeNumber (equivalentType c 3) (equivalentType d 3),
         Internal.outOfPlaneBendingParameters dat
            0 b.typeNumber (equivalentType c 4) (equivalentType d 4),
         Internal.outOfPlaneBendingParameters dat
            0 b.typeNumber (equivalentType c 5) (equivalentType d 5)]) ∧
    (∀ a b d : MmffAtom, outOfPlaneBendingParameters dat a b x d =
      firstHit
        [Internal.outOfPlaneBendingParameters dat
            a.typeNumber b.typeNumber x.typeNumber d.typeNumber,
         Internal.outOfPlaneBendingParameters dat
            (equivalentType a 3) b.typeNumber 0 (equivalentType d 3),
         Internal.outOfPlaneBendingParameters dat
            (equivalentType a 4) b.typeNumber 0 (equivalentType d 4),
         Internal.outOfPlaneBendingParameters dat
            (equivalentType a 5) b.typeNumber 0 (equivalentType d 5)]) ∧
    (∀ a b c : MmffAtom, outOfPlaneBendingParameters dat a b c x =
      firstHit
        [Internal.outOfPlaneBendingParameters dat
            a.typeNumber b.typeNumber c.typeNumber x.typeNumber,
         Internal.outOfPlaneBendingParameters dat
            (equivalentType a 3) b.typeNumber (equivalentType c 3) 0,
         Internal.outOfPlaneBendingParameters dat
            (equivalentType a 4) b.typeNumber (equivalentType c 4) 0,
         Internal.outOfPlaneBendingParameters dat
            (equivalentType a 5) b.typeNumber (equivalentType c 5) 0]) ∧
    (∀ (m : Molecule) (b c d : MmffAtom), torsionParameters m dat x b c d =
      (calculateTorsionType m x b c d).map (fun t =>
        firstHit
          [Internal.torsionParameters dat t x.typeNumber b.typeNumber c.typeNumber d.typeNumber,
           Internal.torsionParameters dat t 0 b.typeNumber c.typeNumber (equivalentType d 5),
           Internal.torsionParameters dat t 0 b.typeNumber c.typeNumber (equivalentType d 3),
           Internal.torsionParameters dat t 0 b.typeNumber c.typeNumber (equivalentType d 5),
           Internal.torsionParameters dat 0 0 b.typeNumber c.typeNumber
              (equivalentType d 5)])) ∧
    (∀ (m : Molecule) (a b c : MmffAtom), torsionParameters m dat a b c x =
      (calculateTorsionType m a b c x).map (fun t =>
        firstHit
          [Internal.torsionParameters dat t a.typeNumber b.typeNumber c.typeNumber x.typeNumber,
           Internal.torsionParameters dat t (equivalentType a 3) b.typeNumber c.typeNumber 0,
           Internal.torsionParameters dat t (equivalentType a 5) b.typeNumber c.typeNumber 0,
           Internal.torsionParameters dat t (equivalentType a 5) b.typeNumber c.typeNumber 0,
           Internal.torsionParameters dat 0 (equivalentType a 5) b.typeNumber c.typeNumber
              0])) := by
  have h3 := equivalentType_of_absent x hx 3 (by decide)
  have h4 := equivalentType_of_absent x hx 4 (by decide)
  have h5 := equivalentType_of_absent x hx 5 (by decide)
  refine ⟨⟨h3, h4, h5⟩, ?_, ?_, ?_, ?_, ?_⟩
  · intro b c d
    rw [outOfPlaneBendingParameters_eq_firstHit, h3, h4, h5]
  · intro a b d
    rw [outOfPlaneBendingParameters_eq_firstHit, h3, h4, h5]
  · intro a b c
    rw [outOfPlaneBendingParameters_eq_firstHit, h3, h4, h5]
  · intro m b c d
    rw [torsionParameters_eq_firstHit, h3, h5]
  · intro m a b c
    rw [torsionParameters_eq_firstHit, h3, h5]

/-- Instance of C16 (as amended) for the type 83, which like 84, 85 and 86 has
no row in `EquivalentTypes`: its equivalent type is 0 at level 5. -/
theorem absent_type_resolves_with_zero_witness :
    (∀ t ∈ [(83 : Int), 84, 85, 86], ∀ row ∈ EquivalentTypes, row.getD 0 0 ≠ t) ∧
    (∀ row ∈ EquivalentTypes, row.getD 0 0 ≠ Sample.x83.typeNumber) ∧
    equivalentType Sample.x83 5 = 0 :=
  ⟨by decide, by decide,
   (absent_type_resolves_with_zero Sample.table Sample.x83 (by decide)).1.2.2⟩

/-- C16, counterexample. The type 83 has no row in `EquivalentTypes`. With an
atom of type 83 as outer atom, the exact out-of-plane lookup and the exact
torsion lookup on `Sample.table` miss, and yet both queries return the
generic entry of the table, found under the type 0. -/
theorem absent_type_counterexample :
    (∀ row ∈ EquivalentTypes, row.getD 0 0 ≠ Sample.x83.typeNumber) ∧
    Internal.outOfPlaneBendingParameters Sample.table 83 3 2 1 = none ∧
    outOfPlaneBendingParameters Sample.table Sample.x83 Sample.c1 Sample.c2 Sample.c3 =
      some ⟨"0.020"⟩ ∧
    calculateTorsionType Sample.chain Sample.x83 Sample.c1 Sample.c2 Sample.c3 = some 1 ∧
    Internal.torsionParameters Sample.table 1 83 3 2 1 = none ∧
    torsionParameters Sample.chain Sample.table Sample.x83 Sample.c1 Sample.c2 Sample.c3 =
      some (some ⟨"0.000", "1.500", "0.000"⟩) := by
  decide

/-! ## The section state machine -/

/-- A section marker before the last section moves to the next section. -/
theorem readLines_marker {F : Type} (toDouble : String → F) (line : String)
    (rest : List String) (sect : Nat) (dat : MmffParametersData F)
    (h : startsWith line '$' = true) (hs : sect + 1 ≠ Section.End) :
    readLines toDouble (line :: rest) sect dat = readLines toDouble rest (sect + 1) dat := by
  rw [readLines]
  simp only [h, if_true, hs, if_false]

/-- The section marker that reaches the end section stops the loop. -/
theorem readLines_marker_end {F : Type} (toDouble : String → F) (line : String)
    (rest : List String) (sect : Nat) (dat : MmffParametersData F)
    (h : startsWith line '$' = true) (hs : sect + 1 = Section.End) :
    readLines toDouble (line :: rest) sect dat = some dat := by
  rw [readLines]
  simp only [h, if_true, hs]

/-- A line cannot start with both `#` and `$`. -/
theorem startsWith_hash_not_marker (line : String) (h : startsWith line '#' = true) :
    startsWith line '$' = false := by
  unfold startsWith at *
  cases hd : line.data with
  | nil => rfl
  | cons x xs =>
    rw [hd] at h
    simp only [beq_iff_eq] at h
    subst h
    rfl

/-- A comment line is skipped. -/
theorem readLines_comment {F : Type} (toDouble : String → F) (line : String)
    (rest : List String) (sect : Nat) (dat : MmffParametersData F)
    (h : startsWith line '#' = true) :
    readLines toDouble (line :: rest) sect dat = readLines toDouble rest sect dat := by
  rw [readLines]
  simp only [startsWith_hash_not_marker line h, h, Bool.false_eq_true, if_false, if_true]

/-- A line that is no section marker and has fewer than 2 fields is skipped. -/
theorem readLines_short {F : Type} (toDouble : String → F) (line : String)
    (rest : List String) (sect : Nat) (dat : MmffParametersData F)
    (h1 : startsWith line '$' = false) (hl : (split line).length < 2) :
    readLines toDouble (line :: rest) sect dat = readLines toDouble rest sect dat := by
  rw [readLines]
  by_cases h2 : startsWith line '#' = true
  · simp only [h1, h2, Bool.false_eq_true, if_false, if_true]
  · have hc : ((split line).isEmpty || decide ((split line).length < 2)) = true := by
      simp [hl]
    simp only [h1, h2, Bool.false_eq_true, if_false, hc, if_true]

/-- A data line with at least 2 fields is handed to the section dispatch and
the loop goes on with the table it returns. -/
theorem readLines_row {F : Type} (toDouble : String → F) (line : String)
    (rest : List String) (sect : Nat) (dat : MmffParametersData F)
    (h1 : startsWith line '$' = false) (h2 : startsWith line '#' = false)
    (hl : 2 ≤ (split line).length) :
    readLines toDouble (line :: rest) sect dat =
      (readRow toDouble sect (split line) dat).bind (readLines toDouble rest sect) := by
  have hc : ((split line).isEmpty || decide ((split line).length < 2)) = false := by
    cases hd : split line with
    | nil => rw [hd] at hl; simp at hl
    | cons x xs => rw [hd] at hl; simp at hl ⊢; exact hl
  rw [readLines]
  simp only [h1, h2, hc, Bool.false_eq_true, if_false]
  cases readRow toDouble sect (split line) dat <;> rfl

/-- Counting the markers of a list of lines, one line at a time. -/
theorem markerCount_cons (line : String) (lines : List String) :
    markerCount (line :: lines) =
      (if startsWith line '$' = true then 1 else 0) + markerCount lines := by
  unfold markerCount
  by_cases h : startsWith line '$' = true
  · simp [List.filter_cons, h]; omega
  · simp [List.filter_cons, h]

/-- After a first part of the lines that does not reach the end section, the
loop is in the section counted up by the markers of that part. -/
theorem readLines_append {F : Type} (toDouble : String → F) (rest : List String) :
    ∀ (pre : List String) (sect : Nat) (dat dat' : MmffParametersData F),
      sect + markerCount pre < Section.End →
      readLines toDouble pre sect dat = some dat' →
      readLines toDouble (pre ++ rest) sect dat =
        readLines toDouble rest (sect + markerCount pre) dat'
  | [], sect, dat, dat', _, h => by
    rw [readLines] at h
    cases h
    simp [markerCount]
  | line :: pre, sect, dat, dat', hk, h => by
    rw [markerCount_cons] at hk ⊢
    rw [List.cons_append]
    by_cases h1 : startsWith line '$' = true
    · simp only [h1, if_true] at hk ⊢
      have hs : sect + 1 ≠ Section.End := by omega
      rw [readLines_marker toDouble line _ sect dat h1 hs] at h ⊢
      rw [readLines_append toDouble rest pre (sect + 1) dat dat' (by omega) h]
      congr 1
      omega
    · simp only [h1, Bool.false_eq_true, if_false, Nat.zero_add] at hk ⊢
      have h1' : startsWith line '$' = false := by simpa using h1
      by_cases h2 : startsWith line '#' = true
      · rw [readLines_comment toDouble line _ sect dat h2] at h ⊢
        exact readLines_append toDouble rest pre sect dat dat' hk h
      · have h2' : startsWith line '#' = false := by simpa using h2
        by_cases hl : (split line).length < 2
        · rw [readLines_short toDouble line _ sect dat h1' hl] at h ⊢
          exact readLines_append toDouble rest pre sect dat dat' hk h
        · rw [readLines_row toDouble line _ sect dat h1' h2' (by omega)] at h ⊢
          cases hr : readRow toDouble sect (split line) dat with
          | none => simp [hr] at h
          | some d1 =>
            simp only [hr, Option.some_bind] at h ⊢
            exact readLines_append toDouble rest pre sect d1 dat' hk h

/-- Once the markers of a first part of the lines reach the end section, the
lines after that part are not read. -/
theorem readLines_stop {F : Type} (toDouble : String → F) (rest : List String) :
    ∀ (pre : List String) (sect : Nat) (dat : MmffParametersData F),
      sect < Section.End → Section.End ≤ sect + markerCount pre →
      readLines toDouble (pre ++ rest) sect dat = readLines toDouble pre sect dat
  | [], sect, dat, hs, hk => by
    simp [markerCount] at hk
    omega
  | line :: pre, sect, dat, hs, hk => by
    rw [markerCount_cons] at hk
    rw [List.cons_append]
    by_cases h1 : startsWith line '$' = true
    · simp only [h1, if_true] at hk
      by_cases he : sect + 1 = Section.End
      · rw [readLines_marker_end toDouble line _ sect dat h1 he,
          readLines_marker_end toDouble line _ sect dat h1 he]
      · rw [readLines_marker toDouble line _ sect dat h1 he,
          readLines_marker toDouble line _ sect dat h1 he]
        exact readLines_stop toDouble rest pre (sect + 1) dat (by omega) (by omega)
    · simp only [h1, Bool.false_eq_true, if_false, Nat.zero_add] at hk
      have h1' : startsWith line '$' = false := by simpa using h1
      by_cases h2 : startsWith line '#' = true
      · rw [readLines_comment toDouble line _ sect dat h2,
          readLines_comment toDouble line _ sect dat h2]
        exact readLines_stop toDouble rest pre sect dat hs hk
      · have h2' : startsWith line '#' = false := by simpa using h2
        by_cases hl : (split line).length < 2
        · rw [readLines_short toDouble line _ sect dat h1' hl,
            readLines_short toDouble line _ sect dat h1' hl]
          exact readLines_stop toDouble rest pre sect dat hs hk
        · rw [readLines_row toDouble line _ sect dat h1' h2' (by omega),
            readLines_row toDouble line _ sect dat h1' h2' (by omega)]
          cases hr : readRow toDouble sect (split line) dat with
          | none => rfl
          | some d1 =>
            simp only [Option.some_bind]
            exact readLines_stop toDouble rest pre sect d1 hs hk

/-- C17. Section state machine of `read`: the loop starts in the bond-strech
section on a new table; the sections are numbered in the order bond-strech,
empirical-bond-strech, angle-bend, strech-bend, default-strech-bend,
out-of-plane, torsion, van der Waals, charge, partial-charge, end; a line
starting with `$` moves to the next section, and the one that reaches the end
section stops the loop, so that after a first part of the lines holding k
markers the loop is in section k, and once the markers reach the end section
no later line is read. A row changes the mapping of its section only, and an
empirical-bond-strech row stores nothing. -/
theorem read_section_state_machine {F : Type} (toDouble : String → F) :
    (∀ lines, readFile toDouble lines =
      readLines toDouble lines Section.BondStrech (MmffParametersData.empty F)) ∧
    (Section.BondStrech = 0 ∧ Section.EmpiricalBondStrech = 1 ∧ Section.AngleBend = 2 ∧
      Section.StrechBend = 3 ∧ Section.DefaultStrechBend = 4 ∧
      Section.OutOfPlaneBending = 5 ∧ Section.Torsion = 6 ∧ Section.VanDerWaals = 7 ∧
      Section.Charge = 8 ∧ Section.PartialCharge = 9 ∧ Section.End = 10) ∧
    (∀ line rest sect dat, startsWith line '$' = true → sect + 1 < Section.End →
      readLines toDouble (line :: rest) sect dat = readLines toDouble rest (sect + 1) dat) ∧
    (∀ line rest dat, startsWith line '$' = true →
      readLines toDouble (line :: rest) Section.PartialCharge dat = some dat) ∧
    (∀ pre rest sect dat dat', sect + markerCount pre < Section.End →
      readLines toDouble pre sect dat = some dat' →
      readLines toDouble (pre ++ rest) sect dat =
        readLines toDouble rest (sect + markerCount pre) dat') ∧
    (∀ pre rest sect dat, sect < Section.End → Section.End ≤ sect + markerCount pre →
      readLines toDouble (pre ++ rest) sect dat = readLines toDouble pre sect dat) ∧
    (∀ data dat,
      readRow toDouble Section.BondStrech data dat =
        some { dat with
            bondStrechParameters :=
              dat.bondStrechParameters.insert
                  (calculateBondStrechIndex (intField data 0) (intField data 1) (intField data 2))
                  ⟨doubleField toDouble data 3, doubleField toDouble data 4⟩ } ∧
      readRow toDouble Section.EmpiricalBondStrech data dat = some dat ∧
      readRow toDouble Section.AngleBend data dat =
        some { dat with
            angleBendParameters :=
              dat.angleBendParameters.insert
                  (calculateAngleBendIndex (intField data 0) (intField data 1) (intField data 2)
                    (intField data 3))
                  ⟨doubleField toDouble data 4, doubleField toDouble data 5⟩ } ∧
      readRow toDouble Section.StrechBend data dat =
        some { dat with
            strechBendParameters :=
              dat.strechBendParameters.insert
                  (calculateStrechBendIndex (intField data 0) (intField data 1) (intField data 2)
                    (intField data 3))
                  ⟨doubleField toDouble data 4, doubleField toDouble data 5⟩ } ∧
      readRow toDouble Section.DefaultStrechBend data dat =
        some { dat with
            defaultStrechBendParameters :=
              dat.defaultStrechBendParameters ++
                  [⟨intField data 0, intField data 1, intField data 2,
                    ⟨doubleField toDouble data 3, doubleField toDouble data 4⟩⟩] } ∧
      readRow toDouble Section.OutOfPlaneBending data dat =
        some { dat with
            outOfPlaneBendingParameters :=
              dat.outOfPlaneBendingParameters.insert
                  (calculateOutOfPlaneBendingIndex (intField data 0) (intField data 1)
                    (intField data 2) (intField data 3))
                  ⟨doubleField toDouble data 4⟩ } ∧
      readRow toDouble Section.Torsion data dat =
        some { dat with
            torsionParameters :=
              dat.torsionParameters.insert
                  (calculateTorsionIndex (intField data 0) (intField data 1) (intField data 2)
                    (intField data 3) (intField data 4))
                  ⟨doubleField toDouble data 5, doubleField toDouble data 6,
                    doubleField toDouble data 7⟩ } ∧
      (∀ dat', readRow toDouble Section.VanDerWaals data dat = some dat' →
        dat' = dat ∨ ∃ parameters, dat' =
          { dat with
              vanDerWaalsParameters :=
                dat.vanDerWaalsParameters.insert (intField data 0) parameters }) ∧
      readRow toDouble Section.Charge data dat =
        some { dat with
            chargeParameters :=
              dat.chargeParameters ++
                  [⟨intField data 0, intField data 1, intField data 2,
                    doubleField toDouble data 3⟩] } ∧
      (∀ dat', readRow toDouble Section.PartialCharge data dat = some dat' →
        dat' = dat ∨ ∃ parameters, dat' =
          { dat with
              partialChargeParameters :=
                dat.partialChargeParameters.insert (intField data 1) parameters })) := by
  refine ⟨fun _ => rfl, by decide, ?_, ?_, ?_, ?_, ?_⟩
  · intro line rest sect dat h hs
    exact readLines_marker toDouble line rest sect dat h (by omega)
  · intro line rest dat h
    exact readLines_marker_end toDouble line rest _ dat h (by decide)
  · intro pre rest sect dat dat' hk h
    exact readLines_append toDouble rest pre sect dat dat' hk h
  · intro pre rest sect dat hs hk
    exact readLines_stop toDouble rest pre sect dat hs hk
  · intro data dat
    refine ⟨rfl, rfl, rfl, rfl, rfl, rfl, rfl, ?_, rfl, ?_⟩
    · intro dat' h
      have hsect : readRow toDouble Section.VanDerWaals data dat =
          (if toInt (QStringList.value data 0) > MaxAtomType then some dat
           else
            match (QStringList.value data 5).data with
            | [] => none
            | c :: _ =>
              some { dat with
                vanDerWaalsParameters :=
                  dat.vanDerWaalsParameters.insert (toInt (QStringList.value data 0))
                    { alpha := toDouble (QStringList.value data 1),
                      N := toDouble (QStringList.value data 2),
                      A := toDouble (QStringList.value data 3),
                      G := toDouble (QStringList.value data 4), DA := toAscii c } }) := rfl
      rw [hsect] at h
      split_ifs at h with hgt
      · exact Or.inl (Option.some.inj h).symm
      · cases hd : (QStringList.value data 5).data with
        | nil => rw [hd] at h; simp at h
        | cons c cs =>
          rw [hd] at h
          exact Or.inr ⟨_, (Option.some.inj h).symm⟩
    · intro dat' h
      have hsect : readRow toDouble Section.PartialCharge data dat =
          (if toInt (QStringList.value data 1) > MaxAtomType then some dat
           else
            some { dat with
              partialChargeParameters :=
                dat.partialChargeParameters.insert (toInt (QStringList.value data 1))
                  { pbci := toDouble (QStringList.value data 2),
                    fcadj := toDouble (QStringList.value data 3) } }) := rfl
      rw [hsect] at h
      split_ifs at h with hgt
      · exact Or.inl (Option.some.inj h).symm
      · exact Or.inr ⟨_, (Option.some.inj h).symm⟩

/-- Instance of C17: after a bond-strech row and two markers the loop is in
the angle-bend section, so the next row goes into the angle-bend mapping;
after ten markers the loop has stopped and a later row is not read. -/
theorem read_section_state_machine_witness :
    (markerCount ["0 1 5 4.258 1.508\n", "$\n", "$\n"] = 2 ∧
      Section.BondStrech + 2 < Section.End ∧ Section.BondStrech < Section.End ∧
      Section.End ≤ Section.BondStrech + markerCount (List.replicate 10 "$\n")) ∧
    readFile (fun s => s) (["0 1 5 4.258 1.508\n", "$\n", "$\n"] ++ ["1 1 2 3 0.695 119.1"]) =
      readLines (fun s => s) ["1 1 2 3 0.695 119.1"] Section.AngleBend
        { MmffParametersData.empty String with
          bondStrechParameters := ⟨[(calculateBondStrechIndex 0 1 5, ⟨"4.258", "1.508\n"⟩)]⟩ } ∧
    readFile (fun s => s) (["0 1 5 4.258 1.508\n", "$\n", "$\n"] ++ ["1 1 2 3 0.695 119.1"]) =
      some { MmffParametersData.empty String with
        bondStrechParameters := ⟨[(calculateBondStrechIndex 0 1 5, ⟨"4.258", "1.508\n"⟩)]⟩
        angleBendParameters := ⟨[(calculateAngleBendIndex 1 1 2 3, ⟨"0.695", "119.1"⟩)]⟩ } ∧
    readFile (fun s => s) (List.replicate 10 "$\n" ++ ["0 1 5 4.258 1.508\n"]) =
      some (MmffParametersData.empty String) :=
  ⟨by decide,
   (read_section_state_machine (fun s : String => s)).2.2.2.2.1
      ["0 1 5 4.258 1.508\n", "$\n", "$\n"] ["1 1 2 3 0.695 119.1"] Section.BondStrech
      (MmffParametersData.empty String) _ (by decide) rfl,
   rfl,
   ((read_section_state_machine (fun s : String => s)).2.2.2.2.2.1
      (List.replicate 10 "$\n") ["0 1 5 4.258 1.508\n"] Section.BondStrech
      (MmffParametersData.empty String) (by decide) (by decide)).trans rfl⟩

/-! ## Skipped lines -/

/-- C18. Skipped lines leave the load unchanged: in every section, a line
starting with `#` and a line (no section marker) that splits into fewer than
2 fields change neither the table nor the section, and the load goes on with
the remaining lines; so a source with one well-formed bond-strech row and
one line of fewer than 2 fields, in either order, loads and yields exactly
one bond-strech entry. -/
theorem read_skips_comment_and_short_lines {F : Type} (toDouble : String → F) :
    (∀ line rest sect dat, startsWith line '#' = true →
      readLines toDouble (line :: rest) sect dat = readLines toDouble rest sect dat) ∧
    (∀ line rest sect dat, startsWith line '$' = false → (split line).length < 2 →
      readLines toDouble (line :: rest) sect dat = readLines toDouble rest sect dat) ∧
    (∀ row short, startsWith row '$' = false → startsWith row '#' = false →
      2 ≤ (split row).length →
      startsWith short '$' = false → (split short).length < 2 →
      ∃ dat, readFile toDouble [row, short] = some dat ∧
        readFile toDouble [short, row] = some dat ∧
        dat.bondStrechParameters.entries.length = 1) := by
  refine ⟨?_, ?_, ?_⟩
  · intro line rest sect dat h
    exact readLines_comment toDouble line rest sect dat h
  · intro line rest sect dat h hl
    exact readLines_short toDouble line rest sect dat h hl
  · intro row short h1 h2 hl g1 gl
    obtain ⟨dat, hrow, hlen⟩ : ∃ dat,
        readRow toDouble Section.BondStrech (split row) (MmffParametersData.empty F) =
          some dat ∧ dat.bondStrechParameters.entries.length = 1 := ⟨_, rfl, rfl⟩
    refine ⟨dat, ?_, ?_, hlen⟩
    · unfold readFile
      rw [readLines_row toDouble row _ _ _ h1 h2 hl, hrow, Option.some_bind,
        readLines_short toDouble short _ _ _ g1 gl, readLines]
    · unfold readFile
      rw [readLines_short toDouble short _ _ _ g1 gl,
        readLines_row toDouble row _ _ _ h1 h2 hl, hrow, Option.some_bind, readLines]

/-- Instance of C18: the bond-strech row `0 1 5 4.258 1.508` followed by the
one-field line `garbage` loads and yields one bond-strech entry, and a
comment line before the row changes nothing. -/
theorem read_skips_comment_and_short_lines_witness :
    (startsWith "0 1 5 4.258 1.508\n" '$' = false ∧
      startsWith "0 1 5 4.258 1.508\n" '#' = false ∧
      2 ≤ (split "0 1 5 4.258 1.508\n").length ∧
      startsWith "garbage\n" '$' = false ∧ (split "garbage\n").length < 2 ∧
      startsWith "# bond strech\n" '#' = true) ∧
    (∃ dat, readFile (fun s => s) ["0 1 5 4.258 1.508\n", "garbage\n"] = some dat ∧
      readFile (fun s => s) ["garbage\n", "0 1 5 4.258 1.508\n"] = some dat ∧
      dat.bondStrechParameters.entries.length = 1) ∧
    readFile (fun s => s) ["# bond strech\n", "0 1 5 4.258 1.508\n"] =
      readFile (fun s => s) ["0 1 5 4.258 1.508\n"] :=
  ⟨by decide,
   (read_skips_comment_and_short_lines (fun s : String => s)).2.2
      "0 1 5 4.258 1.508\n" "garbage\n" (by decide) (by decide) (by decide) (by decide)
      (by decide),
   (read_skips_comment_and_short_lines (fun s : String => s)).1
      "# bond strech\n" ["0 1 5 4.258 1.508\n"] Section.BondStrech
      (MmffParametersData.empty String) (by decide)⟩

/-! ## Rows of the type-keyed sections -/

/-- No field produced by the splitting of a line is empty. -/
theorem splitAux_ne_empty :
    ∀ (cs cur : List Char), ∀ f ∈ splitAux cur cs, f.data ≠ []
  | [], cur, f, hf => by
    unfold splitAux at hf
    cases cur with
    | nil => simp at hf
    | cons x xs =>
      simp at hf
      subst hf
      simp
  | c :: cs, cur, f, hf => by
    unfold splitAux at hf
    by_cases hc : c = ' '
    · cases cur with
      | nil =>
        simp only [hc, if_true, List.isEmpty_nil] at hf
        exact splitAux_ne_empty cs [] f hf
      | cons x xs =>
        simp only [hc, if_true, List.isEmpty_cons, Bool.false_eq_true, if_false,
          List.mem_cons] at hf
        rcases hf with hf | hf
        · subst hf
          simp
        · exact splitAux_ne_empty cs [] f hf
    · simp only [hc, if_false] at hf
      exact splitAux_ne_empty cs (c :: cur) f hf

/-- Field `i` of a split line is empty exactly when the line has no field
`i`. -/
theorem value_split_empty_iff (line : String) (i : Nat) :
    (QStringList.value (split line) i).data = [] ↔ (split line).length ≤ i := by
  unfold QStringList.value
  constructor
  · intro h
    by_contra hlt
    have hi : i < (split line).length := by omega
    have hmem : (split line).getD i "" ∈ split line := by
      rw [List.getD_eq_getElem _ _ hi]
      exact List.getElem_mem hi
    exact splitAux_ne_empty line.data [] _ hmem h
  · intro h
    rw [List.getD_eq_default _ _ h]

/-- The section dispatch faults on one kind of row only: a van der Waals row
whose type passes the bounds check and whose field 5 is empty. -/
theorem readRow_eq_none_iff {F : Type} (toDouble : String → F) (sect : Nat)
    (data : List String) (dat : MmffParametersData F) :
    readRow toDouble sect data dat = none ↔
      sect = Section.VanDerWaals ∧ intField data 0 ≤ MaxAtomType ∧
        (QStringList.value data 5).data = [] := by
  by_cases hs : sect = Section.VanDerWaals
  · subst hs
    have hsect : readRow toDouble Section.VanDerWaals data dat =
        (if toInt (QStringList.value data 0) > MaxAtomType then some dat
         else
          match (QStringList.value data 5).data with
          | [] => none
          | c :: _ =>
            some { dat with
              vanDerWaalsParameters :=
                dat.vanDerWaalsParameters.insert (toInt (QStringList.value data 0))
                  { alpha := toDouble (QStringList.value data 1),
                    N := toDouble (QStringList.value data 2),
                    A := toDouble (QStringList.value data 3),
                    G := toDouble (QStringList.value data 4), DA := toAscii c } }) := rfl
    rw [hsect]
    unfold intField
    by_cases hgt : toInt (QStringList.value data 0) > MaxAtomType
    · simp only [hgt, if_true]
      constructor
      · intro h; cases h
      · rintro ⟨_, hle, _⟩; omega
    · simp only [hgt, if_false]
      cases hd : (QStringList.value data 5).data with
      | nil => simp; omega
      | cons c cs => simp
  · constructor
    · intro h
      exfalso
      rcases Nat.lt_or_ge sect 10 with hlt | hge
      · interval_cases sect
        · exact Option.noConfusion (show some _ = none from h)
        · exact Option.noConfusion (show some _ = none from h)
        · exact Option.noConfusion (show some _ = none from h)
        · exact Option.noConfusion (show some _ = none from h)
        · exact Option.noConfusion (show some _ = none from h)
        · exact Option.noConfusion (show some _ = none from h)
        · exact Option.noConfusion (show some _ = none from h)
        · exact hs rfl
        · exact Option.noConfusion (show some _ = none from h)
        · have hpc : readRow toDouble 9 data dat =
              (if toInt (QStringList.value data 1) > MaxAtomType then some dat
               else
                some { dat with
                  partialChargeParameters :=
                    dat.partialChargeParameters.insert (toInt (QStringList.value data 1))
                      { pbci := toDouble (QStringList.value data 2),
                        fcadj := toDouble (QStringList.value data 3) } }) := rfl
          rw [hpc] at h
          by_cases hgt : toInt (QStringList.value data 1) > MaxAtomType
          · rw [if_pos hgt] at h; cases h
          · rw [if_neg hgt] at h; cases h
      · unfold readRow at h
        dsimp only [Section.BondStrech, Section.EmpiricalBondStrech, Section.AngleBend,
          Section.StrechBend, Section.DefaultStrechBend, Section.OutOfPlaneBending,
          Section.Torsion, Section.VanDerWaals, Section.Charge, Section.PartialCharge] at h
        rw [if_neg (show ¬ sect = 0 by omega), if_neg (show ¬ sect = 1 by omega),
          if_neg (show ¬ sect = 2 by omega), if_neg (show ¬ sect = 3 by omega),
          if_neg (show ¬ sect = 4 by omega), if_neg (show ¬ sect = 5 by omega),
          if_neg (show ¬ sect = 6 by omega), if_neg (show ¬ sect = 7 by omega),
          if_neg (show ¬ sect = 8 by omega), if_neg (show ¬ sect = 9 by omega)] at h
        cases h
    · rintro ⟨h, _⟩
      exact absurd h hs

/-- C19, the code at the failing input. The van der Waals row
`1 1.050 2.490 3.890 1.282` has five fields and a type within the bounds;
`read` takes character 0 of its empty field 5, and the load does not end
normally. In general the section dispatch faults exactly on the van der
Waals rows whose type is at most `MaxAtomType` and whose field 5 is empty,
which for the fields of a line means fewer than 6 fields. -/
theorem vanDerWaals_short_row_aborts :
    split "1 1.050 2.490 3.890 1.282\n" = ["1", "1.050", "2.490", "3.890", "1.282\n"] ∧
    2 ≤ (split "1 1.050 2.490 3.890 1.282\n").length ∧
    intField (split "1 1.050 2.490 3.890 1.282\n") 0 ≤ MaxAtomType ∧
    QStringList.value (split "1 1.050 2.490 3.890 1.282\n") 5 = "" ∧
    (readFile (fun s => s)
      (List.replicate Section.VanDerWaals "$\n" ++ ["1 1.050 2.490 3.890 1.282\n"])).isNone
        = true ∧
    (∀ (F : Type) (toDouble : String → F) (sect : Nat) (data : List String)
        (dat : MmffParametersData F),
      readRow toDouble sect data dat = none ↔
        sect = Section.VanDerWaals ∧ intField data 0 ≤ MaxAtomType ∧
          (QStringList.value data 5).data = []) ∧
    (∀ line : String,
      (QStringList.value (split line) 5).data = [] ↔ (split line).length < 6) :=
  ⟨by decide, by decide, by decide, by decide, by decide,
   fun _ toDouble sect data dat => readRow_eq_none_iff toDouble sect data dat,
   fun line => (value_split_empty_iff line 5).trans (by omega)⟩

/-! ## Rows with the same key -/

/-- After a key was written the mapping holds one entry for it. -/
theorem QHash.count_insert_self {V : Type} (h : QHash V) (key : Int) (v : V) :
    (h.insert key v).count key = 1 := by
  simp only [QHash.insert, QHash.count]
  rw [List.filter_cons_of_pos (by simp)]
  have hnil : List.filter (fun e => e.1 == key) (List.filter (fun e => e.1 != key) h.entries)
      = [] := by
    rw [List.filter_eq_nil_iff]
    intro e he
    have := (List.mem_filter.mp he).2
    simpa using this
  rw [hnil]
  rfl

/-! ## Fields that are no numbers -/

/-- A mapping keeps its own keys. -/
theorem QHash.keysKept_refl {V : Type} (h : QHash V) : h.KeysKept h :=
  fun _ hk => hk

/-- Keeping the keys is transitive. -/
theorem QHash.keysKept_trans {V : Type} {h1 h2 h3 : QHash V} (h12 : h1.KeysKept h2)
    (h23 : h2.KeysKept h3) : h1.KeysKept h3 :=
  fun key hk => h23 key (h12 key hk)

/-- Writing a key keeps every key. -/
theorem QHash.keysKept_insert {V : Type} (h : QHash V) (key : Int) (v : V) :
    h.KeysKept (h.insert key v) := by
  intro key' hk
  by_cases he : key = key'
  · subst he
    rw [QHash.value_insert_self]
    rfl
  · rw [QHash.value_insert_of_ne _ _ _ _ he]
    exact hk

/-- A table grows to itself. -/
theorem MmffParametersData.growsTo_refl {F : Type} (dat : MmffParametersData F) :
    dat.GrowsTo dat :=
  ⟨QHash.keysKept_refl _, QHash.keysKept_refl _, QHash.keysKept_refl _, List.prefix_refl _,
    QHash.keysKept_refl _, QHash.keysKept_refl _, QHash.keysKept_refl _, List.prefix_refl _,
    QHash.keysKept_refl _⟩

/-- Growing is transitive. -/
theorem MmffParametersData.growsTo_trans {F : Type} {d1 d2 d3 : MmffParametersData F}
    (h12 : d1.GrowsTo d2) (h23 : d2.GrowsTo d3) : d1.GrowsTo d3 :=
  ⟨QHash.keysKept_trans h12.1 h23.1,
   QHash.keysKept_trans h12.2.1 h23.2.1,
   QHash.keysKept_trans h12.2.2.1 h23.2.2.1,
   List.IsPrefix.trans h12.2.2.2.1 h23.2.2.2.1,
   QHash.keysKept_trans h12.2.2.2.2.1 h23.2.2.2.2.1,
   QHash.keysKept_trans h12.2.2.2.2.2.1 h23.2.2.2.2.2.1,
   QHash.keysKept_trans h12.2.2.2.2.2.2.1 h23.2.2.2.2.2.2.1,
   List.IsPrefix.trans h12.2.2.2.2.2.2.2.1 h23.2.2.2.2.2.2.2.1,
   QHash.keysKept_trans h12.2.2.2.2.2.2.2.2 h23.2.2.2.2.2.2.2.2⟩

/-- The section dispatch of one row makes the table grow. -/
theorem readRow_growsTo {F : Type} (toDouble : String → F) (sect : Nat)
    (data : List String) (dat dat' : MmffParametersData F)
    (h : readRow toDouble sect data dat = some dat') : dat.GrowsTo dat' := by
  have hr := MmffParametersData.growsTo_refl dat
  obtain ⟨r1, r2, r3, r4, r5, r6, r7, r8, r9⟩ := hr
  rcases Nat.lt_or_ge sect 10 with hlt | hge
  · interval_cases sect
    · cases (Option.some.inj (show some _ = some dat' from h))
      exact ⟨QHash.keysKept_insert _ _ _, r2, r3, r4, r5, r6, r7, r8, r9⟩
    · cases (Option.some.inj (show some _ = some dat' from h))
      exact ⟨r1, r2, r3, r4, r5, r6, r7, r8, r9⟩
    · cases (Option.some.inj (show some _ = some dat' from h))
      exact ⟨r1, QHash.keysKept_insert _ _ _, r3, r4, r5, r6, r7, r8, r9⟩
    · cases (Option.some.inj (show some _ = some dat' from h))
      exact ⟨r1, r2, QHash.keysKept_insert _ _ _, r4, r5, r6, r7, r8, r9⟩
    · cases (Option.some.inj (show some _ = some dat' from h))
      exact ⟨r1, r2, r3, List.prefix_append _ _, r5, r6, r7, r8, r9⟩
    · cases (Option.some.inj (show some _ = some dat' from h))
      exact ⟨r1, r2, r3, r4, QHash.keysKept_insert _ _ _, r6, r7, r8, r9⟩
    · cases (Option.some.inj (show some _ = some dat' from h))
      exact ⟨r1, r2, r3, r4, r5, QHash.keysKept_insert _ _ _, r7, r8, r9⟩
    · have hvdw : readRow toDouble 7 data dat =
          (if toInt (QStringList.value data 0) > MaxAtomType then some dat
           else
            match (QStringList.value data 5).data with
            | [] => none
            | c :: _ =>
              some { dat with
                vanDerWaalsParameters :=
                  dat.vanDerWaalsParameters.insert (toInt (QStringList.value data 0))
                    { alpha := toDouble (QStringList.value data 1),
                      N := toDouble (QStringList.value data 2),
                      A := toDouble (QStringList.value data 3),
                      G := toDouble (QStringList.value data 4), DA := toAscii c } }) := rfl
      rw [hvdw] at h
      by_cases hgt : toInt (QStringList.value data 0) > MaxAtomType
      · rw [if_pos hgt] at h
        cases h
        exact ⟨r1, r2, r3, r4, r5, r6, r7, r8, r9⟩
      · rw [if_neg hgt] at h
        cases hd : (QStringList.value data 5).data with
        | nil => rw [hd] at h; cases h
        | cons c cs =>
          rw [hd] at h
          cases (Option.some.inj h)
          exact ⟨r1, r2, r3, r4, r5, r6, QHash.keysKept_insert _ _ _, r8, r9⟩
    · cases (Option.some.inj (show some _ = some dat' from h))
      exact ⟨r1, r2, r3, r4, r5, r6, r7, List.prefix_append _ _, r9⟩
    · have hpc : readRow toDouble 9 data dat =
          (if toInt (QStringList.value data 1) > MaxAtomType then some dat
           else
            some { dat with
              partialChargeParameters :=
                dat.partialChargeParameters.insert (toInt (QStringList.value data 1))
                  { pbci := toDouble (QStringList.value data 2),
                    fcadj := toDouble (QStringList.value data 3) } }) := rfl
      rw [hpc] at h
      by_cases hgt : toInt (QStringList.value data 1) > MaxAtomType
      · rw [if_pos hgt] at h
        cases h
        exact ⟨r1, r2, r3, r4, r5, r6, r7, r8, r9⟩
      · rw [if_neg hgt] at h
        cases (Option.some.inj h)
        exact ⟨r1, r2, r3, r4, r5, r6, r7, r8, QHash.keysKept_insert _ _ _⟩
  · unfold readRow at h
    dsimp only [Section.BondStrech, Section.EmpiricalBondStrech, Section.AngleBend,
      Section.StrechBend, Section.DefaultStrechBend, Section.OutOfPlaneBending,
      Section.Torsion, Section.VanDerWaals, Section.Charge, Section.PartialCharge] at h
    rw [if_neg (show ¬ sect = 0 by omega), if_neg (show ¬ sect = 1 by omega),
      if_neg (show ¬ sect = 2 by omega), if_neg (show ¬ sect = 3 by omega),
      if_neg (show ¬ sect = 4 by omega), if_neg (show ¬ sect = 5 by omega),
      if_neg (show ¬ sect = 6 by omega), if_neg (show ¬ sect = 7 by omega),
      if_neg (show ¬ sect = 8 by omega), if_neg (show ¬ sect = 9 by omega)] at h
    cases h
    exact ⟨r1, r2, r3, r4, r5, r6, r7, r8, r9⟩

/-- The loop makes the table grow, and the table it leaves after a first part
of the lines grows to the table it leaves after all of them. -/
theorem readLines_append_growsTo {F : Type} (toDouble : String → F) (rest : List String) :
    ∀ (pre : List String) (sect : Nat) (dat dat2 : MmffParametersData F),
      readLines toDouble (pre ++ rest) sect dat = some dat2 →
      ∃ dat1, readLines toDouble pre sect dat = some dat1 ∧ dat.GrowsTo dat1 ∧
        dat1.GrowsTo dat2
  | [], sect, dat, dat2, h => by
    refine ⟨dat, by rw [readLines], MmffParametersData.growsTo_refl dat, ?_⟩
    rw [List.nil_append] at h
    clear readLines_append_growsTo
    induction rest generalizing sect dat with
    | nil =>
      rw [readLines] at h
      cases h
      exact MmffParametersData.growsTo_refl _
    | cons line rest ih =>
      by_cases h1 : startsWith line '$' = true
      · by_cases he : sect + 1 = Section.End
        · rw [readLines_marker_end toDouble line _ sect dat h1 he] at h
          cases h
          exact MmffParametersData.growsTo_refl _
        · rw [readLines_marker toDouble line _ sect dat h1 he] at h
          exact ih _ _ h
      · have h1' : startsWith line '$' = false := by simpa using h1
        by_cases h2 : startsWith line '#' = true
        · rw [readLines_comment toDouble line _ sect dat h2] at h
          exact ih _ _ h
        · have h2' : startsWith line '#' = false := by simpa using h2
          by_cases hl : (split line).length < 2
          · rw [readLines_short toDouble line _ sect dat h1' hl] at h
            exact ih _ _ h
          · rw [readLines_row toDouble line _ sect dat h1' h2' (by omega)] at h
            cases hr : readRow toDouble sect (split line) dat with
            | none => simp [hr] at h
            | some d1 =>
              simp only [hr, Option.some_bind] at h
              exact MmffParametersData.growsTo_trans
                (readRow_growsTo toDouble sect _ dat d1 hr) (ih _ _ h)
  | line :: pre, sect, dat, dat2, h => by
    rw [List.cons_append] at h
    by_cases h1 : startsWith line '$' = true
    · by_cases he : sect + 1 = Section.End
      · rw [readLines_marker_end toDouble line _ sect dat h1 he] at h
        cases h
        exact ⟨dat, readLines_marker_end toDouble line _ sect dat h1 he,
          MmffParametersData.growsTo_refl dat, MmffParametersData.growsTo_refl dat⟩
      · rw [readLines_marker toDouble line _ sect dat h1 he] at h
        obtain ⟨d1, hd1, g1, g2⟩ := readLines_append_growsTo toDouble rest pre _ dat dat2 h
        exact ⟨d1, (readLines_marker toDouble line _ sect dat h1 he).trans hd1, g1, g2⟩
    · have h1' : startsWith line '$' = false := by simpa using h1
      by_cases h2 : startsWith line '#' = true
      · rw [readLines_comment toDouble line _ sect dat h2] at h
        obtain ⟨d1, hd1, g1, g2⟩ := readLines_append_growsTo toDouble rest pre _ dat dat2 h
        exact ⟨d1, (readLines_comment toDouble line _ sect dat h2).trans hd1, g1, g2⟩
      · have h2' : startsWith line '#' = false := by simpa using h2
        by_cases hl : (split line).length < 2
        · rw [readLines_short toDouble line _ sect dat h1' hl] at h
          obtain ⟨d1, hd1, g1, g2⟩ := readLines_append_growsTo toDouble rest pre _ dat dat2 h
          exact ⟨d1, (readLines_short toDouble line _ sect dat h1' hl).trans hd1, g1, g2⟩
        · rw [readLines_row toDouble line _ sect dat h1' h2' (by omega)] at h
          cases hr : readRow toDouble sect (split line) dat with
          | none => simp [hr] at h
          | some d0 =>
            simp only [hr, Option.some_bind] at h
            obtain ⟨d1, hd1, g1, g2⟩ :=
              readLines_append_growsTo toDouble rest pre _ d0 dat2 h
            refine ⟨d1, ?_, MmffParametersData.growsTo_trans
              (readRow_growsTo toDouble sect _ dat d0 hr) g1, g2⟩
            rw [readLines_row toDouble line _ sect dat h1' h2' (by omega), hr,
              Option.some_bind]
            exact hd1

/-- C27. Mappings are append-only during the load: a row, and so one more
line, and so any further lines, never remove a key from a mapping and only
lengthen the charge and default-strech-bend lists at their end; every key
present after a first part of the lines is present after the whole
input. -/
theorem read_mappings_only_grow {F : Type} (toDouble : String → F) :
    (∀ sect data (dat dat' : MmffParametersData F),
      readRow toDouble sect data dat = some dat' → dat.GrowsTo dat') ∧
    (∀ lines line sect (dat dat1 dat2 : MmffParametersData F),
      readLines toDouble lines sect dat = some dat1 →
      readLines toDouble (lines ++ [line]) sect dat = some dat2 → dat1.GrowsTo dat2) ∧
    (∀ pre rest sect (dat dat1 dat2 : MmffParametersData F),
      readLines toDouble pre sect dat = some dat1 →
      readLines toDouble (pre ++ rest) sect dat = some dat2 →
      dat1.GrowsTo dat2 ∧
      (∀ key, (dat1.bondStrechParameters.value key).isSome = true →
        (dat2.bondStrechParameters.value key).isSome = true) ∧
      (∀ key, (dat1.angleBendParameters.value key).isSome = true →
        (dat2.angleBendParameters.value key).isSome = true) ∧
      (∀ key, (dat1.strechBendParameters.value key).isSome = true →
        (dat2.strechBendParameters.value key).isSome = true) ∧
      (∀ key, (dat1.outOfPlaneBendingParameters.value key).isSome = true →
        (dat2.outOfPlaneBendingParameters.value key).isSome = true) ∧
      (∀ key, (dat1.torsionParameters.value key).isSome = true →
        (dat2.torsionParameters.value key).isSome = true) ∧
      (∀ key, (dat1.vanDerWaalsParameters.value key).isSome = true →
        (dat2.vanDerWaalsParameters.value key).isSome = true) ∧
      (∀ key, (dat1.partialChargeParameters.value key).isSome = true →
        (dat2.partialChargeParameters.value key).isSome = true) ∧
      dat1.chargeParameters <+: dat2.chargeParameters ∧
      dat1.defaultStrechBendParameters <+: dat2.defaultStrechBendParameters) := by
  have key : ∀ pre rest sect (dat dat1 dat2 : MmffParametersData F),
      readLines toDouble pre sect dat = some dat1 →
      readLines toDouble (pre ++ rest) sect dat = some dat2 → dat1.GrowsTo dat2 := by
    intro pre rest sect dat dat1 dat2 h1 h2
    obtain ⟨d1, hd1, _, g2⟩ := readLines_append_growsTo toDouble rest pre sect dat dat2 h2
    rw [h1] at hd1
    cases hd1
    exact g2
  refine ⟨fun sect data dat dat' h => readRow_growsTo toDouble sect data dat dat' h,
    fun lines line sect dat dat1 dat2 h1 h2 => key lines [line] sect dat dat1 dat2 h1 h2,
    fun pre rest sect dat dat1 dat2 h1 h2 => ?_⟩
  have g := key pre rest sect dat dat1 dat2 h1 h2
  exact ⟨g, g.1, g.2.1, g.2.2.1, g.2.2.2.2.1, g.2.2.2.2.2.1, g.2.2.2.2.2.2.1,
    g.2.2.2.2.2.2.2.2, g.2.2.2.2.2.2.2.1, g.2.2.2.1⟩

/-- Instance of C27: the key of the bond-strech row `0 1 5 4.258 1.508` is
present after that row and is still present after a marker, a comment and an
angle-bend row more. -/
theorem read_mappings_only_grow_witness :
    ∃ dat1 dat2,
      readLines (fun s => s) ["0 1 5 4.258 1.508"] Section.BondStrech
        (MmffParametersData.empty String) = some dat1 ∧
      readLines (fun s => s)
        (["0 1 5 4.258 1.508"] ++ ["$", "$", "# angle bend", "1 1 2 3 0.695 119.1"])
        Section.BondStrech (MmffParametersData.empty String) = some dat2 ∧
      (dat1.bondStrechParameters.value (calculateBondStrechIndex 0 1 5)).isSome = true ∧
      (dat2.bondStrechParameters.value (calculateBondStrechIndex 0 1 5)).isSome = true :=
  ⟨_, _, rfl, rfl, by decide,
   ((read_mappings_only_grow (fun s : String => s)).2.2
      ["0 1 5 4.258 1.508"] ["$", "$", "# angle bend", "1 1 2 3 0.695 119.1"]
      Section.BondStrech (MmffParametersData.empty String) _ _ rfl rfl).2.1
      (calculateBondStrechIndex 0 1 5) (by decide)⟩

/-! ## The cache of the plugin -/

/-- A name just written to the cache is found with its table. -/
theorem QStringHash.value_insert_name (h : QStringHash) (name : String) (p : Nat) :
    (h.insert name p).value name = some p := by
  simp [QStringHash.insert, QStringHash.value]

/-- Writing a name does not change what another name maps to. -/
theorem QStringHash.value_insert_other (h : QStringHash) (name other : String) (p : Nat)
    (hne : other ≠ name) : (h.insert name p).value other = h.value other := by
  simp only [QStringHash.insert, QStringHash.value]
  rw [List.find?_cons_of_neg _ (by simpa using fun e : name = other => hne e.symm)]
  congr 1
  induction h.entries with
  | nil => rfl
  | cons e es ih =>
    by_cases he : e.1 = name
    · have hk : ¬ (e.1 = other) := fun h' => hne (h'.symm.trans he)
      rw [List.filter_cons_of_neg (by simpa using he),
        List.find?_cons_of_neg _ (by simpa using hk)]
      exact ih
    · rw [List.filter_cons_of_pos (by simpa using he)]
      by_cases hk : e.1 = other
      · rw [List.find?_cons_of_pos _ (by simpa using hk),
          List.find?_cons_of_pos _ (by simpa using hk)]
      · rw [List.find?_cons_of_neg _ (by simpa using hk),
          List.find?_cons_of_neg _ (by simpa using hk)]
        exact ih

/-- A name just written has one entry in the cache. -/
theorem QStringHash.count_insert_name (h : QStringHash) (name : String) (p : Nat) :
    (h.insert name p).count name = 1 := by
  simp only [QStringHash.insert, QStringHash.count]
  rw [List.filter_cons_of_pos (by simp)]
  have hnil : List.filter (fun e => e.1 == name)
      (List.filter (fun e : String × Nat => e.1 != name) h.entries) = [] := by
    rw [List.filter_eq_nil_iff]
    intro e he
    have := (List.mem_filter.mp he).2
    simpa using this
  rw [hnil]
  rfl

/-- Writing a name does not change the number of entries of another name. -/
theorem QStringHash.count_insert_other (h : QStringHash) (name other : String) (p : Nat)
    (hne : other ≠ name) : (h.insert name p).count other = h.count other := by
  simp only [QStringHash.insert, QStringHash.count]
  rw [List.filter_cons_of_neg (by simpa using fun e : name = other => hne e.symm)]
  congr 1
  induction h.entries with
  | nil => rfl
  | cons e es ih =>
    by_cases he : e.1 = name
    · have hk : ¬ (e.1 = other) := fun h' => hne (h'.symm.trans he)
      rw [List.filter_cons_of_neg (by simpa using he),
        List.filter_cons_of_neg (by simpa using hk)]
      exact ih
    · rw [List.filter_cons_of_pos (by simpa using he)]
      by_cases hk : e.1 = other
      · rw [List.filter_cons_of_pos (by simpa using hk),
          List.filter_cons_of_pos (by simpa using hk), ih]
      · rw [List.filter_cons_of_neg (by simpa using hk),
          List.filter_cons_of_neg (by simpa using hk)]
        exact ih

/-- When `storeParameters` returns, the cache it leaves is the old one with
`name` written. -/
theorem MmffPlugin.storeParameters_cache {F : Type} (plugin plugin' : MmffPlugin)
    (heap heap' : Heap F) (name : String) (t : Nat)
    (h : plugin.storeParameters heap name t = some (plugin', heap')) :
    plugin' = ⟨plugin.m_parametersCache.insert name t⟩ := by
  unfold MmffPlugin.storeParameters at h
  dsimp only at h
  split at h
  · cases h
  · rw [Option.map_eq_some'] at h
    obtain ⟨heap2, _, h2⟩ := h
    cases h2
    rfl

/-- A name that is not in the cache: `storeParameters` only takes a reference
on the table. -/
theorem MmffPlugin.storeParameters_of_new {F : Type} (plugin : MmffPlugin) (heap : Heap F)
    (name : String) (t : Nat) (obj : MmffParametersDataObject F)
    (hnew : plugin.parameters name = none) (ht : heap.objects t = some obj) :
    plugin.storeParameters heap name t =
      some (⟨plugin.m_parametersCache.insert name t⟩,
        { heap with
          objects := fun q =>
            if q = t then some { obj with refCount := obj.refCount + 1 }
            else heap.objects q }) := by
  unfold MmffPlugin.parameters at hnew
  unfold MmffPlugin.storeParameters
  simp only [hnew, Heap.ref, ht, Option.map_some']

/-- C24. Cache get/store: when `storeParameters(name, t)` returns,
`parameters(name)` is `t`, `parameters(other)` is what it was for every other
name, the cache holds one entry for `name` and as many as before for every
other name; it returns whenever `name` is new and `t` is a table that exists;
the cache of a new plugin holds no entry and `parameters` is null on it, and
stays null for a name as long as other names are stored. -/
theorem cache_get_store {F : Type} (plugin : MmffPlugin) (heap : Heap F) (name : String)
    (t : Nat) :
    (∀ plugin' heap', plugin.storeParameters heap name t = some (plugin', heap') →
      plugin'.parameters name = some t ∧
      (∀ other, other ≠ name → plugin'.parameters other = plugin.parameters other) ∧
      (∀ other, other ≠ name → plugin.parameters other = none →
        plugin'.parameters other = none) ∧
      plugin'.m_parametersCache.count name = 1 ∧
      (∀ other, other ≠ name →
        plugin'.m_parametersCache.count other = plugin.m_parametersCache.count other) ∧
      ((∀ other, plugin.m_parametersCache.count other ≤ 1) →
        ∀ other, plugin'.m_parametersCache.count other ≤ 1)) ∧
    (∀ obj, plugin.parameters name = none → heap.objects t = some obj →
      ∃ heap', plugin.storeParameters heap name t =
        some (⟨plugin.m_parametersCache.insert name t⟩, heap')) ∧
    (MmffPlugin.mk ⟨[]⟩).parameters name = none ∧
    (MmffPlugin.mk ⟨[]⟩).m_parametersCache.count name = 0 := by
  refine ⟨fun plugin' heap' h => ?_, fun obj hnew ht => ?_, rfl, rfl⟩
  · have hc := MmffPlugin.storeParameters_cache plugin plugin' heap heap' name t h
    subst hc
    refine ⟨QStringHash.value_insert_name _ _ _,
      fun other hne => QStringHash.value_insert_other _ _ _ _ hne,
      fun other hne hnone => ?_,
      QStringHash.count_insert_name _ _ _,
      fun other hne => QStringHash.count_insert_other _ _ _ _ hne,
      fun hall other => ?_⟩
    · exact (QStringHash.value_insert_other _ _ _ _ hne).trans hnone
    · by_cases hne : other = name
      · rw [hne]
        exact le_of_eq (QStringHash.count_insert_name _ _ _)
      · show (plugin.m_parametersCache.insert name t).count other ≤ 1
        rw [QStringHash.count_insert_other _ _ _ _ hne]
        exact hall other
  · exact ⟨_, MmffPlugin.storeParameters_of_new plugin heap name t obj hnew ht⟩

/-- Instance of C24: in the sample cache, which maps `a.prm` to table 0,
`storeParameters("b.prm", 1)` returns; afterwards `b.prm` maps to table 1 and
`a.prm` still maps to table 0. -/
theorem cache_get_store_witness :
    ∃ plugin' heap',
      Sample.plugin.storeParameters Sample.heap "b.prm" 1 = some (plugin', heap') ∧
      plugin'.parameters "b.prm" = some 1 ∧
      plugin'.parameters "a.prm" = Sample.plugin.parameters "a.prm" ∧
      plugin'.parameters "a.prm" = some 0 :=
  ⟨_, _, rfl,
   ((cache_get_store Sample.plugin Sample.heap "b.prm" 1).1 _ _ rfl).1,
   ((cache_get_store Sample.plugin Sample.heap "b.prm" 1).1 _ _ rfl).2.1 "a.prm" (by decide),
   rfl⟩

/-- A name that maps to another table: `storeParameters` releases one
reference of the old table and takes one on the new. -/
theorem MmffPlugin.storeParameters_of_old {F : Type} (plugin : MmffPlugin) (heap : Heap F)
    (name : String) (t old : Nat) (obj o : MmffParametersDataObject F)
    (hold : plugin.parameters name = some old) (ho : heap.objects old = some o)
    (ht : heap.objects t = some obj) (hne : old ≠ t) :
    plugin.storeParameters heap name t =
      some (⟨plugin.m_parametersCache.insert name t⟩,
        { heap with
          objects := fun q =>
            if q = t then some { obj with refCount := obj.refCount + 1 }
            else if q = old then
              if o.refCount ≤ 1 then none else some { o with refCount := o.refCount - 1 }
            else heap.objects q }) := by
  unfold MmffPlugin.parameters at hold
  unfold MmffPlugin.storeParameters
  simp only [hold, Heap.deref, ho, Heap.ref, if_neg (Ne.symm hne), ht, Option.map_some']

/-- A name that maps to the table stored again, on which another reference
is held: `storeParameters` leaves the reference count as it was. -/
theorem MmffPlugin.storeParameters_of_same {F : Type} (plugin : MmffPlugin) (heap : Heap F)
    (name : String) (t : Nat) (obj : MmffParametersDataObject F)
    (hold : plugin.parameters name = some t) (ht : heap.objects t = some obj)
    (hrc : 2 ≤ obj.refCount) :
    ∃ heap', plugin.storeParameters heap name t =
        some (⟨plugin.m_parametersCache.insert name t⟩, heap') ∧
      heap'.objects t = some obj ∧ ∀ q, q ≠ t → heap'.objects q = heap.objects q := by
  unfold MmffPlugin.parameters at hold
  unfold MmffPlugin.storeParameters
  have h1 : ¬ obj.refCount ≤ 1 := by omega
  have h2 : obj.refCount - 1 + 1 = obj.refCount := by omega
  simp only [hold, Heap.deref, ht, Heap.ref, if_pos, if_neg h1, Option.map_some', h2]
  refine ⟨_, rfl, ?_, fun q hq => ?_⟩
  · show (if t = t then _ else _) = _
    rw [if_pos rfl]
  · show (if q = t then _ else if q = t then _ else _) = _
    rw [if_neg hq, if_neg hq]

/-- C25. `storeParameters(name, t)` replaces any existing entry, for a table
`t` that exists: when `name` maps to another table `old` that exists, `old`
has one reference less afterwards (it is destroyed when that was its last),
`t` has one more and no other table is touched; when `name` maps to `t`
itself, on which another reference is held, one reference is released and one
taken, so the count of `t` is as before; when `name` is new no table loses a
reference and `t` has one more. In each case the call returns and afterwards
`name` maps to `t`, in one entry. -/
theorem storeParameters_reference_counts {F : Type} (plugin : MmffPlugin) (heap : Heap F)
    (name : String) (t : Nat) (obj : MmffParametersDataObject F)
    (ht : heap.objects t = some obj) :
    (∀ old o, plugin.parameters name = some old → heap.objects old = some o → old ≠ t →
      ∃ plugin' heap', plugin.storeParameters heap name t = some (plugin', heap') ∧
        heap'.objects old =
          (if o.refCount ≤ 1 then none else some { o with refCount := o.refCount - 1 }) ∧
        heap'.objects t = some { obj with refCount := obj.refCount + 1 } ∧
        (∀ q, q ≠ old → q ≠ t → heap'.objects q = heap.objects q) ∧
        plugin'.parameters name = some t ∧ plugin'.m_parametersCache.count name = 1) ∧
    (plugin.parameters name = some t → 2 ≤ obj.refCount →
      ∃ plugin' heap', plugin.storeParameters heap name t = some (plugin', heap') ∧
        heap'.objects t = some obj ∧
        (∀ q, q ≠ t → heap'.objects q = heap.objects q) ∧
        plugin'.parameters name = some t ∧ plugin'.m_parametersCache.count name = 1) ∧
    (plugin.parameters name = none →
      ∃ plugin' heap', plugin.storeParameters heap name t = some (plugin', heap') ∧
        heap'.objects t = some { obj with refCount := obj.refCount + 1 } ∧
        (∀ q, q ≠ t → heap'.objects q = heap.objects q) ∧
        plugin'.parameters name = some t ∧ plugin'.m_parametersCache.count name = 1) := by
  refine ⟨fun old o hold ho hne => ?_, fun hold hrc => ?_, fun hnew => ?_⟩
  · refine ⟨_, _, MmffPlugin.storeParameters_of_old plugin heap name t old obj o hold ho ht hne,
      ?_, ?_, fun q hq1 hq2 => ?_, QStringHash.value_insert_name _ _ _,
      QStringHash.count_insert_name _ _ _⟩
    · show (if old = t then _ else if old = old then _ else _) = _
      rw [if_neg hne, if_pos rfl]
    · show (if t = t then _ else _) = _
      rw [if_pos rfl]
    · show (if q = t then _ else if q = old then _ else _) = _
      rw [if_neg hq2, if_neg hq1]
  · obtain ⟨heap', hs, h1, h2⟩ :=
      MmffPlugin.storeParameters_of_same plugin heap name t obj hold ht hrc
    exact ⟨_, heap', hs, h1, h2, QStringHash.value_insert_name _ _ _,
      QStringHash.count_insert_name _ _ _⟩
  · refine ⟨_, _, MmffPlugin.storeParameters_of_new plugin heap name t obj hnew ht,
      ?_, fun q hq => ?_, QStringHash.value_insert_name _ _ _,
      QStringHash.count_insert_name _ _ _⟩
    · show (if t = t then _ else _) = _
      rw [if_pos rfl]
    · show (if q = t then _ else _) = _
      rw [if_neg hq]

/-- Instance of C25: in the sample cache `a.prm` maps to table 0, which has one
reference; `storeParameters("a.prm", 1)` returns, destroys table 0, leaves two
references on table 1 and `a.prm` maps to table 1. -/
theorem storeParameters_reference_counts_witness :
    ∃ plugin' heap',
      Sample.plugin.storeParameters Sample.heap "a.prm" 1 = some (plugin', heap') ∧
      heap'.objects 0 = none ∧
      heap'.objects 1 = some ⟨2, MmffParametersData.empty String⟩ ∧
      plugin'.parameters "a.prm" = some 1 := by
  obtain ⟨plugin', heap', h, h0, h1, _, hp, _⟩ :=
    (storeParameters_reference_counts Sample.plugin Sample.heap "a.prm" 1
      ⟨1, MmffParametersData.empty String⟩ rfl).1 0 ⟨1, MmffParametersData.empty String⟩
      rfl rfl (by decide)
  exact ⟨plugin', heap', h, h0, h1, hp⟩

/-! ## `read`: the cache, the reference counts and the failure to open -/

/-- One reference less on a table that exists. -/
theorem Heap.deref_of_live {F : Type} (heap : Heap F) (p : Nat)
    (obj : MmffParametersDataObject F) (hp : heap.objects p = some obj) :
    ∃ heap', heap.deref p = some heap' ∧
      heap'.objects p =
        (if obj.refCount ≤ 1 then none else some { obj with refCount := obj.refCount - 1 }) ∧
      (∀ q, q ≠ p → heap'.objects q = heap.objects q) ∧ heap'.next = heap.next := by
  unfold Heap.deref
  rw [hp]
  refine ⟨_, rfl, ?_, fun q hq => ?_, rfl⟩
  · show (if p = p then _ else _) = _
    rw [if_pos rfl]
  · show (if q = p then _ else _) = _
    rw [if_neg hq]

/-- The tables of a table object that exists are replaced. -/
theorem Heap.setTables_of_live {F : Type} (heap : Heap F) (p : Nat)
    (obj : MmffParametersDataObject F) (tables : MmffParametersData F)
    (hp : heap.objects p = some obj) :
    ∃ heap', heap.setTables p tables = some heap' ∧
      heap'.objects p = some { obj with tables := tables } ∧
      (∀ q, q ≠ p → heap'.objects q = heap.objects q) ∧ heap'.next = heap.next := by
  unfold Heap.setTables
  rw [hp]
  refine ⟨_, rfl, ?_, fun q hq => ?_, rfl⟩
  · show (if p = p then _ else _) = _
    rw [if_pos rfl]
  · show (if q = p then _ else _) = _
    rw [if_neg hq]

/-- The cached path of `read`: with the plugin available and a table that
exists cached for `fileName`, `read` returns true whatever the file system
and the number parser are, `d` is the cached table, which has one reference
more, its tables are what they were, and nothing else changes but the release
of the old table. -/
theorem read_of_cached {F : Type} (fileName : String) (self : State) (w : World F)
    (plugin : MmffPlugin) (p : Nat) (heap1 : Heap F) (obj : MmffParametersDataObject F)
    (hplugin : w.mmffPlugin = some plugin) (hcache : plugin.parameters fileName = some p)
    (hrel : releaseOld self.d w.heap = some heap1) (hobj : heap1.objects p = some obj) :
    ∃ w', (∀ (toDouble : String → F) (openFile : String → Except String (List String)),
        read toDouble openFile fileName self w = some (true, { self with d := some p }, w')) ∧
      w'.mmffPlugin = some plugin ∧
      w'.heap.objects p = some { obj with refCount := obj.refCount + 1 } ∧
      (∀ q, q ≠ p → w'.heap.objects q = heap1.objects q) ∧
      w'.heap.next = heap1.next ∧
      currentTables { self with d := some p } w' = some obj.tables := by
  refine ⟨{ w with
      heap :=
        { heap1 with
          objects := fun q =>
            if q = p then some { obj with refCount := obj.refCount + 1 }
            else heap1.objects q } }, fun toDouble openFile => ?_, hplugin, ?_,
    fun q hq => ?_, rfl, ?_⟩
  · unfold read
    simp only [hrel, hplugin, Option.some_bind, hcache, Heap.ref, hobj, Option.map_some']
  · show (if p = p then _ else _) = _
    rw [if_pos rfl]
  · show (if q = p then _ else _) = _
    rw [if_neg hq]
  · show Option.map _ (if p = p then _ else _) = _
    rw [if_pos rfl]
    rfl

/-- The loading path of `read`: with the plugin available, no table cached for
`fileName`, a file that opens and a loop that ends, `read` returns true, `d`
is a new table that holds what the loop read and has two references, the one
of the object and the one of the cache, and the cache maps `fileName` to
it. -/
theorem read_of_load {F : Type} (toDouble : String → F)
    (openFile : String → Except String (List String)) (fileName : String) (self : State)
    (w : World F) (plugin : MmffPlugin) (heap1 : Heap F) (lines : List String)
    (tables : MmffParametersData F)
    (hplugin : w.mmffPlugin = some plugin) (hmiss : plugin.parameters fileName = none)
    (hrel : releaseOld self.d w.heap = some heap1) (hopen : openFile fileName = .ok lines)
    (hfile : readFile toDouble lines = some tables) :
    ∃ w1, read toDouble openFile fileName self w =
        some (true, ⟨some heap1.next, fileName, self.m_errorString⟩, w1) ∧
      w1.mmffPlugin = some ⟨plugin.m_parametersCache.insert fileName heap1.next⟩ ∧
      w1.heap.objects heap1.next = some ⟨2, tables⟩ ∧
      (∀ q, q ≠ heap1.next → w1.heap.objects q = heap1.objects q) ∧
      w1.heap.next = heap1.next + 1 := by
  have hloop : readLines toDouble lines Section.BondStrech (MmffParametersData.empty F) =
      some tables := hfile
  have hmiss' : plugin.m_parametersCache.value fileName = none := hmiss
  unfold read
  simp only [hrel, hplugin, Option.some_bind, hmiss, Heap.new, hopen, if_pos, hloop,
    Heap.setTables, MmffPlugin.storeParameters, hmiss', Heap.ref, Option.map_some']
  refine ⟨_, rfl, rfl, ?_, fun q hq => ?_, rfl⟩
  · show (if heap1.next = heap1.next then _ else _) = _
    rw [if_pos rfl]
  · show (if q = heap1.next then _ else if q = heap1.next then _
      else if q = heap1.next then _ else _) = _
    rw [if_neg hq, if_neg hq, if_neg hq]

/-- C23. Cache identity. With the mmff plugin available and a table that
exists cached for `fileName`, `read(fileName)` returns true whatever the file
system holds and whatever the number parser does (nothing is opened or
parsed), `d` is the cached table object itself, with one reference more and
the tables it had. After a first `read(fileName)` that loaded the file,
the cache maps `fileName` to the table `d` of that load; a later
`read(fileName)` on the same object and one on a newly constructed object
return true with that same table as `d` (with two and three references), and
tables written to the table object after the first load are the tables the
later reads see. -/
theorem cache_identity {F : Type} (fileName : String) :
    (∀ (self : State) (w : World F) (plugin : MmffPlugin) (p : Nat) (heap1 : Heap F)
        (obj : MmffParametersDataObject F),
      w.mmffPlugin = some plugin → plugin.parameters fileName = some p →
      releaseOld self.d w.heap = some heap1 → heap1.objects p = some obj →
      ∃ w', (∀ (toDouble : String → F) (openFile : String → Except String (List String)),
          read toDouble openFile fileName self w =
            some (true, { self with d := some p }, w')) ∧
        w'.mmffPlugin = some plugin ∧
        w'.heap.objects p = some { obj with refCount := obj.refCount + 1 } ∧
        currentTables { self with d := some p } w' = some obj.tables) ∧
    (∀ (toDouble : String → F) (openFile : String → Except String (List String))
        (self : State) (w : World F) (plugin : MmffPlugin) (heap1 : Heap F)
        (lines : List String) (tables : MmffParametersData F),
      w.mmffPlugin = some plugin → plugin.parameters fileName = none →
      releaseOld self.d w.heap = some heap1 → openFile fileName = .ok lines →
      readFile toDouble lines = some tables →
      ∃ self1 w1 plugin1,
        read toDouble openFile fileName self w = some (true, self1, w1) ∧
        self1.d = some heap1.next ∧ w1.mmffPlugin = some plugin1 ∧
        plugin1.parameters fileName = some heap1.next ∧
        w1.heap.objects heap1.next = some ⟨2, tables⟩ ∧
        currentTables self1 w1 = some tables ∧
        ∀ tables', ∃ heapc, w1.heap.setTables heap1.next tables' = some heapc ∧
          (∃ w2,
            (∀ (toDouble' : String → F) (openFile' : String → Except String (List String)),
              read toDouble' openFile' fileName self1 { w1 with heap := heapc } =
                some (true, self1, w2)) ∧
            w2.heap.objects heap1.next = some ⟨2, tables'⟩ ∧
            currentTables self1 w2 = some tables') ∧
          (∃ self2 w2,
            (∀ (toDouble' : String → F) (openFile' : String → Except String (List String)),
              read toDouble' openFile' fileName (construct { w1 with heap := heapc }).1
                (construct { w1 with heap := heapc }).2 = some (true, self2, w2)) ∧
            self2.d = some heap1.next ∧
            w2.heap.objects heap1.next = some ⟨3, tables'⟩ ∧
            currentTables self2 w2 = some tables')) := by
  constructor
  · intro self w plugin p heap1 obj hplugin hcache hrel hobj
    obtain ⟨w', hread, hpl, hp, _, _, hcur⟩ :=
      read_of_cached fileName self w plugin p heap1 obj hplugin hcache hrel hobj
    exact ⟨w', hread, hpl, hp, hcur⟩
  · intro toDouble openFile self w plugin heap1 lines tables hplugin hmiss hrel hopen hfile
    obtain ⟨w1, hread, hpl, hobj, _, hnext⟩ :=
      read_of_load toDouble openFile fileName self w plugin heap1 lines tables hplugin hmiss
        hrel hopen hfile
    have hcached : (MmffPlugin.mk (plugin.m_parametersCache.insert fileName heap1.next)).parameters
        fileName = some heap1.next := QStringHash.value_insert_name _ _ _
    refine ⟨_, w1, _, hread, rfl, hpl, hcached, hobj, ?_, fun tables' => ?_⟩
    · show Option.map _ (w1.heap.objects heap1.next) = _
      rw [hobj]
      rfl
    · obtain ⟨heapc, hset, hcp, hcq, hcn⟩ :=
        Heap.setTables_of_live w1.heap heap1.next ⟨2, tables⟩ tables' hobj
      refine ⟨heapc, hset, ?_, ?_⟩
      · obtain ⟨heapd, hd, hdp, _, _⟩ := Heap.deref_of_live heapc heap1.next _ hcp
        rw [if_neg (show ¬ (2 : Nat) ≤ 1 by decide)] at hdp
        obtain ⟨w2, hread2, _, hp2, _, _, hcur2⟩ :=
          read_of_cached fileName ⟨some heap1.next, fileName, self.m_errorString⟩
            { w1 with heap := heapc } _ heap1.next heapd _ hpl hcached hd hdp
        exact ⟨w2, hread2, hp2, hcur2⟩
      · have hne : heap1.next ≠ heapc.next := by
          rw [hcn, hnext]
          omega
        have hnew : (heapc.new).2.objects heapc.next =
            some ⟨1, MmffParametersData.empty F⟩ := by
          show (if heapc.next = heapc.next then _ else _) = _
          rw [if_pos rfl]
        obtain ⟨heapd, hd, _, hdq, _⟩ := Heap.deref_of_live (heapc.new).2 heapc.next _ hnew
        have hdp : heapd.objects heap1.next = some ⟨2, tables'⟩ := by
          rw [hdq heap1.next hne]
          show (if heap1.next = heapc.next then _ else _) = _
          rw [if_neg hne]
          exact hcp
        obtain ⟨w2, hread2, _, hp2, _, _, hcur2⟩ :=
          read_of_cached fileName (construct { w1 with heap := heapc }).1
            (construct { w1 with heap := heapc }).2 _ heap1.next heapd _ hpl hcached hd hdp
        exact ⟨_, w2, hread2, rfl, hp2, hcur2⟩

/-- Instance of C23: a new object in the sample world reads `mmff.prm`, which
opens and holds one bond-strech row; `read` returns true, `d` is the table at
address 1 and the cache maps `mmff.prm` to it. -/
theorem cache_identity_witness :
    ∃ self1 w1 plugin1,
      read (fun s => s) Sample.openFile "mmff.prm" (construct Sample.world).1
        (construct Sample.world).2 = some (true, self1, w1) ∧
      self1.d = some 1 ∧ w1.mmffPlugin = some plugin1 ∧
      plugin1.parameters "mmff.prm" = some 1 := by
  obtain ⟨self1, w1, plugin1, h1, h2, h3, h4, _⟩ :=
    (@cache_identity String "mmff.prm").2 (fun s => s) Sample.openFile
      (construct Sample.world).1 (construct Sample.world).2 ⟨⟨[]⟩⟩ _ _ _ rfl rfl rfl rfl rfl
  exact ⟨self1, w1, plugin1, h1, h2, h3, h4⟩

/-- The internal lookups find nothing in the empty table. -/
theorem Internal.lookups_of_empty {F : Type} :
    (∀ t a b, Internal.bondStrechParameters (MmffParametersData.empty F) t a b = none) ∧
    (∀ t a b c, Internal.angleBendParameters (MmffParametersData.empty F) t a b c = none) ∧
    (∀ t a b c, Internal.strechBendParameters (MmffParametersData.empty F) t a b c = none) ∧
    (∀ a b c, Internal.defaultStrechBendParameters (MmffParametersData.empty F) a b c = none) ∧
    (∀ a b c d,
      Internal.outOfPlaneBendingParameters (MmffParametersData.empty F) a b c d = none) ∧
    (∀ t a b c d,
      Internal.torsionParameters (MmffParametersData.empty F) t a b c d = none) :=
  ⟨fun _ _ _ => rfl, fun _ _ _ _ => rfl, fun _ _ _ _ => rfl, fun _ _ _ => rfl,
    fun _ _ _ _ => rfl, fun _ _ _ _ _ => rfl⟩

/-- Counterexample to C26 as stated. A new object in the sample world reads
`missing.prm`, which cannot be opened and for which nothing is cached: `read`
returns false and records the error message, yet the lookup `atomParameters`
of that object still returns the record of an atom of type 1, not nothing:
it reads the static table `AtomParameters` and no table of the file. -/
theorem read_failure_atomParameters_counterexample :
    ∃ self1 w1,
      read (fun s => s) Sample.openFile "missing.prm" (construct Sample.world).1
        (construct Sample.world).2 = some (false, self1, w1) ∧
      self1.m_errorString = "No such file or directory" ∧
      atomParameters Sample.c3 = some Sample.record1 ∧
      atomParameters Sample.c3 ≠ none :=
  ⟨_, _, rfl, rfl, by decide, by decide⟩

/-- C26, amended. Source unavailable: when no table is cached for `fileName`
(the plugin is not loaded or its cache has no entry) and the file cannot be
opened, `read` returns false, records the error message of the file as the
error string, leaves the file name as it was and stores nothing in the cache,
so `parameters(fileName)` is still null afterwards; `d` is a new empty table
with one reference, so every lookup in the tables of the file (bond-strech,
angle-bend, strech-bend, default strech-bend, out-of-plane, torsion, van der
Waals, charge, partial charge) finds nothing where it returns, while
`atomParameters`, which reads the static table, still returns a record for
every type in 1..99. -/
theorem read_open_failure {F : Type} (toDouble : String → F)
    (openFile : String → Except String (List String)) (fileName : String) (self : State)
    (w : World F) (heap1 : Heap F) (errorString : String)
    (hmiss : w.mmffPlugin.bind (fun mmffPlugin => mmffPlugin.parameters fileName) = none)
    (hrel : releaseOld self.d w.heap = some heap1)
    (hopen : openFile fileName = .error errorString) :
    ∃ self1 w1,
      read toDouble openFile fileName self w = some (false, self1, w1) ∧
      self1 = { self with d := some heap1.next, m_errorString := errorString } ∧
      self1.m_errorString = errorString ∧ self1.m_fileName = self.m_fileName ∧
      w1.mmffPlugin = w.mmffPlugin ∧
      w1.mmffPlugin.bind (fun mmffPlugin => mmffPlugin.parameters fileName) = none ∧
      w1.heap.objects heap1.next = some ⟨1, MmffParametersData.empty F⟩ ∧
      (∀ q, q ≠ heap1.next → w1.heap.objects q = heap1.objects q) ∧
      currentTables self1 w1 = some (MmffParametersData.empty F) ∧
      (∀ m a b, bondStrechParameters m (MmffParametersData.empty F) a b =
        (calculateBondType m a b).map fun _ => none) ∧
      (∀ m a b c, angleBendParameters m (MmffParametersData.empty F) a b c =
        (calculateAngleType m a b c).map fun _ => none) ∧
      (∀ m a b c, strechBendParameters m (MmffParametersData.empty F) a b c =
        (calculateStrechBendType m a b c).map fun _ => none) ∧
      (∀ a b c, defaultStrechBendParameters (MmffParametersData.empty F) a b c = none) ∧
      (∀ a b c d, outOfPlaneBendingParameters (MmffParametersData.empty F) a b c d = none) ∧
      (∀ m a b c d, torsionParameters m (MmffParametersData.empty F) a b c d =
        (calculateTorsionType m a b c d).map fun _ => none) ∧
      (∀ atom, vanDerWaalsParameters (MmffParametersData.empty F) atom = none) ∧
      (∀ m a b, chargeParameters m (MmffParametersData.empty F) a b =
        (calculateBondType m a b).map fun _ => none) ∧
      (∀ atom, partialChargeParameters (MmffParametersData.empty F) atom = none) ∧
      (∀ atom : MmffAtom, 1 ≤ atom.typeNumber → atom.typeNumber ≤ 99 →
        (atomParameters atom).isSome = true) := by
  have hread : read toDouble openFile fileName self w =
      some (false, { self with d := some heap1.next, m_errorString := errorString },
        { w with heap := (heap1.new).2 }) := by
    unfold read
    simp only [hrel, hmiss, Heap.new, hopen]
  refine ⟨_, _, hread, rfl, rfl, rfl, rfl, hmiss, ?_, fun q hq => ?_, ?_,
    fun _ _ _ => rfl, fun _ _ _ _ => rfl, fun _ _ _ _ => rfl, fun _ _ _ => rfl,
    fun _ _ _ _ => rfl, fun _ _ _ _ _ => rfl, fun _ => rfl, fun _ _ _ => rfl, fun _ => rfl,
    fun atom h1 h2 => ?_⟩
  · show (if heap1.next = heap1.next then _ else _) = _
    rw [if_pos rfl]
  · show (if q = heap1.next then _ else _) = _
    rw [if_neg hq]
  · show Option.map _ (if heap1.next = heap1.next then _ else _) = _
    rw [if_pos rfl]
    rfl
  · have hn : ¬ (atom.typeNumber < 1 ∨ atom.typeNumber > 99) := by omega
    unfold atomParameters
    rw [dif_neg hn]
    rfl

/-- Instance of C26, amended: a new object in the sample world reads
`missing.prm`; nothing is cached for it and it cannot be opened. `read`
returns false, the error string is the message of the file, the cache still
has no table for `missing.prm` and `d` is an empty table. -/
theorem read_open_failure_witness :
    ∃ self1 w1,
      read (fun s => s) Sample.openFile "missing.prm" (construct Sample.world).1
        (construct Sample.world).2 = some (false, self1, w1) ∧
      self1.m_errorString = "No such file or directory" ∧
      w1.mmffPlugin.bind (fun mmffPlugin => mmffPlugin.parameters "missing.prm") = none ∧
      currentTables self1 w1 = some (MmffParametersData.empty String) := by
  obtain ⟨self1, w1, h1, _, h2, _, _, h3, _, _, h4, _⟩ :=
    read_open_failure (fun s : String => s) Sample.openFile "missing.prm"
      (construct Sample.world).1 (construct Sample.world).2 _ "No such file or directory"
      rfl rfl rfl
  exact ⟨self1, w1, h1, h2, h3, h4⟩

end MmffParameters

/-! # Properties of generic files -/

namespace GenericFile

/-- Starting with no format set, `read(fileName)` and `setFileName(fileName)`
followed by `read()` return the same result and leave the same file name,
format and contents. -/
theorem readFileName_of_no_format {Format Device Contents : Type}
    (env : Env Format Device Contents) (file : File Format Contents) (fileName : String)
    (h : file.m_format = none) :
    (readFileName env file fileName).1 = (setFileNameThenRead env file fileName).1 ∧
    (readFileName env file fileName).2.m_fileName =
      (setFileNameThenRead env file fileName).2.m_fileName ∧
    (readFileName env file fileName).2.m_format =
      (setFileNameThenRead env file fileName).2.m_format ∧
    (readFileName env file fileName).2.contents =
      (setFileNameThenRead env file fileName).2.contents := by
  unfold readFileName readFileNameFormat setFileNameThenRead setFileName
  simp only [h, Option.isNone_none, if_true]
  unfold setFormatName
  cases hc : env.create (suffix env fileName) with
  | none =>
    simp only [setErrorString, read, Option.isNone_none, Bool.not_false, if_true]
    by_cases he : fileName.isEmpty = true
    · simp [he]
    · simp [he]
  | some format =>
    simp only [setFormat, Bool.not_true, hc]
    simp

/-- C28 fails on the code. The sample file has the format `mol` set; in the
sample environment `read("water.xyz")` returns true and leaves the format
`xyz`, with which it read the file, whereas `setFileName("water.xyz")`
followed by `read()` returns true, keeps the format `mol` and reads the file
with it; and `read("water.txt")`, whose suffix names no format, returns false
with the error string of an unsupported format, whereas
`setFileName("water.txt")` followed by `read()` returns true. -/
theorem readFileName_differs_from_setFileNameThenRead :
    readFileName sampleEnv sampleFile "water.xyz" =
      (true, { m_fileName := "water.xyz", m_format := some "xyz", m_errorString := "",
               contents := ["xyz"] }) ∧
    setFileNameThenRead sampleEnv sampleFile "water.xyz" =
      (true, { m_fileName := "water.xyz", m_format := some "mol", m_errorString := "",
               contents := ["mol"] }) ∧
    readFileName sampleEnv sampleFile "water.txt" =
      (false, { m_fileName := "water.txt", m_format := some "mol",
                m_errorString := "File format 'txt' is not supported.", contents := [] }) ∧
    setFileNameThenRead sampleEnv sampleFile "water.txt" =
      (true, { m_fileName := "water.txt", m_format := some "mol", m_errorString := "",
               contents := ["mol"] }) :=
  ⟨rfl, rfl, rfl, rfl⟩

end GenericFile

/-! # Properties of molecule files -/

namespace MoleculeFile

/-- The position `std::find` returns is at most the size of the vector. -/
theorem find_le (x : Nat) : ∀ l : List Nat, find x l ≤ l.length
  | [] => Nat.le_refl 0
  | y :: ys => by
    unfold find
    by_cases h : y = x
    · rw [if_pos h]
      exact Nat.zero_le _
    · rw [if_neg h]
      exact Nat.succ_le_succ (find_le x ys)

/-- The search `std::find` returns `end()` exactly when the element is not in
the vector. -/
theorem find_eq_length_iff (x : Nat) : ∀ l : List Nat, find x l = l.length ↔ x ∉ l
  | [] => by simp [find]
  | y :: ys => by
    unfold find
    by_cases h : y = x
    · rw [if_pos h]
      simp [h]
    · rw [if_neg h]
      have ih := find_eq_length_iff x ys
      have hne : ¬ x = y := fun e => h e.symm
      simp only [List.length_cons, Nat.add_right_cancel_iff, List.mem_cons, hne, false_or]
      exact ih

/-- Erasing at the position `std::find` returns removes the first occurrence
of the element and keeps the rest in order. -/
theorem eraseIdx_find (x : Nat) :
    ∀ l : List Nat, x ∈ l →
      ∃ l1 l2, l = l1 ++ x :: l2 ∧ x ∉ l1 ∧ l.eraseIdx (find x l) = l1 ++ l2
  | [], h => by cases h
  | y :: ys, h => by
    unfold find
    by_cases hy : y = x
    · rw [if_pos hy]
      exact ⟨[], ys, by rw [hy]; rfl, by simp, rfl⟩
    · rw [if_neg hy]
      have hx : x ∈ ys := by
        rcases List.mem_cons.mp h with h1 | h1
        · exact absurd h1.symm hy
        · exact h1
      obtain ⟨l1, l2, h1, h2, h3⟩ := eraseIdx_find x ys hx
      refine ⟨y :: l1, l2, by rw [h1]; rfl, ?_, ?_⟩
      · simp only [List.mem_cons, not_or]
        exact ⟨fun e => hy e.symm, h2⟩
      · rw [List.eraseIdx_cons_succ, h3]
        rfl

/-- C29. `removeMolecule(m)` returns true exactly when the file contains `m`,
that is when `m` is in the molecule list. When it returns true the first
occurrence of `m` is removed and the other molecules keep their order,
`moleculeCount` is one less, no molecule data is left for `m`, the data of
the other molecules and the other members are unchanged; when it returns
false nothing changes. -/
theorem removeMolecule_spec {Format V : Type} (d : MoleculeFilePrivate Format V) (m : Nat) :
    ((removeMolecule d m).1 = true ↔ contains d m = true) ∧
    (contains d m = true ↔ m ∈ d.molecules) ∧
    (m ∈ d.molecules →
      (removeMolecule d m).1 = true ∧
      (∃ l1 l2, d.molecules = l1 ++ m :: l2 ∧ m ∉ l1 ∧
        (removeMolecule d m).2.molecules = l1 ++ l2) ∧
      (removeMolecule d m).2.molecules.count m + 1 = d.molecules.count m ∧
      (∀ x, x ≠ m → (removeMolecule d m).2.molecules.count x = d.molecules.count x) ∧
      moleculeCount (removeMolecule d m).2 = moleculeCount d - 1 ∧
      (∀ e ∈ (removeMolecule d m).2.moleculeData, e.1 ≠ m) ∧
      (∀ e, e.1 ≠ m → (e ∈ (removeMolecule d m).2.moleculeData ↔ e ∈ d.moleculeData)) ∧
      (removeMolecule d m).2.moleculeData = d.moleculeData.filter (fun e => e.1 != m) ∧
      (removeMolecule d m).2.fileName = d.fileName ∧
      (removeMolecule d m).2.errorString = d.errorString ∧
      (removeMolecule d m).2.format = d.format ∧
      (removeMolecule d m).2.fileData = d.fileData) ∧
    (m ∉ d.molecules → removeMolecule d m = (false, d)) := by
  have hc : contains d m = true ↔ m ∈ d.molecules := by
    unfold contains
    rw [bne_iff_ne, Ne, find_eq_length_iff]
    exact not_not
  have hfalse : m ∉ d.molecules → removeMolecule d m = (false, d) := by
    intro h
    unfold removeMolecule
    simp only []
    rw [if_pos ((find_eq_length_iff m d.molecules).mpr h)]
  have htrue : m ∈ d.molecules → removeMolecule d m =
      (true, { d with
        molecules := d.molecules.eraseIdx (find m d.molecules)
        moleculeData := d.moleculeData.filter (fun e => e.1 != m) }) := by
    intro h
    unfold removeMolecule
    simp only []
    rw [if_neg (fun e => (find_eq_length_iff m d.molecules).mp e h)]
  refine ⟨?_, hc, fun h => ?_, hfalse⟩
  · rw [hc]
    constructor
    · intro h
      by_contra hn
      rw [hfalse hn] at h
      cases h
    · intro h
      rw [htrue h]
  · obtain ⟨l1, l2, h1, h2, h3⟩ := eraseIdx_find m d.molecules h
    rw [htrue h]
    refine ⟨rfl, ⟨l1, l2, h1, h2, h3⟩, ?_, fun x hx => ?_, ?_, fun e he => ?_,
      fun e he => ?_, rfl, rfl, rfl, rfl, rfl⟩
    · show (d.molecules.eraseIdx (find m d.molecules)).count m + 1 = _
      rw [h3, h1]
      simp only [List.count_append, List.count_cons_self]
      omega
    · show (d.molecules.eraseIdx (find m d.molecules)).count x = _
      rw [h3, h1]
      simp only [List.count_append]
      rw [List.count_cons_of_ne hx]
    · show ((d.molecules.eraseIdx (find m d.molecules)).length : Int) =
        (d.molecules.length : Int) - 1
      rw [h3, h1]
      simp only [List.length_append, List.length_cons]
      push_cast
      omega
    · have := (List.mem_filter.mp he).2
      simpa using this
    · show e ∈ d.moleculeData.filter (fun e => e.1 != m) ↔ _
      rw [List.mem_filter]
      simp [he]

/-- Instance of C29: from the molecule list 7, 4, 7, 9 with data for 7 and 9,
`removeMolecule(7)` returns true and leaves 4, 7, 9 and the data of 9;
`removeMolecule(5)` returns false and changes nothing. -/
theorem removeMolecule_spec_witness :
    removeMolecule (MoleculeFilePrivate.mk "f.mol" "" (some "mol") [7, 4, 7, 9] []
        [(7, [("name", 1)]), (9, [("name", 2)])]) 7 =
      (true, MoleculeFilePrivate.mk "f.mol" "" (some "mol") [4, 7, 9] []
        [(9, [("name", 2)])]) ∧
    removeMolecule (MoleculeFilePrivate.mk "f.mol" "" (some "mol") [7, 4, 7, 9] []
        [(7, [("name", 1)]), (9, [("name", 2)])]) 5 =
      (false, MoleculeFilePrivate.mk "f.mol" "" (some "mol") [7, 4, 7, 9] []
        [(7, [("name", 1)]), (9, [("name", 2)])]) ∧
    (removeMolecule (MoleculeFilePrivate.mk "f.mol" "" (some "mol") [7, 4, 7, 9] []
        [(7, [("name", 1)]), (9, [("name", 2)])]) 7).1 = true :=
  ⟨rfl,
   (removeMolecule_spec (MoleculeFilePrivate.mk "f.mol" "" (some "mol") [7, 4, 7, 9] []
        [(7, [("name", 1)]), (9, [("name", 2)])]) 5).2.2.2 (by decide),
   ((removeMolecule_spec (MoleculeFilePrivate.mk "f.mol" "" (some "mol") [7, 4, 7, 9] []
        [(7, [("name", 1)]), (9, [("name", 2)])]) 7).2.2.1 (by decide)).1⟩

/-- C30. `setFormat(name)`: when `MoleculeFileFormat::create(name)` yields no
format, false is returned and the file, its format included, is unchanged;
when it yields a format, true is returned, the format of the file is the
created one and nothing else changes. -/
theorem setFormatName_spec {Format V : Type} (create : String → Option Format)
    (d : MoleculeFilePrivate Format V) (name : String) :
    (create name = none →
      setFormatName create d name = (false, d) ∧
      (setFormatName create d name).2.format = d.format) ∧
    (∀ format, create name = some format →
      setFormatName create d name = (true, { d with format := some format }) ∧
      (setFormatName create d name).1 = true ∧
      (setFormatName create d name).2.format = some format) := by
  constructor
  · intro h
    have e : setFormatName create d name = (false, d) := by
      unfold setFormatName
      simp only [h]
    rw [e]
    exact ⟨rfl, rfl⟩
  · intro format h
    have e : setFormatName create d name = (true, { d with format := some format }) := by
      unfold setFormatName
      simp only [h, setFormat]
    rw [e]
    exact ⟨rfl, rfl, rfl⟩

/-- Instance of C30: with a factory that knows only `mol`, on a file whose
format is `xyz`, `setFormat("pdb")` returns false and keeps `xyz`, and
`setFormat("mol")` returns true and sets `mol`. -/
theorem setFormatName_spec_witness :
    setFormatName (fun name => if name = "mol" then some "mol" else none)
        (MoleculeFilePrivate.mk "f" "" (some "xyz") [1] ([] : List (String × Nat)) []) "pdb" =
      (false, MoleculeFilePrivate.mk "f" "" (some "xyz") [1] [] []) ∧
    (setFormatName (fun name => if name = "mol" then some "mol" else none)
        (MoleculeFilePrivate.mk "f" "" (some "xyz") [1] ([] : List (String × Nat)) [])
        "mol").2.format = some "mol" :=
  ⟨((setFormatName_spec (fun name => if name = "mol" then some "mol" else none)
      (MoleculeFilePrivate.mk "f" "" (some "xyz") [1] ([] : List (String × Nat)) []) "pdb").1
      rfl).1,
   ((setFormatName_spec (fun name => if name = "mol" then some "mol" else none)
      (MoleculeFilePrivate.mk "f" "" (some "xyz") [1] ([] : List (String × Nat)) []) "mol").2
      "mol" rfl).2.2⟩

end MoleculeFile

namespace MmffParameters

/-! ## Order of the out-of-plane key, reachable classifications, key range -/

/-- C31. The reordering of `outOfPlaneBendingParameters(typeA, typeB, typeC,
typeD)`: for every table the lookup reads the key of (a1, typeB, c1, d1),
where a1 is typeD if typeA > typeC and typeA otherwise, and c1, d1 are the
smaller and the larger of typeC and the other of typeA, typeD. The wing types
of the key are ascending, the centre is unchanged and the three outer types
of the key are a permutation of the three outer types given. -/
theorem outOfPlaneBendingParameters_key_order {F : Type} (typeA typeB typeC typeD : Int) :
    ∃ a1 c1 d1 : Int,
      (∀ dat : MmffParametersData F,
        Internal.outOfPlaneBendingParameters dat typeA typeB typeC typeD =
          dat.outOfPlaneBendingParameters.value
            (calculateOutOfPlaneBendingIndex a1 typeB c1 d1)) ∧
      a1 = (if typeA > typeC then typeD else typeA) ∧
      c1 = min typeC (if typeA > typeC then typeA else typeD) ∧
      d1 = max typeC (if typeA > typeC then typeA else typeD) ∧
      c1 ≤ d1 ∧
      [a1, c1, d1].Perm [typeA, typeC, typeD] := by
  by_cases h1 : typeA > typeC
  · by_cases h2 : typeC > typeA
    · omega
    · refine ⟨typeD, typeC, typeA, fun dat => ?_, by rw [if_pos h1], ?_, ?_, by omega, ?_⟩
      · unfold Internal.outOfPlaneBendingParameters
        simp only [h1, h2, if_true, if_false]
      · rw [if_pos h1]
        exact (min_eq_left (by omega)).symm
      · rw [if_pos h1]
        exact (max_eq_right (by omega)).symm
      · exact (List.Perm.swap typeC typeD [typeA]).trans
          (((List.Perm.swap typeA typeD []).cons typeC).trans (List.Perm.swap typeA typeC [typeD]))
  · by_cases h2 : typeC > typeD
    · refine ⟨typeA, typeD, typeC, fun dat => ?_, by rw [if_neg h1], ?_, ?_, by omega, ?_⟩
      · unfold Internal.outOfPlaneBendingParameters
        simp only [h1, h2, if_true, if_false]
      · rw [if_neg h1]
        exact (min_eq_right (by omega)).symm
      · rw [if_neg h1]
        exact (max_eq_left (by omega)).symm
      · exact (List.Perm.swap typeC typeD []).cons typeA
    · refine ⟨typeA, typeC, typeD, fun dat => ?_, by rw [if_neg h1], ?_, ?_, by omega,
        List.Perm.refl _⟩
      · unfold Internal.outOfPlaneBendingParameters
        simp only [h1, h2, if_false]
      · rw [if_neg h1]
        exact (min_eq_left (by omega)).symm
      · rw [if_neg h1]
        exact (max_eq_right (by omega)).symm

/-- An angle type that was computed is in 0..8, and it is 1, 5 or 7 only when
the two bond types add up to 1. -/
theorem calculateAngleType_cases (m : Molecule) (a b c : MmffAtom) (ab bc t : Int)
    (hab : calculateBondType m a b = some ab) (hbc : calculateBondType m b c = some bc)
    (ht : calculateAngleType m a b c = some t) :
    (0 ≤ t ∧ t ≤ 8) ∧ ((t = 1 ∨ t = 5 ∨ t = 7) → ab + bc = 1) := by
  unfold calculateAngleType at ht
  rw [hab, hbc] at ht
  dsimp only at ht
  split_ifs at ht <;> cases ht <;> omega

/-- The branches of `calculateStrechBendType` on an angle type in 0..8 and
bond types that are 0 or 1 and add up to 1 when the angle type is 1, 5 or
7. -/
theorem strechBendType_branches (ab bc t : Int) (h0 : 0 ≤ t) (h8 : t ≤ 8)
    (hab : ab = 0 ∨ ab = 1) (hbc : bc = 0 ∨ bc = 1)
    (hs : (t = 1 ∨ t = 5 ∨ t = 7) → ab + bc = 1) :
    ((if t = 0 then some (0 : Int)
      else if t = 1 then
        if ab = 1 then some 1 else if bc = 1 then some 2 else some 0
      else if t = 2 then some 3
      else if t = 3 then some 5
      else if t = 4 then some 4
      else if t = 5 then
        if ab = 1 then some 6 else if bc = 1 then some 7 else some 0
      else if t = 6 then some 8
      else if t = 7 then
        if ab = 1 then some 9 else if bc = 1 then some 10 else some 0
      else if t = 8 then some 11
      else some 0) =
      some (if t = 0 then 0 else if t = 1 then (if ab = 1 then 1 else 2)
        else if t = 2 then 3 else if t = 3 then 5 else if t = 4 then 4
        else if t = 5 then (if ab = 1 then 6 else 7) else if t = 6 then 8
        else if t = 7 then (if ab = 1 then 9 else 10) else 11)) := by
  interval_cases t <;> rcases hab with rfl | rfl <;> rcases hbc with rfl | rfl <;>
    first
    | rfl
    | exact absurd (hs (by decide)) (by decide)

/-- C34. `calculateStrechBendType(a, b, c)` returns 0 if and only if
`calculateAngleType(a, b, c)` is 0 (and it faults exactly when the angle type
does). Every angle type is in 0..8, and whenever it is 1, 5 or 7 exactly one
of the bonds a-b and b-c has bond type 1, so that the strech-bend type is
then 1 or 2, 6 or 7, 9 or 10 and never the 0 of the inner `else` branches. -/
theorem calculateStrechBendType_zero_iff (m : Molecule) (a b c : MmffAtom) :
    (calculateStrechBendType m a b c = some 0 ↔ calculateAngleType m a b c = some 0) ∧
    (calculateStrechBendType m a b c = none ↔ calculateAngleType m a b c = none) ∧
    (∀ ab bc t, calculateBondType m a b = some ab → calculateBondType m b c = some bc →
      calculateAngleType m a b c = some t →
      (0 ≤ t ∧ t ≤ 8) ∧
      ((t = 1 ∨ t = 5 ∨ t = 7) → (ab = 1 ∧ bc = 0) ∨ (ab = 0 ∧ bc = 1)) ∧
      (t = 1 → calculateStrechBendType m a b c = some (if ab = 1 then 1 else 2)) ∧
      (t = 5 → calculateStrechBendType m a b c = some (if ab = 1 then 6 else 7)) ∧
      (t = 7 → calculateStrechBendType m a b c = some (if ab = 1 then 9 else 10))) := by
  cases hab : calculateBondType m a b with
  | none =>
    have e1 : calculateAngleType m a b c = none := by
      unfold calculateAngleType
      rw [hab]
    have e2 : calculateStrechBendType m a b c = none := by
      unfold calculateStrechBendType
      rw [hab]
    rw [e1, e2]
    exact ⟨Iff.rfl, Iff.rfl, fun ab bc t h => by cases h⟩
  | some ab =>
    cases hbc : calculateBondType m b c with
    | none =>
      have e1 : calculateAngleType m a b c = none := by
        unfold calculateAngleType
        rw [hab, hbc]
      have e2 : calculateStrechBendType m a b c = none := by
        unfold calculateStrechBendType
        rw [hab, hbc]
      rw [e1, e2]
      exact ⟨Iff.rfl, Iff.rfl, fun ab bc t _ h => by cases h⟩
    | some bc =>
      cases ht : calculateAngleType m a b c with
      | none =>
        have e2 : calculateStrechBendType m a b c = none := by
          unfold calculateStrechBendType
          rw [hab, hbc, ht]
        rw [e2]
        exact ⟨Iff.rfl, Iff.rfl, fun ab bc t _ _ h => by cases h⟩
      | some t =>
        obtain ⟨⟨h0, h8⟩, hs⟩ := calculateAngleType_cases m a b c ab bc t hab hbc ht
        have rab := calculateBondType_range m a b ab hab
        have rbc := calculateBondType_range m b c bc hbc
        have e2 : calculateStrechBendType m a b c =
            some (if t = 0 then 0 else if t = 1 then (if ab = 1 then 1 else 2)
              else if t = 2 then 3 else if t = 3 then 5 else if t = 4 then 4
              else if t = 5 then (if ab = 1 then 6 else 7) else if t = 6 then 8
              else if t = 7 then (if ab = 1 then 9 else 10) else 11) := by
          rw [← strechBendType_branches ab bc t h0 h8 rab rbc hs]
          unfold calculateStrechBendType
          rw [hab, hbc, ht]
        rw [e2]
        refine ⟨?_, ?_, fun ab' bc' t' hab' hbc' ht' => ?_⟩
        · rw [Option.some.injEq, Option.some.injEq]
          constructor
          · intro h
            split_ifs at h <;> first | assumption | omega
          · intro h
            rw [if_pos h]
        · constructor <;> intro h <;> cases h
        · cases hab'
          cases hbc'
          cases ht'
          refine ⟨⟨h0, h8⟩, fun e => ?_, fun e => ?_, fun e => ?_, fun e => ?_⟩
          · have := hs e
            omega
          · subst e
            rfl
          · subst e
            rfl
          · subst e
            rfl

/-- Instance of C34 on `Sample.chain`: for the angle 0-1-2 the bond 0-1 has
bond type 0 and the bond 1-2 has bond type 1, the angle type is 1 and the
strech-bend type is 2. -/
theorem calculateStrechBendType_zero_iff_witness :
    calculateAngleType Sample.chain Sample.c0 Sample.c1 Sample.c2 = some 1 ∧
    calculateStrechBendType Sample.chain Sample.c0 Sample.c1 Sample.c2 = some 2 :=
  ⟨by decide,
   ((calculateStrechBendType_zero_iff Sample.chain Sample.c0 Sample.c1 Sample.c2).2.2 0 1 1
      (by decide) (by decide) (by decide)).2.2.1 rfl⟩

/-- C35. `calculateTorsionType` only ever returns 0, 1, 2, 4 or 5 (or faults
on a null bond): for no atoms and no molecular graph does it return 3. -/
theorem calculateTorsionType_never_three (m : Molecule) (a b c d : MmffAtom) :
    (calculateTorsionType m a b c d = none ∨
      calculateTorsionType m a b c d = some 0 ∨ calculateTorsionType m a b c d = some 1 ∨
      calculateTorsionType m a b c d = some 2 ∨ calculateTorsionType m a b c d = some 4 ∨
      calculateTorsionType m a b c d = some 5) ∧
    calculateTorsionType m a b c d ≠ some 3 ∧
    (∀ t, calculateTorsionType m a b c d = some t →
      t = 0 ∨ t = 1 ∨ t = 2 ∨ t = 4 ∨ t = 5) := by
  have key : calculateTorsionType m a b c d = none ∨
      calculateTorsionType m a b c d = some 0 ∨ calculateTorsionType m a b c d = some 1 ∨
      calculateTorsionType m a b c d = some 2 ∨ calculateTorsionType m a b c d = some 4 ∨
      calculateTorsionType m a b c d = some 5 := by
    unfold calculateTorsionType
    cases calculateBondType m a b with
    | none => exact Or.inl rfl
    | some ab =>
      cases calculateBondType m b c with
      | none => exact Or.inl rfl
      | some bc =>
        cases calculateBondType m c d with
        | none => exact Or.inl rfl
        | some cd =>
          dsimp only
          split_ifs <;> simp
  refine ⟨key, fun h => ?_, fun t h => ?_⟩
  · rw [h] at key
    revert key
    decide
  · rw [h] at key
    rcases key with k | k | k | k | k | k
    · cases k
    · exact Or.inl (Option.some.inj k)
    · exact Or.inr (Or.inl (Option.some.inj k))
    · exact Or.inr (Or.inr (Or.inl (Option.some.inj k)))
    · exact Or.inr (Or.inr (Or.inr (Or.inl (Option.some.inj k))))
    · exact Or.inr (Or.inr (Or.inr (Or.inr (Option.some.inj k))))

/-- Instance of C35 on `Sample.chain`: the torsion 0-1-2-3 has torsion
type 1. -/
theorem calculateTorsionType_never_three_witness :
    calculateTorsionType Sample.chain Sample.c0 Sample.c1 Sample.c2 Sample.c3 = some 1 ∧
    ((1 : Int) = 0 ∨ (1 : Int) = 1 ∨ (1 : Int) = 2 ∨ (1 : Int) = 4 ∨ (1 : Int) = 5) :=
  ⟨by decide,
   (calculateTorsionType_never_three Sample.chain Sample.c0 Sample.c1 Sample.c2
      Sample.c3).2.2 1 (by decide)⟩

/-- C36. No 32-bit overflow in the key computation: for atom types in 0..135
and a classification in its range (bond 0..1, angle 0..8, strech-bend 0..11,
torsion 0..5) the exact value of each of the five formulas is at least 0 and
below 2^31, and the key computed in a signed 32-bit `int` is that exact
value. -/
theorem index_no_overflow (bondType angleType strechBendType torsionType : Int)
    (typeA typeB typeC typeD : Int)
    (hbond : InRange 1 bondType) (hangle : InRange 8 angleType)
    (hsb : InRange 11 strechBendType) (htor : InRange 5 torsionType)
    (hA : InRange 135 typeA) (hB : InRange 135 typeB) (hC : InRange 135 typeC)
    (hD : InRange 135 typeD) :
    (0 ≤ 2 * (typeA * 136 + typeB) + bondType ∧
      2 * (typeA * 136 + typeB) + bondType < 2 ^ 31 ∧
      calculateBondStrechIndex bondType typeA typeB =
        2 * (typeA * 136 + typeB) + bondType) ∧
    (0 ≤ 9 * (typeB * (136*136) + typeA * 136 + typeC) + angleType ∧
      9 * (typeB * (136*136) + typeA * 136 + typeC) + angleType < 2 ^ 31 ∧
      calculateAngleBendIndex angleType typeA typeB typeC =
        9 * (typeB * (136*136) + typeA * 136 + typeC) + angleType) ∧
    (0 ≤ 12 * (typeB * (136*136) + typeA * 136 + typeC) + strechBendType ∧
      12 * (typeB * (136*136) + typeA * 136 + typeC) + strechBendType < 2 ^ 31 ∧
      calculateStrechBendIndex strechBendType typeA typeB typeC =
        12 * (typeB * (136*136) + typeA * 136 + typeC) + strechBendType) ∧
    (0 ≤ typeB * (136*136*136) + typeA * (136*136) + typeC * 136 + typeD ∧
      typeB * (136*136*136) + typeA * (136*136) + typeC * 136 + typeD < 2 ^ 31 ∧
      calculateOutOfPlaneBendingIndex typeA typeB typeC typeD =
        typeB * (136*136*136) + typeA * (136*136) + typeC * 136 + typeD) ∧
    (0 ≤ 6 * (typeB * (136*136*136) + typeC * (136*136) + typeA * 136 + typeD) +
        torsionType ∧
      6 * (typeB * (136*136*136) + typeC * (136*136) + typeA * 136 + typeD) + torsionType
        < 2 ^ 31 ∧
      calculateTorsionIndex torsionType typeA typeB typeC typeD =
        6 * (typeB * (136*136*136) + typeC * (136*136) + typeA * 136 + typeD) +
          torsionType) := by
  unfold InRange at *
  have h31 : (2 : Int) ^ 31 = 2147483648 := by norm_num
  rw [h31]
  refine ⟨⟨by omega, by omega, ?_⟩, ⟨by omega, by omega, ?_⟩, ⟨by omega, by omega, ?_⟩,
    ⟨by omega, by omega, ?_⟩, ⟨by omega, by omega, ?_⟩⟩
  · exact toInt32_of_inRange _ (by omega) (by omega)
  · exact toInt32_of_inRange _ (by omega) (by omega)
  · exact toInt32_of_inRange _ (by omega) (by omega)
  · exact toInt32_of_inRange _ (by omega) (by omega)
  · exact toInt32_of_inRange _ (by omega) (by omega)

/-- Instance of C36 at the largest arguments: torsion type 5 and the four
types 135 give the key 2052612095, below 2^31 = 2147483648. -/
theorem index_no_overflow_witness :
    calculateTorsionIndex 5 135 135 135 135 =
      6 * (135 * (136*136*136) + 135 * (136*136) + 135 * 136 + 135) + 5 ∧
    calculateTorsionIndex 5 135 135 135 135 = 2052612095 :=
  ⟨(index_no_overflow 1 8 11 5 135 135 135 135 (by decide) (by decide) (by decide)
      (by decide) (by decide) (by decide) (by decide) (by decide)).2.2.2.2.2.2,
   by decide⟩
/-! ## Coherence of the equivalence table -/

/-- The level-3 entry of every row has a row of its own, whose level-3 entry
is that type and whose level-4 entry is the level-4 entry of the row. -/
theorem EquivalentTypes_level3_coherent :
    ∀ row ∈ EquivalentTypes,
      (EquivalentTypes.find? (fun r => r.getD 0 0 == row.getD 2 0)).map
          (fun r => [r.getD 0 0, r.getD 2 0, r.getD 3 0]) =
        some [row.getD 2 0, row.getD 2 0, row.getD 3 0] := by
  decide

/-- The level-4 entry of every row has a row of its own, whose level-4 entry
is that type. -/
theorem EquivalentTypes_level4_coherent :
    ∀ row ∈ EquivalentTypes,
      (EquivalentTypes.find? (fun r => r.getD 0 0 == row.getD 3 0)).map
          (fun r => [r.getD 0 0, r.getD 3 0]) =
        some [row.getD 3 0, row.getD 3 0] := by
  decide

/-- The level-5 entry of every row is 0 or the primary type of the row. -/
theorem EquivalentTypes_level5_coherent :
    ∀ row ∈ EquivalentTypes, row.getD 4 0 = 0 ∨ row.getD 4 0 = row.getD 0 0 := by
  decide

/-- The equivalent types of an atom whose type is the primary type of a row
are the entries of that row. -/
theorem equivalentType_of_row (atom : MmffAtom) (row : List Int)
    (hrow : row ∈ EquivalentTypes) (hty : row.getD 0 0 = atom.typeNumber) :
    equivalentType atom 3 = row.getD 2 0 ∧ equivalentType atom 4 = row.getD 3 0 ∧
    equivalentType atom 5 = row.getD 4 0 := by
  have hfind := EquivalentTypes_find_row row hrow
  rw [hty] at hfind
  unfold equivalentType
  simp only [hfind]
  exact ⟨rfl, rfl, rfl⟩

/-- C37. The static table `EquivalentTypes` is coherent. For every row, the
level-3 and the level-4 entry are primary types of rows of the table; the
row of the level-3 entry has that type as its level-3 entry and the level-4
entry of the first row as its level-4 entry; the row of the level-4 entry has
that type as its level-4 entry; the level-5 entry is 0 or the primary type.
So for an atom of a type of the table, `equivalentType` at the levels 3 and 4
gives fixed points: the level-3 type has itself at level 3 and the same
level-4 type, and the level-4 type has itself at level 4. -/
theorem EquivalentTypes_coherent (row : List Int) (hrow : row ∈ EquivalentTypes) :
    (∃ row3 ∈ EquivalentTypes, row3.getD 0 0 = row.getD 2 0 ∧
      row3.getD 2 0 = row.getD 2 0 ∧ row3.getD 3 0 = row.getD 3 0) ∧
    (∃ row4 ∈ EquivalentTypes, row4.getD 0 0 = row.getD 3 0 ∧
      row4.getD 3 0 = row.getD 3 0) ∧
    (row.getD 4 0 = 0 ∨ row.getD 4 0 = row.getD 0 0) ∧
    (∀ atom atom3 atom4 : MmffAtom, atom.typeNumber = row.getD 0 0 →
      atom3.typeNumber = equivalentType atom 3 → atom4.typeNumber = equivalentType atom 4 →
      equivalentType atom3 3 = equivalentType atom 3 ∧
      equivalentType atom3 4 = equivalentType atom 4 ∧
      equivalentType atom4 4 = equivalentType atom 4 ∧
      (equivalentType atom 5 = 0 ∨ equivalentType atom 5 = atom.typeNumber)) := by
  have h3 := EquivalentTypes_level3_coherent row hrow
  have h4 := EquivalentTypes_level4_coherent row hrow
  have h5 := EquivalentTypes_level5_coherent row hrow
  rw [Option.map_eq_some'] at h3 h4
  obtain ⟨row3, hf3, e3⟩ := h3
  obtain ⟨row4, hf4, e4⟩ := h4
  have m3 : row3 ∈ EquivalentTypes := List.mem_of_find?_eq_some hf3
  have m4 : row4 ∈ EquivalentTypes := List.mem_of_find?_eq_some hf4
  simp only [List.cons.injEq, and_true] at e3 e4
  obtain ⟨e30, e32, e33⟩ := e3
  obtain ⟨e40, e43⟩ := e4
  refine ⟨⟨row3, m3, e30, e32, e33⟩, ⟨row4, m4, e40, e43⟩, h5, ?_⟩
  intro atom atom3 atom4 ha ha3 ha4
  obtain ⟨a3, a4, a5⟩ := equivalentType_of_row atom row hrow ha.symm
  rw [a3] at ha3
  rw [a4] at ha4
  obtain ⟨b3, b4, _⟩ := equivalentType_of_row atom3 row3 m3 (e30.trans ha3.symm)
  obtain ⟨_, c4, _⟩ := equivalentType_of_row atom4 row4 m4 (e40.trans ha4.symm)
  rw [a3, a4, a5, b3, b4, c4, ha]
  exact ⟨e32, e33, e43, h5⟩

/-- Instance of C37 on the row 33, 33, 21, 5, 0: the level-3 type 21 has the
row 21, 21, 21, 5, 0 and the level-4 type 5 has the row 5, 5, 5, 5, 0. -/
theorem EquivalentTypes_coherent_witness :
    [33, 33, 21, 5, 0] ∈ EquivalentTypes ∧
    (∃ row3 ∈ EquivalentTypes, row3.getD 0 0 = 21 ∧ row3.getD 2 0 = 21 ∧
      row3.getD 3 0 = 5) ∧
    (∃ row4 ∈ EquivalentTypes, row4.getD 0 0 = 5 ∧ row4.getD 3 0 = 5) :=
  ⟨by decide,
   (EquivalentTypes_coherent [33, 33, 21, 5, 0] (by decide)).1,
   (EquivalentTypes_coherent [33, 33, 21, 5, 0] (by decide)).2.1⟩

/-! ## Direction of the torsion resolver -/

/-- The internal torsion lookup gives the same result from either end. -/
theorem Internal.torsionParameters_reverse {F : Type} (dat : MmffParametersData F)
    (t a b c d : Int) :
    Internal.torsionParameters dat t d c b a = Internal.torsionParameters dat t a b c d := by
  unfold Internal.torsionParameters
  rcases lt_trichotomy b c with h | h | h
  · have h1 : ¬ (b > c) := by omega
    have h2 : ¬ (b = c ∧ a > d) := by omega
    have h3 : c > b := h
    simp only [h1, h2, h3, if_true, if_false]
  · subst h
    rcases lt_trichotomy a d with g | g | g
    · have g1 : ¬ (a > d) := by omega
      have g2 : d > a := g
      simp only [gt_iff_lt, lt_self_iff_false, if_false, true_and, g1, g2, if_true]
    · subst g
      simp only [gt_iff_lt, lt_self_iff_false, if_false, and_false]
    · have g1 : a > d := g
      have g2 : ¬ (d > a) := by omega
      simp only [gt_iff_lt, lt_self_iff_false, if_false, true_and, g1, g2, if_true]
  · have h1 : b > c := h
    have h2 : ¬ (c > b) := by omega
    have h3 : ¬ (c = b ∧ d > a) := by omega
    simp only [h1, h2, h3, if_true, if_false]

/-- Counterexample to C33 as stated. In `Sample.chain` the torsion 0-1-2-3
has torsion type 1 from either end. The table `Sample.torsionBothEnds` holds
no exact entry for it, and holds one entry that the level 3/level 5 attempt
finds from atom 0 and another that the level 3/level 5 attempt finds from
atom 3 (the level 5/level 3 attempt from atom 0). From atom 0 the resolver
returns the first, from atom 3 the second. -/
theorem torsionParameters_direction_counterexample :
    calculateTorsionType Sample.chain Sample.c0 Sample.c1 Sample.c2 Sample.c3 = some 1 ∧
    calculateTorsionType Sample.chain Sample.c3 Sample.c2 Sample.c1 Sample.c0 = some 1 ∧
    torsionParameters Sample.chain Sample.torsionBothEnds Sample.c0 Sample.c1 Sample.c2
      Sample.c3 = some (some ⟨"0.000", "1.000", "0.000"⟩) ∧
    torsionParameters Sample.chain Sample.torsionBothEnds Sample.c3 Sample.c2 Sample.c1
      Sample.c0 = some (some ⟨"0.000", "2.000", "0.000"⟩) ∧
    torsionParameters Sample.chain Sample.torsionBothEnds Sample.c0 Sample.c1 Sample.c2
      Sample.c3 ≠
    torsionParameters Sample.chain Sample.torsionBothEnds Sample.c3 Sample.c2 Sample.c1
      Sample.c0 := by
  decide

/-- C33, amended. For atoms whose torsion type is the same in both
directions, `torsionParameters(d, c, b, a)` returns the first hit among the
five lookups of `torsionParameters(a, b, c, d)` taken with the second (level
3/level 5) and the third (level 5/level 3) exchanged. So the two directions
agree whenever the exact lookup hits, and whenever the level 3/level 5 and
the level 5/level 3 lookups do not both hit or give the same result, also
when the result comes from the level 5/level 5 or the type-0 lookup. -/
theorem torsionParameters_reverse_first_hit {F : Type} (m : Molecule)
    (dat : MmffParametersData F) (a b c d : MmffAtom)
    (h : calculateTorsionType m d c b a = calculateTorsionType m a b c d) :
    torsionParameters m dat d c b a =
      (calculateTorsionType m a b c d).map (fun t =>
        firstHit
          [Internal.torsionParameters dat t a.typeNumber b.typeNumber c.typeNumber d.typeNumber,
           Internal.torsionParameters dat t
              (equivalentType a 5) b.typeNumber c.typeNumber (equivalentType d 3),
           Internal.torsionParameters dat t
              (equivalentType a 3) b.typeNumber c.typeNumber (equivalentType d 5),
           Internal.torsionParameters dat t
              (equivalentType a 5) b.typeNumber c.typeNumber (equivalentType d 5),
           Internal.torsionParameters dat 0
              (equivalentType a 5) b.typeNumber c.typeNumber (equivalentType d 5)]) ∧
    (∀ t p, calculateTorsionType m a b c d = some t →
      Internal.torsionParameters dat t a.typeNumber b.typeNumber c.typeNumber d.typeNumber =
        some p →
      torsionParameters m dat a b c d = some (some p) ∧
      torsionParameters m dat d c b a = some (some p)) ∧
    ((∀ t, calculateTorsionType m a b c d = some t →
        Internal.torsionParameters dat t
          (equivalentType a 3) b.typeNumber c.typeNumber (equivalentType d 5) = none ∨
        Internal.torsionParameters dat t
          (equivalentType a 5) b.typeNumber c.typeNumber (equivalentType d 3) = none ∨
        Internal.torsionParameters dat t
            (equivalentType a 3) b.typeNumber c.typeNumber (equivalentType d 5) =
          Internal.torsionParameters dat t
            (equivalentType a 5) b.typeNumber c.typeNumber (equivalentType d 3)) →
      torsionParameters m dat a b c d = torsionParameters m dat d c b a) := by
  have hrev : torsionParameters m dat d c b a =
      (calculateTorsionType m a b c d).map (fun t =>
        firstHit
          [Internal.torsionParameters dat t a.typeNumber b.typeNumber c.typeNumber d.typeNumber,
           Internal.torsionParameters dat t
              (equivalentType a 5) b.typeNumber c.typeNumber (equivalentType d 3),
           Internal.torsionParameters dat t
              (equivalentType a 3) b.typeNumber c.typeNumber (equivalentType d 5),
           Internal.torsionParameters dat t
              (equivalentType a 5) b.typeNumber c.typeNumber (equivalentType d 5),
           Internal.torsionParameters dat 0
              (equivalentType a 5) b.typeNumber c.typeNumber (equivalentType d 5)]) := by
    rw [torsionParameters_eq_firstHit, h]
    congr 1
    funext t
    rw [Internal.torsionParameters_reverse dat t a.typeNumber b.typeNumber c.typeNumber
        d.typeNumber,
      Internal.torsionParameters_reverse dat t (equivalentType a 5) b.typeNumber c.typeNumber
        (equivalentType d 3),
      Internal.torsionParameters_reverse dat t (equivalentType a 3) b.typeNumber c.typeNumber
        (equivalentType d 5),
      Internal.torsionParameters_reverse dat t (equivalentType a 5) b.typeNumber c.typeNumber
        (equivalentType d 5),
      Internal.torsionParameters_reverse dat 0 (equivalentType a 5) b.typeNumber c.typeNumber
        (equivalentType d 5)]
  refine ⟨hrev, fun t p ht hp => ?_, fun hdis => ?_⟩
  · rw [hrev, torsionParameters_eq_firstHit, ht]
    simp only [Option.map_some', hp, firstHit, and_self]
  · rw [hrev, torsionParameters_eq_firstHit]
    cases ht : calculateTorsionType m a b c d with
    | none => rfl
    | some t =>
      simp only [Option.map_some']
      congr 1
      have hd := hdis t ht
      revert hd
      generalize Internal.torsionParameters dat t
        a.typeNumber b.typeNumber c.typeNumber d.typeNumber = p0
      generalize Internal.torsionParameters dat t
        (equivalentType a 3) b.typeNumber c.typeNumber (equivalentType d 5) = p1
      generalize Internal.torsionParameters dat t
        (equivalentType a 5) b.typeNumber c.typeNumber (equivalentType d 3) = p2
      generalize Internal.torsionParameters dat t
        (equivalentType a 5) b.typeNumber c.typeNumber (equivalentType d 5) = p3
      generalize Internal.torsionParameters dat 0
        (equivalentType a 5) b.typeNumber c.typeNumber (equivalentType d 5) = p4
      intro hd
      cases p0 with
      | some x => rfl
      | none =>
        cases p1 with
        | none => cases p2 <;> rfl
        | some x =>
          cases p2 with
          | none => rfl
          | some y =>
            rcases hd with hd | hd | hd
            · cases hd
            · cases hd
            · rw [hd]

/-- Instance of C33, amended, on `Sample.chain` and `Sample.table`, which
holds only the entry generic at both ends: the exact and the one-sided
lookups miss, and both directions return the entry of the level 5/level 5
lookup. -/
theorem torsionParameters_reverse_first_hit_witness :
    calculateTorsionType Sample.chain Sample.c3 Sample.c2 Sample.c1 Sample.c0 =
      calculateTorsionType Sample.chain Sample.c0 Sample.c1 Sample.c2 Sample.c3 ∧
    torsionParameters Sample.chain Sample.table Sample.c0 Sample.c1 Sample.c2 Sample.c3 =
      torsionParameters Sample.chain Sample.table Sample.c3 Sample.c2 Sample.c1 Sample.c0 ∧
    torsionParameters Sample.chain Sample.table Sample.c0 Sample.c1 Sample.c2 Sample.c3 =
      some (some ⟨"0.000", "1.500", "0.000"⟩) :=
  ⟨by decide,
   (torsionParameters_reverse_first_hit Sample.chain Sample.table Sample.c0 Sample.c1
      Sample.c2 Sample.c3 (by decide)).2.2 (fun t ht => Or.inl (by
        have h1 : calculateTorsionType Sample.chain Sample.c0 Sample.c1 Sample.c2
            Sample.c3 = some 1 := by decide
        rw [h1] at ht
        cases ht
        decide)),
   by decide⟩

/-! ## The file name after `read`, and the charge rows -/

/-- C38 fails on the code. In the sample world a first object reads
`mmff.prm`, which is parsed: `read` returns true and `fileName()` is
`mmff.prm`. A second, newly constructed object then reads `mmff.prm`, which is
taken from the cache: `read` returns true and `fileName()` is still the empty
name the object was constructed with. -/
theorem read_cached_keeps_old_fileName :
    ∃ self1 w1 self2 w2,
      read (fun s => s) Sample.openFile "mmff.prm" (construct Sample.world).1
        (construct Sample.world).2 = some (true, self1, w1) ∧
      fileName self1 = "mmff.prm" ∧
      read (fun s => s) Sample.openFile "mmff.prm" (construct w1).1 (construct w1).2 =
        some (true, self2, w2) ∧
      self2.d = self1.d ∧
      fileName self2 = "" ∧ fileName self2 ≠ "mmff.prm" :=
  ⟨_, _, _, _, rfl, rfl, rfl, rfl, rfl, by decide⟩

/-- The charge rows of consecutive data lines are appended in the order of
the lines. -/
theorem readLines_charge_rows {F : Type} (toDouble : String → F) :
    ∀ (lines : List String) (dat : MmffParametersData F),
      (∀ line ∈ lines, startsWith line '$' = false ∧ startsWith line '#' = false ∧
        2 ≤ (split line).length) →
      readLines toDouble lines Section.Charge dat =
        some { dat with
          chargeParameters :=
            dat.chargeParameters ++ lines.map (fun line =>
              { bondType := intField (split line) 0, typeA := intField (split line) 1,
                typeB := intField (split line) 2,
                bci := doubleField toDouble (split line) 3 }) }
  | [], dat, _ => by
    rw [readLines, List.map_nil, List.append_nil]
  | line :: rest, dat, h => by
    obtain ⟨h1, h2, hl⟩ := h line (List.mem_cons_self _ _)
    rw [readLines_row toDouble line rest _ dat h1 h2 hl]
    have hrow : readRow toDouble Section.Charge (split line) dat =
        some { dat with
          chargeParameters :=
            dat.chargeParameters ++
              [{ bondType := intField (split line) 0, typeA := intField (split line) 1,
                 typeB := intField (split line) 2,
                 bci := doubleField toDouble (split line) 3 }] } := rfl
    rw [hrow, Option.some_bind,
      readLines_charge_rows toDouble rest _ (fun l hl' => h l (List.mem_cons_of_mem _ hl'))]
    simp only [List.map_cons, List.append_assoc, List.singleton_append]

/-- The test of the loop of `chargeParameters` on one row. -/
theorem chargeParameters_test_iff {F : Type} (x : MmffChargeParameters F)
    (bondType typeA typeB : Int) :
    (x.bondType == bondType && x.typeA == typeA && x.typeB == typeB) = true ↔
      (x.bondType = bondType ∧ x.typeA = typeA ∧ x.typeB = typeB) := by
  simp only [Bool.and_eq_true, beq_iff_eq, and_assoc]

/-- A linear scan returns the first element that passes the test. -/
theorem find?_first_match {α : Type} (p : α → Bool) (r : α) (l2 : List α) (hr : p r = true) :
    ∀ l1 : List α, (∀ x ∈ l1, ¬ p x = true) → (l1 ++ r :: l2).find? p = some r
  | [], _ => by
    rw [List.nil_append, List.find?_cons_of_pos _ hr]
  | y :: l1, h => by
    rw [List.cons_append, List.find?_cons_of_neg _ (h y (List.mem_cons_self _ _))]
    exact find?_first_match p r l2 hr l1 (fun x hx => h x (List.mem_cons_of_mem _ hx))

/-- C39. `chargeParameters(a, b)`, for atoms with a bond between them of bond
type `bondType`: it returns the first row of the charge list whose bond type,
typeA and typeB are `bondType`, the type of a and the type of b, whatever
rows follow it; it returns nothing when no row matches, in particular when
the only row has the two types in the other order; what it returns is a row
of the list that matches. The charge list holds the rows in file order:
consecutive charge lines are appended at its end in the order of the
lines. -/
theorem chargeParameters_first_match {F : Type} (m : Molecule) (dat : MmffParametersData F)
    (a b : MmffAtom) (bondType : Int) (hbt : calculateBondType m a b = some bondType) :
    (∀ l1 r l2, dat.chargeParameters = l1 ++ r :: l2 →
      (r.bondType = bondType ∧ r.typeA = a.typeNumber ∧ r.typeB = b.typeNumber) →
      (∀ x ∈ l1, ¬ (x.bondType = bondType ∧ x.typeA = a.typeNumber ∧
        x.typeB = b.typeNumber)) →
      chargeParameters m dat a b = some (some r)) ∧
    ((∀ x ∈ dat.chargeParameters, ¬ (x.bondType = bondType ∧ x.typeA = a.typeNumber ∧
        x.typeB = b.typeNumber)) →
      chargeParameters m dat a b = some none) ∧
    (∀ r, chargeParameters m dat a b = some (some r) →
      r ∈ dat.chargeParameters ∧ r.bondType = bondType ∧ r.typeA = a.typeNumber ∧
        r.typeB = b.typeNumber) ∧
    (∀ r, dat.chargeParameters = [r] → r.typeA = b.typeNumber → r.typeB = a.typeNumber →
      a.typeNumber ≠ b.typeNumber → chargeParameters m dat a b = some none) ∧
    (∀ (toDouble : String → F) (lines : List String) (dat0 : MmffParametersData F),
      (∀ line ∈ lines, startsWith line '$' = false ∧ startsWith line '#' = false ∧
        2 ≤ (split line).length) →
      readLines toDouble lines Section.Charge dat0 =
        some { dat0 with
          chargeParameters :=
            dat0.chargeParameters ++ lines.map (fun line =>
              { bondType := intField (split line) 0, typeA := intField (split line) 1,
                typeB := intField (split line) 2,
                bci := doubleField toDouble (split line) 3 }) }) := by
  have hdef : chargeParameters m dat a b =
      some (dat.chargeParameters.find? (fun parameters =>
        parameters.bondType == bondType && parameters.typeA == a.typeNumber &&
          parameters.typeB == b.typeNumber)) := by
    unfold chargeParameters
    rw [hbt]
    rfl
  have hnone : (∀ x ∈ dat.chargeParameters, ¬ (x.bondType = bondType ∧
      x.typeA = a.typeNumber ∧ x.typeB = b.typeNumber)) →
      chargeParameters m dat a b = some none := by
    intro h
    rw [hdef]
    congr 1
    rw [List.find?_eq_none]
    intro x hx hp
    exact h x hx ((chargeParameters_test_iff x _ _ _).mp hp)
  refine ⟨fun l1 r l2 hl hr hfirst => ?_, hnone, fun r hres => ?_,
    fun r hl hA hB hne => ?_,
    fun toDouble lines dat0 h => readLines_charge_rows toDouble lines dat0 h⟩
  · rw [hdef, hl]
    congr 1
    exact find?_first_match _ r l2 ((chargeParameters_test_iff r _ _ _).mpr hr) l1
      (fun x hx hp => hfirst x hx ((chargeParameters_test_iff x _ _ _).mp hp))
  · rw [hdef] at hres
    have hfind := Option.some.inj hres
    have htest : (r.bondType == bondType && r.typeA == a.typeNumber &&
        r.typeB == b.typeNumber) = true :=
      @List.find?_some _ (fun parameters : MmffChargeParameters F =>
        parameters.bondType == bondType && parameters.typeA == a.typeNumber &&
          parameters.typeB == b.typeNumber) r dat.chargeParameters hfind
    exact ⟨List.mem_of_find?_eq_some hfind, (chargeParameters_test_iff r _ _ _).mp htest⟩
  · apply hnone
    intro x hx hm
    rw [hl, List.mem_singleton] at hx
    subst hx
    exact hne (hm.2.1.symm.trans hA)

/-- Instance of C39 on `Sample.chain` and `Sample.chargeTable`, whose rows
are (0, 3, 2), (0, 2, 3) and (0, 2, 3) again: for the atoms 0 and 1, of the
types 2 and 3 and bond type 0, the second row is returned, not the first,
which has the types in the other order, and not the third. -/
theorem chargeParameters_first_match_witness :
    calculateBondType Sample.chain Sample.c0 Sample.c1 = some 0 ∧
    chargeParameters Sample.chain Sample.chargeTable Sample.c0 Sample.c1 =
      some (some ⟨0, 2, 3, "0.1"⟩) :=
  ⟨by decide,
   (chargeParameters_first_match Sample.chain Sample.chargeTable Sample.c0 Sample.c1 0
      (by decide)).1 [⟨0, 3, 2, "-0.5"⟩] ⟨0, 2, 3, "0.1"⟩ [⟨0, 2, 3, "0.9"⟩] rfl
      (by decide) (by decide)⟩

/-! ## Round trip of a row written in the order of the lookup -/

/-- A row changes no keyed mapping but the one of its own section. -/
theorem readRow_frame {F : Type} (toDouble : String → F) (sect : Nat)
    (data : List String) (dat dat' : MmffParametersData F)
    (h : readRow toDouble sect data dat = some dat') :
    (sect ≠ Section.BondStrech → dat'.bondStrechParameters = dat.bondStrechParameters) ∧
    (sect ≠ Section.AngleBend → dat'.angleBendParameters = dat.angleBendParameters) ∧
    (sect ≠ Section.StrechBend → dat'.strechBendParameters = dat.strechBendParameters) ∧
    (sect ≠ Section.OutOfPlaneBending →
      dat'.outOfPlaneBendingParameters = dat.outOfPlaneBendingParameters) ∧
    (sect ≠ Section.Torsion → dat'.torsionParameters = dat.torsionParameters) := by
  rcases Nat.lt_or_ge sect 10 with hlt | hge
  · interval_cases sect
    · cases (Option.some.inj (show some _ = some dat' from h))
      exact ⟨fun e => absurd rfl e, fun _ => rfl, fun _ => rfl, fun _ => rfl, fun _ => rfl⟩
    · cases (Option.some.inj (show some _ = some dat' from h))
      exact ⟨fun _ => rfl, fun _ => rfl, fun _ => rfl, fun _ => rfl, fun _ => rfl⟩
    · cases (Option.some.inj (show some _ = some dat' from h))
      exact ⟨fun _ => rfl, fun e => absurd rfl e, fun _ => rfl, fun _ => rfl, fun _ => rfl⟩
    · cases (Option.some.inj (show some _ = some dat' from h))
      exact ⟨fun _ => rfl, fun _ => rfl, fun e => absurd rfl e, fun _ => rfl, fun _ => rfl⟩
    · cases (Option.some.inj (show some _ = some dat' from h))
      exact ⟨fun _ => rfl, fun _ => rfl, fun _ => rfl, fun _ => rfl, fun _ => rfl⟩
    · cases (Option.some.inj (show some _ = some dat' from h))
      exact ⟨fun _ => rfl, fun _ => rfl, fun _ => rfl, fun e => absurd rfl e, fun _ => rfl⟩
    · cases (Option.some.inj (show some _ = some dat' from h))
      exact ⟨fun _ => rfl, fun _ => rfl, fun _ => rfl, fun _ => rfl, fun e => absurd rfl e⟩
    · have hvdw : readRow toDouble 7 data dat =
          (if toInt (QStringList.value data 0) > MaxAtomType then some dat
           else
            match (QStringList.value data 5).data with
            | [] => none
            | c :: _ =>
              some { dat with
                vanDerWaalsParameters :=
                  dat.vanDerWaalsParameters.insert (toInt (QStringList.value data 0))
                    { alpha := toDouble (QStringList.value data 1),
                      N := toDouble (QStringList.value data 2),
                      A := toDouble (QStringList.value data 3),
                      G := toDouble (QStringList.value data 4), DA := toAscii c } }) := rfl
      rw [hvdw] at h
      by_cases hgt : toInt (QStringList.value data 0) > MaxAtomType
      · rw [if_pos hgt] at h
        cases h
        exact ⟨fun _ => rfl, fun _ => rfl, fun _ => rfl, fun _ => rfl, fun _ => rfl⟩
      · rw [if_neg hgt] at h
        cases hd : (QStringList.value data 5).data with
        | nil => rw [hd] at h; cases h
        | cons c cs =>
          rw [hd] at h
          cases (Option.some.inj h)
          exact ⟨fun _ => rfl, fun _ => rfl, fun _ => rfl, fun _ => rfl, fun _ => rfl⟩
    · cases (Option.some.inj (show some _ = some dat' from h))
      exact ⟨fun _ => rfl, fun _ => rfl, fun _ => rfl, fun _ => rfl, fun _ => rfl⟩
    · have hpc : readRow toDouble 9 data dat =
          (if toInt (QStringList.value data 1) > MaxAtomType then some dat
           else
            some { dat with
              partialChargeParameters :=
                dat.partialChargeParameters.insert (toInt (QStringList.value data 1))
                  { pbci := toDouble (QStringList.value data 2),
                    fcadj := toDouble (QStringList.value data 3) } }) := rfl
      rw [hpc] at h
      by_cases hgt : toInt (QStringList.value data 1) > MaxAtomType
      · rw [if_pos hgt] at h
        cases h
        exact ⟨fun _ => rfl, fun _ => rfl, fun _ => rfl, fun _ => rfl, fun _ => rfl⟩
      · rw [if_neg hgt] at h
        cases (Option.some.inj h)
        exact ⟨fun _ => rfl, fun _ => rfl, fun _ => rfl, fun _ => rfl, fun _ => rfl⟩
  · unfold readRow at h
    dsimp only [Section.BondStrech, Section.EmpiricalBondStrech, Section.AngleBend,
      Section.StrechBend, Section.DefaultStrechBend, Section.OutOfPlaneBending,
      Section.Torsion, Section.VanDerWaals, Section.Charge, Section.PartialCharge] at h
    rw [if_neg (show ¬ sect = 0 by omega), if_neg (show ¬ sect = 1 by omega),
      if_neg (show ¬ sect = 2 by omega), if_neg (show ¬ sect = 3 by omega),
      if_neg (show ¬ sect = 4 by omega), if_neg (show ¬ sect = 5 by omega),
      if_neg (show ¬ sect = 6 by omega), if_neg (show ¬ sect = 7 by omega),
      if_neg (show ¬ sect = 8 by omega), if_neg (show ¬ sect = 9 by omega)] at h
    cases h
    exact ⟨fun _ => rfl, fun _ => rfl, fun _ => rfl, fun _ => rfl, fun _ => rfl⟩

/-- The loop, once past a section, changes the mapping of that section no
more. -/
theorem readLines_frame {F : Type} (toDouble : String → F) :
    ∀ (lines : List String) (sect : Nat) (dat dat' : MmffParametersData F),
      readLines toDouble lines sect dat = some dat' →
      (Section.BondStrech < sect → dat'.bondStrechParameters = dat.bondStrechParameters) ∧
      (Section.AngleBend < sect → dat'.angleBendParameters = dat.angleBendParameters) ∧
      (Section.StrechBend < sect → dat'.strechBendParameters = dat.strechBendParameters) ∧
      (Section.OutOfPlaneBending < sect →
        dat'.outOfPlaneBendingParameters = dat.outOfPlaneBendingParameters) ∧
      (Section.Torsion < sect → dat'.torsionParameters = dat.torsionParameters)
  | [], sect, dat, dat', h => by
    rw [readLines] at h
    cases h
    exact ⟨fun _ => rfl, fun _ => rfl, fun _ => rfl, fun _ => rfl, fun _ => rfl⟩
  | line :: rest, sect, dat, dat', h => by
    by_cases h1 : startsWith line '$' = true
    · by_cases he : sect + 1 = Section.End
      · rw [readLines_marker_end toDouble line _ sect dat h1 he] at h
        cases h
        exact ⟨fun _ => rfl, fun _ => rfl, fun _ => rfl, fun _ => rfl, fun _ => rfl⟩
      · rw [readLines_marker toDouble line _ sect dat h1 he] at h
        obtain ⟨g1, g2, g3, g4, g5⟩ := readLines_frame toDouble rest (sect + 1) dat dat' h
        exact ⟨fun hs => g1 (Nat.lt_succ_of_lt hs), fun hs => g2 (Nat.lt_succ_of_lt hs),
          fun hs => g3 (Nat.lt_succ_of_lt hs), fun hs => g4 (Nat.lt_succ_of_lt hs),
          fun hs => g5 (Nat.lt_succ_of_lt hs)⟩
    · have h1' : startsWith line '$' = false := by simpa using h1
      by_cases h2 : startsWith line '#' = true
      · rw [readLines_comment toDouble line _ sect dat h2] at h
        exact readLines_frame toDouble rest sect dat dat' h
      · have h2' : startsWith line '#' = false := by simpa using h2
        by_cases hl : (split line).length < 2
        · rw [readLines_short toDouble line _ sect dat h1' hl] at h
          exact readLines_frame toDouble rest sect dat dat' h
        · rw [readLines_row toDouble line _ sect dat h1' h2' (by omega)] at h
          cases hr : readRow toDouble sect (split line) dat with
          | none => simp [hr] at h
          | some d1 =>
            simp only [hr, Option.some_bind] at h
            obtain ⟨f1, f2, f3, f4, f5⟩ := readRow_frame toDouble sect _ dat d1 hr
            obtain ⟨g1, g2, g3, g4, g5⟩ := readLines_frame toDouble rest sect d1 dat' h
            exact ⟨fun hs => (g1 hs).trans (f1 (Nat.ne_of_gt hs)),
              fun hs => (g2 hs).trans (f2 (Nat.ne_of_gt hs)),
              fun hs => (g3 hs).trans (f3 (Nat.ne_of_gt hs)),
              fun hs => (g4 hs).trans (f4 (Nat.ne_of_gt hs)),
              fun hs => (g5 hs).trans (f5 (Nat.ne_of_gt hs))⟩

/-- A source made of `k` section markers, one data line, one more marker and
any further lines: the line is dispatched in section `k` on the empty table
and the loop goes on in section `k + 1` with the table it gives. -/
theorem readFile_row_then_rest {F : Type} (toDouble : String → F) (line : String)
    (data : List String) (rest : List String) (k : Nat) (hk : k + 1 < Section.End)
    (h1 : startsWith line '$' = false) (h2 : startsWith line '#' = false)
    (hs : split line = data) (hl : 2 ≤ data.length) :
    readFile toDouble (List.replicate k "$\n" ++ line :: "$\n" :: rest) =
      (readRow toDouble k data (MmffParametersData.empty F)).bind
        (readLines toDouble rest (k + 1)) := by
  unfold readFile
  rw [readLines_markers toDouble _ _ k Section.BondStrech
    (by simp only [Section.BondStrech]; omega)]
  simp only [Section.BondStrech, Nat.zero_add]
  rw [readLines_row toDouble line _ k _ h1 h2 (by rw [hs]; exact hl), hs]
  cases readRow toDouble k data (MmffParametersData.empty F) with
  | none => rfl
  | some d1 =>
    simp only [Option.some_bind]
    exact readLines_marker toDouble "$\n" rest k d1 (by decide) (by omega)

/-- C32. Round trip for rows written in the order of the lookup. For a source
in which a row is the only row of its section (the section markers before it,
the row, and then either nothing or the next marker and any further lines),
the load returns when the source ends with the row, and whenever it returns
the internal lookup with the row's classification and types returns exactly
the values parsed from the row: for a bond-strech row with a ≤ b, an
angle-bend row with a ≤ c, a strech-bend row in any order, an out-of-plane
row with a ≤ c ≤ d, and a torsion row with b < c, or b = c and a ≤ d. -/
theorem canonical_row_roundtrip {F : Type} (toDouble : String → F)
    (line : String) (data : List String) (rest : List String)
    (h1 : startsWith line '$' = false) (h2 : startsWith line '#' = false)
    (hs : split line = data) (hl : 2 ≤ data.length) :
    (intField data 1 ≤ intField data 2 →
      (∃ dat, readFile toDouble (List.replicate Section.BondStrech "$\n" ++ [line]) =
          some dat ∧
        Internal.bondStrechParameters dat (intField data 0) (intField data 1)
            (intField data 2) =
          some ⟨doubleField toDouble data 3, doubleField toDouble data 4⟩) ∧
      (∀ dat, readFile toDouble
          (List.replicate Section.BondStrech "$\n" ++ line :: "$\n" :: rest) = some dat →
        Internal.bondStrechParameters dat (intField data 0) (intField data 1)
            (intField data 2) =
          some ⟨doubleField toDouble data 3, doubleField toDouble data 4⟩)) ∧
    (intField data 1 ≤ intField data 3 →
      (∃ dat, readFile toDouble (List.replicate Section.AngleBend "$\n" ++ [line]) =
          some dat ∧
        Internal.angleBendParameters dat (intField data 0) (intField data 1)
            (intField data 2) (intField data 3) =
          some ⟨doubleField toDouble data 4, doubleField toDouble data 5⟩) ∧
      (∀ dat, readFile toDouble
          (List.replicate Section.AngleBend "$\n" ++ line :: "$\n" :: rest) = some dat →
        Internal.angleBendParameters dat (intField data 0) (intField data 1)
            (intField data 2) (intField data 3) =
          some ⟨doubleField toDouble data 4, doubleField toDouble data 5⟩)) ∧
    ((∃ dat, readFile toDouble (List.replicate Section.StrechBend "$\n" ++ [line]) =
          some dat ∧
        Internal.strechBendParameters dat (intField data 0) (intField data 1)
            (intField data 2) (intField data 3) =
          some ⟨doubleField toDouble data 4, doubleField toDouble data 5⟩) ∧
      (∀ dat, readFile toDouble
          (List.replicate Section.StrechBend "$\n" ++ line :: "$\n" :: rest) = some dat →
        Internal.strechBendParameters dat (intField data 0) (intField data 1)
            (intField data 2) (intField data 3) =
          some ⟨doubleField toDouble data 4, doubleField toDouble data 5⟩)) ∧
    (intField data 0 ≤ intField data 2 → intField data 2 ≤ intField data 3 →
      (∃ dat, readFile toDouble (List.replicate Section.OutOfPlaneBending "$\n" ++ [line]) =
          some dat ∧
        Internal.outOfPlaneBendingParameters dat (intField data 0) (intField data 1)
            (intField data 2) (intField data 3) =
          some ⟨doubleField toDouble data 4⟩) ∧
      (∀ dat, readFile toDouble
          (List.replicate Section.OutOfPlaneBending "$\n" ++ line :: "$\n" :: rest) =
            some dat →
        Internal.outOfPlaneBendingParameters dat (intField data 0) (intField data 1)
            (intField data 2) (intField data 3) =
          some ⟨doubleField toDouble data 4⟩)) ∧
    (intField data 2 < intField data 3 ∨
        (intField data 2 = intField data 3 ∧ intField data 1 ≤ intField data 4) →
      (∃ dat, readFile toDouble (List.replicate Section.Torsion "$\n" ++ [line]) =
          some dat ∧
        Internal.torsionParameters dat (intField data 0) (intField data 1)
            (intField data 2) (intField data 3) (intField data 4) =
          some ⟨doubleField toDouble data 5, doubleField toDouble data 6,
            doubleField toDouble data 7⟩) ∧
      (∀ dat, readFile toDouble
          (List.replicate Section.Torsion "$\n" ++ line :: "$\n" :: rest) = some dat →
        Internal.torsionParameters dat (intField data 0) (intField data 1)
            (intField data 2) (intField data 3) (intField data 4) =
          some ⟨doubleField toDouble data 5, doubleField toDouble data 6,
            doubleField toDouble data 7⟩)) := by
  refine ⟨fun h => ⟨?_, fun dat hfile => ?_⟩, fun h => ⟨?_, fun dat hfile => ?_⟩,
    ⟨?_, fun dat hfile => ?_⟩, fun h h' => ⟨?_, fun dat hfile => ?_⟩,
    fun h => ⟨?_, fun dat hfile => ?_⟩⟩
  · rw [readFile_single_row toDouble line data _ (by decide) h1 h2 hs hl]
    refine ⟨_, rfl, ?_⟩
    unfold Internal.bondStrechParameters
    simp only [gt_iff_lt, not_lt.mpr h, if_false]
    exact QHash.value_insert_self _ _ _
  · rw [readFile_row_then_rest toDouble line data rest _ (by decide) h1 h2 hs hl] at hfile
    obtain ⟨d1, hrow, hent⟩ : ∃ d1,
        readRow toDouble Section.BondStrech data (MmffParametersData.empty F) = some d1 ∧
        d1.bondStrechParameters = (MmffParametersData.empty F).bondStrechParameters.insert
          (calculateBondStrechIndex (intField data 0) (intField data 1) (intField data 2))
          ⟨doubleField toDouble data 3, doubleField toDouble data 4⟩ := ⟨_, rfl, rfl⟩
    rw [hrow, Option.some_bind] at hfile
    have hkeep := (readLines_frame toDouble rest _ d1 dat hfile).1 (by decide)
    unfold Internal.bondStrechParameters
    simp only [gt_iff_lt, not_lt.mpr h, if_false]
    rw [hkeep, hent]
    exact QHash.value_insert_self _ _ _
  · rw [readFile_single_row toDouble line data _ (by decide) h1 h2 hs hl]
    refine ⟨_, rfl, ?_⟩
    unfold Internal.angleBendParameters
    simp only [gt_iff_lt, not_lt.mpr h, if_false]
    exact QHash.value_insert_self _ _ _
  · rw [readFile_row_then_rest toDouble line data rest _ (by decide) h1 h2 hs hl] at hfile
    obtain ⟨d1, hrow, hent⟩ : ∃ d1,
        readRow toDouble Section.AngleBend data (MmffParametersData.empty F) = some d1 ∧
        d1.angleBendParameters = (MmffParametersData.empty F).angleBendParameters.insert
          (calculateAngleBendIndex (intField data 0) (intField data 1) (intField data 2)
            (intField data 3))
          ⟨doubleField toDouble data 4, doubleField toDouble data 5⟩ := ⟨_, rfl, rfl⟩
    rw [hrow, Option.some_bind] at hfile
    have hkeep := (readLines_frame toDouble rest _ d1 dat hfile).2.1 (by decide)
    unfold Internal.angleBendParameters
    simp only [gt_iff_lt, not_lt.mpr h, if_false]
    rw [hkeep, hent]
    exact QHash.value_insert_self _ _ _
  · rw [readFile_single_row toDouble line data _ (by decide) h1 h2 hs hl]
    refine ⟨_, rfl, ?_⟩
    unfold Internal.strechBendParameters
    exact QHash.value_insert_self _ _ _
  · rw [readFile_row_then_rest toDouble line data rest _ (by decide) h1 h2 hs hl] at hfile
    obtain ⟨d1, hrow, hent⟩ : ∃ d1,
        readRow toDouble Section.StrechBend data (MmffParametersData.empty F) = some d1 ∧
        d1.strechBendParameters = (MmffParametersData.empty F).strechBendParameters.insert
          (calculateStrechBendIndex (intField data 0) (intField data 1) (intField data 2)
            (intField data 3))
          ⟨doubleField toDouble data 4, doubleField toDouble data 5⟩ := ⟨_, rfl, rfl⟩
    rw [hrow, Option.some_bind] at hfile
    have hkeep := (readLines_frame toDouble rest _ d1 dat hfile).2.2.1 (by decide)
    unfold Internal.strechBendParameters
    simp only []
    rw [hkeep, hent]
    exact QHash.value_insert_self _ _ _
  · rw [readFile_single_row toDouble line data _ (by decide) h1 h2 hs hl]
    refine ⟨_, rfl, ?_⟩
    unfold Internal.outOfPlaneBendingParameters
    simp only [gt_iff_lt, not_lt.mpr h, not_lt.mpr h', if_false]
    exact QHash.value_insert_self _ _ _
  · rw [readFile_row_then_rest toDouble line data rest _ (by decide) h1 h2 hs hl] at hfile
    obtain ⟨d1, hrow, hent⟩ : ∃ d1,
        readRow toDouble Section.OutOfPlaneBending data (MmffParametersData.empty F) =
          some d1 ∧
        d1.outOfPlaneBendingParameters =
          (MmffParametersData.empty F).outOfPlaneBendingParameters.insert
            (calculateOutOfPlaneBendingIndex (intField data 0) (intField data 1)
              (intField data 2) (intField data 3))
            ⟨doubleField toDouble data 4⟩ := ⟨_, rfl, rfl⟩
    rw [hrow, Option.some_bind] at hfile
    have hkeep := (readLines_frame toDouble rest _ d1 dat hfile).2.2.2.1 (by decide)
    unfold Internal.outOfPlaneBendingParameters
    simp only [gt_iff_lt, not_lt.mpr h, not_lt.mpr h', if_false]
    rw [hkeep, hent]
    exact QHash.value_insert_self _ _ _
  · rw [readFile_single_row toDouble line data _ (by decide) h1 h2 hs hl]
    refine ⟨_, rfl, ?_⟩
    unfold Internal.torsionParameters
    have hb : ¬ (intField data 2 > intField data 3) := by
      rcases h with h | h <;> omega
    have hc : ¬ (intField data 2 = intField data 3 ∧ intField data 1 > intField data 4) := by
      rcases h with h | h <;> omega
    simp only [hb, hc, if_false]
    exact QHash.value_insert_self _ _ _
  · rw [readFile_row_then_rest toDouble line data rest _ (by decide) h1 h2 hs hl] at hfile
    obtain ⟨d1, hrow, hent⟩ : ∃ d1,
        readRow toDouble Section.Torsion data (MmffParametersData.empty F) = some d1 ∧
        d1.torsionParameters = (MmffParametersData.empty F).torsionParameters.insert
          (calculateTorsionIndex (intField data 0) (intField data 1) (intField data 2)
            (intField data 3) (intField data 4))
          ⟨doubleField toDouble data 5, doubleField toDouble data 6,
            doubleField toDouble data 7⟩ := ⟨_, rfl, rfl⟩
    rw [hrow, Option.some_bind] at hfile
    have hkeep := (readLines_frame toDouble rest _ d1 dat hfile).2.2.2.2 (by decide)
    unfold Internal.torsionParameters
    have hb : ¬ (intField data 2 > intField data 3) := by
      rcases h with h | h <;> omega
    have hc : ¬ (intField data 2 = intField data 3 ∧ intField data 1 > intField data 4) := by
      rcases h with h | h <;> omega
    simp only [hb, hc, if_false]
    rw [hkeep, hent]
    exact QHash.value_insert_self _ _ _

/-- Instance of C32: the strech-bend row `1 3 2 1 0.5 0.7`, whose outer types
are written descending, followed by a marker and a default strech-bend row,
is found again by the lookup (1; 3, 2, 1); and the bond-strech row
`0 1 5 4.258 1.508`, followed by a marker and a line of the next section, is
found again by the lookup (0; 1, 5). The values are kept as the text of the
fields. -/
theorem canonical_row_roundtrip_witness :
    (∃ dat,
      readFile (fun s => s)
        (List.replicate Section.StrechBend "$\n" ++
          "1 3 2 1 0.5 0.7" :: "$\n" :: ["1 1 1 0.15 0.15"]) = some dat ∧
      Internal.strechBendParameters dat 1 3 2 1 = some ⟨"0.5", "0.7"⟩) ∧
    (∃ dat,
      readFile (fun s => s)
        (List.replicate Section.BondStrech "$\n" ++
          "0 1 5 4.258 1.508" :: "$\n" :: ["0 1 6 5.000 1.400"]) = some dat ∧
      Internal.bondStrechParameters dat 0 1 5 = some ⟨"4.258", "1.508"⟩) :=
  ⟨⟨_, rfl,
    (canonical_row_roundtrip (fun s : String => s) "1 3 2 1 0.5 0.7"
      ["1", "3", "2", "1", "0.5", "0.7"] ["1 1 1 0.15 0.15"] (by decide) (by decide)
      (by decide) (by decide)).2.2.1.2 _ rfl⟩,
   ⟨_, rfl,
    ((canonical_row_roundtrip (fun s : String => s) "0 1 5 4.258 1.508"
      ["0", "1", "5", "4.258", "1.508"] ["0 1 6 5.000 1.400"] (by decide) (by decide)
      (by decide) (by decide)).1 (by decide)).2 _ rfl⟩⟩

/-! ## Rows of a section during the load -/

/-- Writing a key does not change the number of entries of another key. -/
theorem QHash.count_insert_of_ne {V : Type} (h : QHash V) (key key' : Int) (v : V)
    (hne : key ≠ key') : (h.insert key v).count key' = h.count key' := by
  simp only [QHash.insert, QHash.count]
  rw [List.filter_cons_of_neg (by simpa using hne)]
  congr 1
  induction h.entries with
  | nil => rfl
  | cons e es ih =>
    by_cases he : e.1 = key
    · have hk : ¬ (e.1 = key') := fun h' => hne (he.symm.trans h')
      rw [List.filter_cons_of_neg (by simpa using he),
        List.filter_cons_of_neg (by simpa using hk)]
      exact ih
    · rw [List.filter_cons_of_pos (by simpa using he)]
      by_cases hk : e.1 = key'
      · rw [List.filter_cons_of_pos (by simpa using hk),
          List.filter_cons_of_pos (by simpa using hk), ih]
      · rw [List.filter_cons_of_neg (by simpa using hk),
          List.filter_cons_of_neg (by simpa using hk)]
        exact ih

/-- Lines none of which is a section marker count no marker. -/
theorem markerCount_eq_zero (lines : List String)
    (hno : ∀ line ∈ lines, startsWith line '$' = false) : markerCount lines = 0 := by
  unfold markerCount
  rw [List.length_eq_zero, List.filter_eq_nil_iff]
  intro line hl
  rw [hno line hl]
  exact Bool.false_ne_true

/-- The rows of a data line followed by further lines. -/
theorem rowsOf_cons_row (line : String) (lines : List String)
    (h1 : startsWith line '$' = false) (h2 : startsWith line '#' = false)
    (hl : 2 ≤ (split line).length) : rowsOf (line :: lines) = split line :: rowsOf lines := by
  unfold rowsOf
  rw [List.filter_cons_of_pos (by simp [h1, h2, hl])]
  rfl

/-- The rows of lines after a line that is handed to no dispatch. -/
theorem rowsOf_cons_skip (line : String) (lines : List String)
    (h : startsWith line '$' = true ∨ startsWith line '#' = true ∨ (split line).length < 2) :
    rowsOf (line :: lines) = rowsOf lines := by
  unfold rowsOf
  rw [List.filter_cons_of_neg]
  rcases h with h | h | h
  · simp [h]
  · simp [h]
  · simp only [Bool.and_eq_true, decide_eq_true_eq, not_and, not_le]
    intro _
    exact h

/-- A property of the table that every row of the lines of one section keeps
is kept by the loop over these lines. -/
theorem readLines_section_invariant {F : Type} (toDouble : String → F) (sect : Nat)
    (Q : MmffParametersData F → Prop) :
    ∀ (lines : List String), (∀ line ∈ lines, startsWith line '$' = false) →
      (∀ data ∈ rowsOf lines, ∀ d d', Q d → readRow toDouble sect data d = some d' → Q d') →
      ∀ d d', Q d → readLines toDouble lines sect d = some d' → Q d'
  | [], _, _, d, d', hq, h => by
    rw [readLines] at h
    cases h
    exact hq
  | line :: rest, hno, hrows, d, d', hq, h => by
    have h1 : startsWith line '$' = false := hno line (List.mem_cons_self _ _)
    have hno' : ∀ l ∈ rest, startsWith l '$' = false :=
      fun l hl => hno l (List.mem_cons_of_mem _ hl)
    by_cases h2 : startsWith line '#' = true
    · rw [readLines_comment toDouble line _ sect d h2] at h
      rw [rowsOf_cons_skip line rest (Or.inr (Or.inl h2))] at hrows
      exact readLines_section_invariant toDouble sect Q rest hno' hrows d d' hq h
    · have h2' : startsWith line '#' = false := by simpa using h2
      by_cases hl : (split line).length < 2
      · rw [readLines_short toDouble line _ sect d h1 hl] at h
        rw [rowsOf_cons_skip line rest (Or.inr (Or.inr hl))] at hrows
        exact readLines_section_invariant toDouble sect Q rest hno' hrows d d' hq h
      · rw [readLines_row toDouble line _ sect d h1 h2' (by omega)] at h
        rw [rowsOf_cons_row line rest h1 h2' (by omega)] at hrows
        cases hr : readRow toDouble sect (split line) d with
        | none => simp [hr] at h
        | some d1 =>
          simp only [hr, Option.some_bind] at h
          exact readLines_section_invariant toDouble sect Q rest hno'
            (fun data hd => hrows data (List.mem_cons_of_mem _ hd)) d1 d'
            (hrows (split line) (List.mem_cons_self _ _) d d1 hq hr) h

/-- A property of the table that every row of the sections after `sect0` keeps
is kept by the loop once it is past `sect0`. -/
theorem readLines_later_invariant {F : Type} (toDouble : String → F) (sect0 : Nat)
    (Q : MmffParametersData F → Prop)
    (hother : ∀ sect data d d', sect0 < sect → Q d →
      readRow toDouble sect data d = some d' → Q d') :
    ∀ (lines : List String) (sect : Nat) (d d' : MmffParametersData F), sect0 < sect →
      Q d → readLines toDouble lines sect d = some d' → Q d'
  | [], _, d, d', _, hq, h => by
    rw [readLines] at h
    cases h
    exact hq
  | line :: rest, sect, d, d', hs, hq, h => by
    by_cases h1 : startsWith line '$' = true
    · by_cases he : sect + 1 = Section.End
      · rw [readLines_marker_end toDouble line _ sect d h1 he] at h
        cases h
        exact hq
      · rw [readLines_marker toDouble line _ sect d h1 he] at h
        exact readLines_later_invariant toDouble sect0 Q hother rest (sect + 1) d d'
          (Nat.lt_succ_of_lt hs) hq h
    · have h1' : startsWith line '$' = false := by simpa using h1
      by_cases h2 : startsWith line '#' = true
      · rw [readLines_comment toDouble line _ sect d h2] at h
        exact readLines_later_invariant toDouble sect0 Q hother rest sect d d' hs hq h
      · have h2' : startsWith line '#' = false := by simpa using h2
        by_cases hl : (split line).length < 2
        · rw [readLines_short toDouble line _ sect d h1' hl] at h
          exact readLines_later_invariant toDouble sect0 Q hother rest sect d d' hs hq h
        · rw [readLines_row toDouble line _ sect d h1' h2' (by omega)] at h
          cases hr : readRow toDouble sect (split line) d with
          | none => simp [hr] at h
          | some d1 =>
            simp only [hr, Option.some_bind] at h
            exact readLines_later_invariant toDouble sect0 Q hother rest sect d1 d' hs
              (hother sect _ d d1 hs hq hr) h

/-- The load of a source in which a data line of section `sect` is followed
by lines of the same section and then by nothing or by a section marker and
any further lines: a property that the row of the line establishes, the rows
of the following lines keep and the rows of the later sections keep holds of
the table whenever the load returns. -/
theorem readFile_row_invariant {F : Type} (toDouble : String → F) (sect : Nat)
    (Q : MmffParametersData F → Prop) (pre : List String) (line : String)
    (lines tail : List String)
    (hsect : markerCount pre = sect) (hend : sect < Section.End)
    (h1 : startsWith line '$' = false) (h2 : startsWith line '#' = false)
    (hl : 2 ≤ (split line).length)
    (hno : ∀ l ∈ lines, startsWith l '$' = false)
    (htail : ∀ l ∈ tail.head?, startsWith l '$' = true)
    (hwrite : ∀ d d', readRow toDouble sect (split line) d = some d' → Q d')
    (hrows : ∀ data ∈ rowsOf lines, ∀ d d', Q d →
      readRow toDouble sect data d = some d' → Q d')
    (hother : ∀ sect' data d d', sect < sect' → Q d →
      readRow toDouble sect' data d = some d' → Q d')
    (dat : MmffParametersData F)
    (hfile : readFile toDouble (pre ++ (line :: lines ++ tail)) = some dat) : Q dat := by
  unfold readFile at hfile
  obtain ⟨dat0, hpre, _, _⟩ := readLines_append_growsTo toDouble (line :: lines ++ tail) pre
    Section.BondStrech (MmffParametersData.empty F) dat hfile
  have hs0 : Section.BondStrech + markerCount pre = sect := by
    rw [hsect]
    exact Nat.zero_add _
  rw [readLines_append toDouble _ pre _ _ dat0 (by rw [hs0]; exact hend) hpre, hs0,
    List.cons_append, readLines_row toDouble line _ sect dat0 h1 h2 hl] at hfile
  cases hr : readRow toDouble sect (split line) dat0 with
  | none => simp [hr] at hfile
  | some d1 =>
    simp only [hr, Option.some_bind] at hfile
    have q1 : Q d1 := hwrite dat0 d1 hr
    obtain ⟨d2, hd2, _, _⟩ := readLines_append_growsTo toDouble tail lines sect d1 dat hfile
    have q2 : Q d2 := readLines_section_invariant toDouble sect Q lines hno hrows d1 d2 q1 hd2
    have hm : sect + markerCount lines = sect := by
      rw [markerCount_eq_zero lines hno]
      rfl
    rw [readLines_append toDouble tail lines sect d1 d2 (by rw [hm]; exact hend) hd2, hm]
      at hfile
    cases tail with
    | nil =>
      rw [readLines] at hfile
      cases hfile
      exact q2
    | cons mk rest =>
      have hmk : startsWith mk '$' = true := htail mk rfl
      by_cases he : sect + 1 = Section.End
      · rw [readLines_marker_end toDouble mk rest sect d2 hmk he] at hfile
        cases hfile
        exact q2
      · rw [readLines_marker toDouble mk rest sect d2 hmk he] at hfile
        exact readLines_later_invariant toDouble sect Q hother rest (sect + 1) d2 dat
          (Nat.lt_succ_self _) q2 hfile

/-- The entry of a key that was just written. -/
theorem QHash.entry_of_insert {V : Type} (h h' : QHash V) (key : Int) (v : V)
    (e : h' = h.insert key v) : h'.value key = some v ∧ h'.count key = 1 := by
  rw [e]
  exact ⟨QHash.value_insert_self _ _ _, QHash.count_insert_self _ _ _⟩

/-- The entry of a key is kept when another key is written. -/
theorem QHash.entry_kept {V : Type} (h h' : QHash V) (key key' : Int) (v r : V)
    (e : h' = h.insert key v) (hne : key ≠ key')
    (hq : h.value key' = some r ∧ h.count key' = 1) :
    h'.value key' = some r ∧ h'.count key' = 1 := by
  rw [e, QHash.value_insert_of_ne _ _ _ _ hne, QHash.count_insert_of_ne _ _ _ _ hne]
  exact hq

/-- What a bond-strech row writes. -/
theorem readRow_bondStrech {F : Type} (toDouble : String → F) (data : List String)
    (d d' : MmffParametersData F)
    (h : readRow toDouble Section.BondStrech data d = some d') :
    d'.bondStrechParameters = d.bondStrechParameters.insert
      (calculateBondStrechIndex (intField data 0) (intField data 1) (intField data 2))
      ⟨doubleField toDouble data 3, doubleField toDouble data 4⟩ := by
  cases (Option.some.inj (show some _ = some d' from h))
  rfl

/-- What an angle-bend row writes. -/
theorem readRow_angleBend {F : Type} (toDouble : String → F) (data : List String)
    (d d' : MmffParametersData F)
    (h : readRow toDouble Section.AngleBend data d = some d') :
    d'.angleBendParameters = d.angleBendParameters.insert
      (calculateAngleBendIndex (intField data 0) (intField data 1) (intField data 2)
        (intField data 3))
      ⟨doubleField toDouble data 4, doubleField toDouble data 5⟩ := by
  cases (Option.some.inj (show some _ = some d' from h))
  rfl

/-- What a strech-bend row writes. -/
theorem readRow_strechBend {F : Type} (toDouble : String → F) (data : List String)
    (d d' : MmffParametersData F)
    (h : readRow toDouble Section.StrechBend data d = some d') :
    d'.strechBendParameters = d.strechBendParameters.insert
      (calculateStrechBendIndex (intField data 0) (intField data 1) (intField data 2)
        (intField data 3))
      ⟨doubleField toDouble data 4, doubleField toDouble data 5⟩ := by
  cases (Option.some.inj (show some _ = some d' from h))
  rfl

/-- What an out-of-plane row writes. -/
theorem readRow_outOfPlaneBending {F : Type} (toDouble : String → F) (data : List String)
    (d d' : MmffParametersData F)
    (h : readRow toDouble Section.OutOfPlaneBending data d = some d') :
    d'.outOfPlaneBendingParameters = d.outOfPlaneBendingParameters.insert
      (calculateOutOfPlaneBendingIndex (intField data 0) (intField data 1) (intField data 2)
        (intField data 3))
      ⟨doubleField toDouble data 4⟩ := by
  cases (Option.some.inj (show some _ = some d' from h))
  rfl

/-- What a torsion row writes. -/
theorem readRow_torsion {F : Type} (toDouble : String → F) (data : List String)
    (d d' : MmffParametersData F)
    (h : readRow toDouble Section.Torsion data d = some d') :
    d'.torsionParameters = d.torsionParameters.insert
      (calculateTorsionIndex (intField data 0) (intField data 1) (intField data 2)
        (intField data 3) (intField data 4))
      ⟨doubleField toDouble data 5, doubleField toDouble data 6,
        doubleField toDouble data 7⟩ := by
  cases (Option.some.inj (show some _ = some d' from h))
  rfl

/-- What a van der Waals row does: with a type above `MaxAtomType` nothing;
otherwise, when the dispatch returns, field 5 has a character 0 and the
record is written under the type. -/
theorem readRow_vanDerWaals {F : Type} (toDouble : String → F) (data : List String)
    (d d' : MmffParametersData F)
    (h : readRow toDouble Section.VanDerWaals data d = some d') :
    (intField data 0 > MaxAtomType → d' = d) ∧
    (intField data 0 ≤ MaxAtomType →
      ∃ c cs, (QStringList.value data 5).data = c :: cs ∧
        d' = { d with
          vanDerWaalsParameters :=
            d.vanDerWaalsParameters.insert (intField data 0)
              ⟨doubleField toDouble data 1, doubleField toDouble data 2,
                doubleField toDouble data 3, doubleField toDouble data 4, toAscii c⟩ }) := by
  have hvdw : readRow toDouble Section.VanDerWaals data d =
      (if toInt (QStringList.value data 0) > MaxAtomType then some d
       else
        match (QStringList.value data 5).data with
        | [] => none
        | c :: _ =>
          some { d with
            vanDerWaalsParameters :=
              d.vanDerWaalsParameters.insert (toInt (QStringList.value data 0))
                { alpha := toDouble (QStringList.value data 1),
                  N := toDouble (QStringList.value data 2),
                  A := toDouble (QStringList.value data 3),
                  G := toDouble (QStringList.value data 4), DA := toAscii c } }) := rfl
  rw [hvdw] at h
  unfold intField
  by_cases hgt : toInt (QStringList.value data 0) > MaxAtomType
  · rw [if_pos hgt] at h
    cases h
    exact ⟨fun _ => rfl, fun hle => absurd hgt (by omega)⟩
  · rw [if_neg hgt] at h
    refine ⟨fun hg => absurd hg hgt, fun _ => ?_⟩
    cases hd : (QStringList.value data 5).data with
    | nil => rw [hd] at h; cases h
    | cons c cs =>
      rw [hd] at h
      cases (Option.some.inj h)
      exact ⟨c, cs, rfl, rfl⟩

/-- What a partial-charge row does: with a type above `MaxAtomType` nothing,
otherwise the record is written under the type. -/
theorem readRow_partialCharge {F : Type} (toDouble : String → F) (data : List String)
    (d d' : MmffParametersData F)
    (h : readRow toDouble Section.PartialCharge data d = some d') :
    (intField data 1 > MaxAtomType → d' = d) ∧
    (intField data 1 ≤ MaxAtomType →
      d' = { d with
        partialChargeParameters :=
          d.partialChargeParameters.insert (intField data 1)
            ⟨doubleField toDouble data 2, doubleField toDouble data 3⟩ }) := by
  have hpc : readRow toDouble Section.PartialCharge data d =
      (if toInt (QStringList.value data 1) > MaxAtomType then some d
       else
        some { d with
          partialChargeParameters :=
            d.partialChargeParameters.insert (toInt (QStringList.value data 1))
              { pbci := toDouble (QStringList.value data 2),
                fcadj := toDouble (QStringList.value data 3) } }) := rfl
  rw [hpc] at h
  unfold intField
  by_cases hgt : toInt (QStringList.value data 1) > MaxAtomType
  · rw [if_pos hgt] at h
    cases h
    exact ⟨fun _ => rfl, fun hle => absurd hgt (by omega)⟩
  · rw [if_neg hgt] at h
    cases (Option.some.inj h)
    exact ⟨fun hg => absurd hg hgt, fun _ => rfl⟩

/-- A row changes neither the van der Waals nor the partial-charge mapping
nor the two lists but in their own sections. -/
theorem readRow_frame_rest {F : Type} (toDouble : String → F) (sect : Nat)
    (data : List String) (dat dat' : MmffParametersData F)
    (h : readRow toDouble sect data dat = some dat') :
    (sect ≠ Section.VanDerWaals → dat'.vanDerWaalsParameters = dat.vanDerWaalsParameters) ∧
    (sect ≠ Section.PartialCharge →
      dat'.partialChargeParameters = dat.partialChargeParameters) ∧
    (sect ≠ Section.DefaultStrechBend →
      dat'.defaultStrechBendParameters = dat.defaultStrechBendParameters) ∧
    (sect ≠ Section.Charge → dat'.chargeParameters = dat.chargeParameters) := by
  rcases Nat.lt_or_ge sect 10 with hlt | hge
  · interval_cases sect
    · cases (Option.some.inj (show some _ = some dat' from h))
      exact ⟨fun _ => rfl, fun _ => rfl, fun _ => rfl, fun _ => rfl⟩
    · cases (Option.some.inj (show some _ = some dat' from h))
      exact ⟨fun _ => rfl, fun _ => rfl, fun _ => rfl, fun _ => rfl⟩
    · cases (Option.some.inj (show some _ = some dat' from h))
      exact ⟨fun _ => rfl, fun _ => rfl, fun _ => rfl, fun _ => rfl⟩
    · cases (Option.some.inj (show some _ = some dat' from h))
      exact ⟨fun _ => rfl, fun _ => rfl, fun _ => rfl, fun _ => rfl⟩
    · cases (Option.some.inj (show some _ = some dat' from h))
      exact ⟨fun _ => rfl, fun _ => rfl, fun e => absurd rfl e, fun _ => rfl⟩
    · cases (Option.some.inj (show some _ = some dat' from h))
      exact ⟨fun _ => rfl, fun _ => rfl, fun _ => rfl, fun _ => rfl⟩
    · cases (Option.some.inj (show some _ = some dat' from h))
      exact ⟨fun _ => rfl, fun _ => rfl, fun _ => rfl, fun _ => rfl⟩
    · have hkeep : dat'.partialChargeParameters = dat.partialChargeParameters ∧
          dat'.defaultStrechBendParameters = dat.defaultStrechBendParameters ∧
          dat'.chargeParameters = dat.chargeParameters := by
        by_cases hgt : intField data 0 > MaxAtomType
        · rw [(readRow_vanDerWaals toDouble data dat dat' h).1 hgt]
          exact ⟨rfl, rfl, rfl⟩
        · obtain ⟨c, cs, _, e⟩ := (readRow_vanDerWaals toDouble data dat dat' h).2 (by omega)
          rw [e]
          exact ⟨rfl, rfl, rfl⟩
      exact ⟨fun e => absurd rfl e, fun _ => hkeep.1, fun _ => hkeep.2.1, fun _ => hkeep.2.2⟩
    · cases (Option.some.inj (show some _ = some dat' from h))
      exact ⟨fun _ => rfl, fun _ => rfl, fun _ => rfl, fun e => absurd rfl e⟩
    · have hkeep : dat'.vanDerWaalsParameters = dat.vanDerWaalsParameters ∧
          dat'.defaultStrechBendParameters = dat.defaultStrechBendParameters ∧
          dat'.chargeParameters = dat.chargeParameters := by
        by_cases hgt : intField data 1 > MaxAtomType
        · rw [(readRow_partialCharge toDouble data dat dat' h).1 hgt]
          exact ⟨rfl, rfl, rfl⟩
        · rw [(readRow_partialCharge toDouble data dat dat' h).2 (by omega)]
          exact ⟨rfl, rfl, rfl⟩
      exact ⟨fun _ => hkeep.1, fun e => absurd rfl e, fun _ => hkeep.2.1, fun _ => hkeep.2.2⟩
  · unfold readRow at h
    dsimp only [Section.BondStrech, Section.EmpiricalBondStrech, Section.AngleBend,
      Section.StrechBend, Section.DefaultStrechBend, Section.OutOfPlaneBending,
      Section.Torsion, Section.VanDerWaals, Section.Charge, Section.PartialCharge] at h
    rw [if_neg (show ¬ sect = 0 by omega), if_neg (show ¬ sect = 1 by omega),
      if_neg (show ¬ sect = 2 by omega), if_neg (show ¬ sect = 3 by omega),
      if_neg (show ¬ sect = 4 by omega), if_neg (show ¬ sect = 5 by omega),
      if_neg (show ¬ sect = 6 by omega), if_neg (show ¬ sect = 7 by omega),
      if_neg (show ¬ sect = 8 by omega), if_neg (show ¬ sect = 9 by omega)] at h
    cases h
    exact ⟨fun _ => rfl, fun _ => rfl, fun _ => rfl, fun _ => rfl⟩

/-- The markers of two lists of lines add up. -/
theorem markerCount_append (l1 l2 : List String) :
    markerCount (l1 ++ l2) = markerCount l1 + markerCount l2 := by
  unfold markerCount
  rw [List.filter_append, List.length_append]

/-- The loop returns on the lines of one section when the dispatch returns on
each of their rows. -/
theorem readLines_section_isSome {F : Type} (toDouble : String → F) (sect : Nat) :
    ∀ (lines : List String), (∀ line ∈ lines, startsWith line '$' = false) →
      (∀ data ∈ rowsOf lines, ∀ d, (readRow toDouble sect data d).isSome = true) →
      ∀ d, (readLines toDouble lines sect d).isSome = true
  | [], _, _, d => by
    rw [readLines]
    rfl
  | line :: rest, hno, hrows, d => by
    have h1 : startsWith line '$' = false := hno line (List.mem_cons_self _ _)
    have hno' : ∀ l ∈ rest, startsWith l '$' = false :=
      fun l hl => hno l (List.mem_cons_of_mem _ hl)
    by_cases h2 : startsWith line '#' = true
    · rw [readLines_comment toDouble line _ sect d h2]
      rw [rowsOf_cons_skip line rest (Or.inr (Or.inl h2))] at hrows
      exact readLines_section_isSome toDouble sect rest hno' hrows d
    · have h2' : startsWith line '#' = false := by simpa using h2
      by_cases hl : (split line).length < 2
      · rw [readLines_short toDouble line _ sect d h1 hl]
        rw [rowsOf_cons_skip line rest (Or.inr (Or.inr hl))] at hrows
        exact readLines_section_isSome toDouble sect rest hno' hrows d
      · rw [readLines_row toDouble line _ sect d h1 h2' (by omega)]
        rw [rowsOf_cons_row line rest h1 h2' (by omega)] at hrows
        have hsome := hrows (split line) (List.mem_cons_self _ _) d
        cases hr : readRow toDouble sect (split line) d with
        | none => rw [hr] at hsome; cases hsome
        | some d1 =>
          rw [Option.some_bind]
          exact readLines_section_isSome toDouble sect rest hno'
            (fun data hd => hrows data (List.mem_cons_of_mem _ hd)) d1

/-- The load of a source made of `sect` markers and lines of that section
returns when the dispatch returns on each of their rows. -/
theorem readFile_section_isSome {F : Type} (toDouble : String → F) (sect : Nat)
    (hend : sect < Section.End) (lines : List String)
    (hno : ∀ line ∈ lines, startsWith line '$' = false)
    (hrows : ∀ data ∈ rowsOf lines, ∀ d, (readRow toDouble sect data d).isSome = true) :
    ∃ dat, readFile toDouble (List.replicate sect "$\n" ++ lines) = some dat := by
  unfold readFile
  rw [readLines_markers toDouble lines _ sect Section.BondStrech
    (by simp only [Section.BondStrech]; omega)]
  simp only [Section.BondStrech, Nat.zero_add]
  have h := readLines_section_isSome toDouble sect lines hno hrows (MmffParametersData.empty F)
  exact Option.isSome_iff_exists.mp h

/-- The load of a source in which a data line of section `sect` is followed
by lines of the same section, none of which writes its key, and then by
nothing or by a section marker and any further lines: whenever the load
returns, the mapping of the section holds one entry for the key of the line,
with the record of the line. -/
theorem readFile_last_row_entry {F V : Type} (toDouble : String → F)
    (proj : MmffParametersData F → QHash V) (sect : Nat)
    (keyOf : List String → Int) (recOf : List String → V)
    (hrow : ∀ data d d', readRow toDouble sect data d = some d' →
      proj d' = proj d ∨ proj d' = (proj d).insert (keyOf data) (recOf data))
    (hframe : ∀ sect' data d d', sect' ≠ sect → readRow toDouble sect' data d = some d' →
      proj d' = proj d)
    (pre : List String) (line : String) (lines tail : List String)
    (hsect : markerCount pre = sect) (hend : sect < Section.End)
    (h1 : startsWith line '$' = false) (h2 : startsWith line '#' = false)
    (hl : 2 ≤ (split line).length)
    (hno : ∀ l ∈ lines, startsWith l '$' = false)
    (htail : ∀ l ∈ tail.head?, startsWith l '$' = true)
    (hw : ∀ d d', readRow toDouble sect (split line) d = some d' →
      proj d' = (proj d).insert (keyOf (split line)) (recOf (split line)))
    (hlater : ∀ data ∈ rowsOf lines, keyOf data ≠ keyOf (split line))
    (dat : MmffParametersData F)
    (hfile : readFile toDouble (pre ++ (line :: lines ++ tail)) = some dat) :
    (proj dat).value (keyOf (split line)) = some (recOf (split line)) ∧
    (proj dat).count (keyOf (split line)) = 1 := by
  refine readFile_row_invariant toDouble sect
    (fun d => (proj d).value (keyOf (split line)) = some (recOf (split line)) ∧
      (proj d).count (keyOf (split line)) = 1)
    pre line lines tail hsect hend h1 h2 hl hno htail ?_ ?_ ?_ dat hfile
  · intro d d' hr
    exact QHash.entry_of_insert _ _ _ _ (hw d d' hr)
  · intro data hd d d' hq hr
    rcases hrow data d d' hr with e | e
    · rw [e]
      exact hq
    · exact QHash.entry_kept _ _ _ _ _ _ e (hlater data hd) hq
  · intro sect' data d d' hs hq hr
    rw [hframe sect' data d d' (Nat.ne_of_gt hs) hr]
    exact hq

/-! ## Rows with the same key, on the load -/

/-- C21. Last write wins, on the load. In a source two lines of the same
section give the same key, the second a data line followed by lines of that
section and then by nothing or by a section marker and any further lines;
any lines of the section may stand between the two, anything before the
first, and no row after the second has its key. Whenever the load returns,
the mapping of the section (bond-strech, angle-bend, strech-bend,
out-of-plane, torsion, van der Waals, partial-charge) holds one entry for
that key, with the values of the second row; for the two sections keyed by
the type the type is at most `MaxAtomType`. The load returns on the lines of
any section but van der Waals, and on van der Waals lines each of whose rows
has a type above `MaxAtomType` or a field 5. -/
theorem last_write_wins {F : Type} (toDouble : String → F) (pre : List String)
    (line1 line2 : String) (mid lines tail : List String)
    (h11 : startsWith line1 '$' = false) (h21 : startsWith line2 '$' = false)
    (h22 : startsWith line2 '#' = false) (h2l : 2 ≤ (split line2).length)
    (hmid : ∀ l ∈ mid, startsWith l '$' = false)
    (hno : ∀ l ∈ lines, startsWith l '$' = false)
    (htail : ∀ l ∈ tail.head?, startsWith l '$' = true)
    (dat : MmffParametersData F)
    (hfile : readFile toDouble (pre ++ (line1 :: mid ++ (line2 :: lines ++ tail))) =
      some dat) :
    (markerCount pre = Section.BondStrech →
      calculateBondStrechIndex (intField (split line1) 0) (intField (split line1) 1) (intField (split line1) 2) =
        calculateBondStrechIndex (intField (split line2) 0) (intField (split line2) 1) (intField (split line2) 2) →
      (∀ data ∈ rowsOf lines,
        calculateBondStrechIndex (intField data 0) (intField data 1) (intField data 2) ≠
        calculateBondStrechIndex (intField (split line2) 0) (intField (split line2) 1) (intField (split line2) 2)) →
      dat.bondStrechParameters.value
          (calculateBondStrechIndex (intField (split line1) 0) (intField (split line1) 1) (intField (split line1) 2)) =
        some ⟨doubleField toDouble (split line2) 3, doubleField toDouble (split line2) 4⟩ ∧
      dat.bondStrechParameters.count
          (calculateBondStrechIndex (intField (split line1) 0) (intField (split line1) 1) (intField (split line1) 2)) = 1) ∧
    (markerCount pre = Section.AngleBend →
      calculateAngleBendIndex (intField (split line1) 0) (intField (split line1) 1) (intField (split line1) 2)
          (intField (split line1) 3) =
        calculateAngleBendIndex (intField (split line2) 0) (intField (split line2) 1) (intField (split line2) 2)
          (intField (split line2) 3) →
      (∀ data ∈ rowsOf lines,
        calculateAngleBendIndex (intField data 0) (intField data 1) (intField data 2)
          (intField data 3) ≠
        calculateAngleBendIndex (intField (split line2) 0) (intField (split line2) 1) (intField (split line2) 2)
          (intField (split line2) 3)) →
      dat.angleBendParameters.value
          (calculateAngleBendIndex (intField (split line1) 0) (intField (split line1) 1) (intField (split line1) 2)
          (intField (split line1) 3)) =
        some ⟨doubleField toDouble (split line2) 4, doubleField toDouble (split line2) 5⟩ ∧
      dat.angleBendParameters.count
          (calculateAngleBendIndex (intField (split line1) 0) (intField (split line1) 1) (intField (split line1) 2)
          (intField (split line1) 3)) = 1) ∧
    (markerCount pre = Section.StrechBend →
      calculateStrechBendIndex (intField (split line1) 0) (intField (split line1) 1) (intField (split line1) 2)
          (intField (split line1) 3) =
        calculateStrechBendIndex (intField (split line2) 0) (intField (split line2) 1) (intField (split line2) 2)
          (intField (split line2) 3) →
      (∀ data ∈ rowsOf lines,
        calculateStrechBendIndex (intField data 0) (intField data 1) (intField data 2)
          (intField data 3) ≠
        calculateStrechBendIndex (intField (split line2) 0) (intField (split line2) 1) (intField (split line2) 2)
          (intField (split line2) 3)) →
      dat.strechBendParameters.value
          (calculateStrechBendIndex (intField (split line1) 0) (intField (split line1) 1) (intField (split line1) 2)
          (intField (split line1) 3)) =
        some ⟨doubleField toDouble (split line2) 4, doubleField toDouble (split line2) 5⟩ ∧
      dat.strechBendParameters.count
          (calculateStrechBendIndex (intField (split line1) 0) (intField (split line1) 1) (intField (split line1) 2)
          (intField (split line1) 3)) = 1) ∧
    (markerCount pre = Section.OutOfPlaneBending →
      calculateOutOfPlaneBendingIndex (intField (split line1) 0) (intField (split line1) 1)
          (intField (split line1) 2) (intField (split line1) 3) =
        calculateOutOfPlaneBendingIndex (intField (split line2) 0) (intField (split line2) 1)
          (intField (split line2) 2) (intField (split line2) 3) →
      (∀ data ∈ rowsOf lines,
        calculateOutOfPlaneBendingIndex (intField data 0) (intField data 1)
          (intField data 2) (intField data 3) ≠
        calculateOutOfPlaneBendingIndex (intField (split line2) 0) (intField (split line2) 1)
          (intField (split line2) 2) (intField (split line2) 3)) →
      dat.outOfPlaneBendingParameters.value
          (calculateOutOfPlaneBendingIndex (intField (split line1) 0) (intField (split line1) 1)
          (intField (split line1) 2) (intField (split line1) 3)) =
        some ⟨doubleField toDouble (split line2) 4⟩ ∧
      dat.outOfPlaneBendingParameters.count
          (calculateOutOfPlaneBendingIndex (intField (split line1) 0) (intField (split line1) 1)
          (intField (split line1) 2) (intField (split line1) 3)) = 1) ∧
    (markerCount pre = Section.Torsion →
      calculateTorsionIndex (intField (split line1) 0) (intField (split line1) 1) (intField (split line1) 2)
          (intField (split line1) 3) (intField (split line1) 4) =
        calculateTorsionIndex (intField (split line2) 0) (intField (split line2) 1) (intField (split line2) 2)
          (intField (split line2) 3) (intField (split line2) 4) →
      (∀ data ∈ rowsOf lines,
        calculateTorsionIndex (intField data 0) (intField data 1) (intField data 2)
          (intField data 3) (intField data 4) ≠
        calculateTorsionIndex (intField (split line2) 0) (intField (split line2) 1) (intField (split line2) 2)
          (intField (split line2) 3) (intField (split line2) 4)) →
      dat.torsionParameters.value
          (calculateTorsionIndex (intField (split line1) 0) (intField (split line1) 1) (intField (split line1) 2)
          (intField (split line1) 3) (intField (split line1) 4)) =
        some ⟨doubleField toDouble (split line2) 5, doubleField toDouble (split line2) 6,
          doubleField toDouble (split line2) 7⟩ ∧
      dat.torsionParameters.count
          (calculateTorsionIndex (intField (split line1) 0) (intField (split line1) 1) (intField (split line1) 2)
          (intField (split line1) 3) (intField (split line1) 4)) = 1) ∧
    (markerCount pre = Section.VanDerWaals →
      intField (split line1) 0 = intField (split line2) 0 →
      intField (split line2) 0 ≤ MaxAtomType →
      (∀ data ∈ rowsOf lines, intField data 0 ≠ intField (split line2) 0) →
      ∃ c cs, (QStringList.value (split line2) 5).data = c :: cs ∧
        dat.vanDerWaalsParameters.value (intField (split line1) 0) =
          some ⟨doubleField toDouble (split line2) 1, doubleField toDouble (split line2) 2,
            doubleField toDouble (split line2) 3, doubleField toDouble (split line2) 4,
            toAscii c⟩ ∧
        dat.vanDerWaalsParameters.count (intField (split line1) 0) = 1) ∧
    (markerCount pre = Section.PartialCharge →
      intField (split line1) 1 = intField (split line2) 1 →
      intField (split line2) 1 ≤ MaxAtomType →
      (∀ data ∈ rowsOf lines, intField data 1 ≠ intField (split line2) 1) →
      dat.partialChargeParameters.value (intField (split line1) 1) =
        some ⟨doubleField toDouble (split line2) 2, doubleField toDouble (split line2) 3⟩ ∧
      dat.partialChargeParameters.count (intField (split line1) 1) = 1) ∧
    (∀ (sect : Nat) (lines1 : List String), sect < Section.End →
      (∀ l ∈ lines1, startsWith l '$' = false) →
      (sect = Section.VanDerWaals → ∀ data ∈ rowsOf lines1,
        intField data 0 > MaxAtomType ∨ (QStringList.value data 5).data ≠ []) →
      ∃ dat1, readFile toDouble (List.replicate sect "$\n" ++ lines1) = some dat1) := by
  have hpre1 : markerCount (pre ++ line1 :: mid) = markerCount pre := by
    rw [markerCount_append, markerCount_cons, if_neg (by rw [h11]; exact Bool.false_ne_true),
      markerCount_eq_zero mid hmid]
    rfl
  have hfile1 : readFile toDouble ((pre ++ line1 :: mid) ++ (line2 :: lines ++ tail)) =
      some dat := by
    rw [← hfile]
    simp only [List.append_assoc, List.cons_append]
  refine ⟨?_, ?_, ?_, ?_, ?_, ?_, ?_, ?_⟩
  · intro hs hk hlater
    rw [hk]
    exact readFile_last_row_entry toDouble (fun d => d.bondStrechParameters) Section.BondStrech
      (fun data => calculateBondStrechIndex (intField data 0) (intField data 1) (intField data 2))
      (fun data => ⟨doubleField toDouble data 3, doubleField toDouble data 4⟩)
      (fun data d d1 hr => Or.inr (readRow_bondStrech toDouble data d d1 hr))
      (fun s data d d1 hs hr => (readRow_frame toDouble s data d d1 hr).1 hs)
      (pre ++ line1 :: mid) line2 lines tail (by rw [hpre1, hs]) (by decide) h21 h22 h2l hno
      htail (fun d d1 hr => readRow_bondStrech toDouble (split line2) d d1 hr) hlater dat hfile1
  · intro hs hk hlater
    rw [hk]
    exact readFile_last_row_entry toDouble (fun d => d.angleBendParameters) Section.AngleBend
      (fun data => calculateAngleBendIndex (intField data 0) (intField data 1) (intField data 2)
          (intField data 3))
      (fun data => ⟨doubleField toDouble data 4, doubleField toDouble data 5⟩)
      (fun data d d1 hr => Or.inr (readRow_angleBend toDouble data d d1 hr))
      (fun s data d d1 hs hr => (readRow_frame toDouble s data d d1 hr).2.1 hs)
      (pre ++ line1 :: mid) line2 lines tail (by rw [hpre1, hs]) (by decide) h21 h22 h2l hno
      htail (fun d d1 hr => readRow_angleBend toDouble (split line2) d d1 hr) hlater dat hfile1
  · intro hs hk hlater
    rw [hk]
    exact readFile_last_row_entry toDouble (fun d => d.strechBendParameters) Section.StrechBend
      (fun data => calculateStrechBendIndex (intField data 0) (intField data 1) (intField data 2)
          (intField data 3))
      (fun data => ⟨doubleField toDouble data 4, doubleField toDouble data 5⟩)
      (fun data d d1 hr => Or.inr (readRow_strechBend toDouble data d d1 hr))
      (fun s data d d1 hs hr => (readRow_frame toDouble s data d d1 hr).2.2.1 hs)
      (pre ++ line1 :: mid) line2 lines tail (by rw [hpre1, hs]) (by decide) h21 h22 h2l hno
      htail (fun d d1 hr => readRow_strechBend toDouble (split line2) d d1 hr) hlater dat hfile1
  · intro hs hk hlater
    rw [hk]
    exact readFile_last_row_entry toDouble (fun d => d.outOfPlaneBendingParameters) Section.OutOfPlaneBending
      (fun data => calculateOutOfPlaneBendingIndex (intField data 0) (intField data 1)
          (intField data 2) (intField data 3))
      (fun data => ⟨doubleField toDouble data 4⟩)
      (fun data d d1 hr => Or.inr (readRow_outOfPlaneBending toDouble data d d1 hr))
      (fun s data d d1 hs hr => (readRow_frame toDouble s data d d1 hr).2.2.2.1 hs)
      (pre ++ line1 :: mid) line2 lines tail (by rw [hpre1, hs]) (by decide) h21 h22 h2l hno
      htail (fun d d1 hr => readRow_outOfPlaneBending toDouble (split line2) d d1 hr) hlater dat hfile1
  · intro hs hk hlater
    rw [hk]
    exact readFile_last_row_entry toDouble (fun d => d.torsionParameters) Section.Torsion
      (fun data => calculateTorsionIndex (intField data 0) (intField data 1) (intField data 2)
          (intField data 3) (intField data 4))
      (fun data => ⟨doubleField toDouble data 5, doubleField toDouble data 6,
          doubleField toDouble data 7⟩)
      (fun data d d1 hr => Or.inr (readRow_torsion toDouble data d d1 hr))
      (fun s data d d1 hs hr => (readRow_frame toDouble s data d d1 hr).2.2.2.2 hs)
      (pre ++ line1 :: mid) line2 lines tail (by rw [hpre1, hs]) (by decide) h21 h22 h2l hno
      htail (fun d d1 hr => readRow_torsion toDouble (split line2) d d1 hr) hlater dat hfile1
  · intro hs hk hle hlater
    rw [hk]
    refine readFile_row_invariant toDouble Section.VanDerWaals
      (fun d => ∃ c cs, (QStringList.value (split line2) 5).data = c :: cs ∧
        d.vanDerWaalsParameters.value (intField (split line2) 0) =
          some ⟨doubleField toDouble (split line2) 1, doubleField toDouble (split line2) 2,
            doubleField toDouble (split line2) 3, doubleField toDouble (split line2) 4,
            toAscii c⟩ ∧
        d.vanDerWaalsParameters.count (intField (split line2) 0) = 1)
      (pre ++ line1 :: mid) line2 lines tail (by rw [hpre1, hs]) (by decide) h21 h22 h2l hno
      htail ?_ ?_ ?_ dat hfile1
    · intro d d1 hr
      obtain ⟨c, cs, hc, e⟩ := (readRow_vanDerWaals toDouble (split line2) d d1 hr).2 hle
      refine ⟨c, cs, hc, ?_⟩
      rw [e]
      exact ⟨QHash.value_insert_self _ _ _, QHash.count_insert_self _ _ _⟩
    · intro data hd d d1 hq hr
      obtain ⟨c, cs, hc, hv, hn⟩ := hq
      refine ⟨c, cs, hc, ?_⟩
      by_cases hgt : intField data 0 > MaxAtomType
      · rw [(readRow_vanDerWaals toDouble data d d1 hr).1 hgt]
        exact ⟨hv, hn⟩
      · obtain ⟨c', cs', _, e⟩ := (readRow_vanDerWaals toDouble data d d1 hr).2 (by omega)
        rw [e]
        exact QHash.entry_kept _ _ _ _ _ _ rfl (hlater data hd) ⟨hv, hn⟩
    · intro s data d d1 hs' hq hr
      rw [(readRow_frame_rest toDouble s data d d1 hr).1 (Nat.ne_of_gt hs')]
      exact hq
  · intro hs hk hle hlater
    rw [hk]
    exact readFile_last_row_entry toDouble (fun d => d.partialChargeParameters)
      Section.PartialCharge (fun data => intField data 1)
      (fun data => ⟨doubleField toDouble data 2, doubleField toDouble data 3⟩)
      (fun data d d1 hr => by
        by_cases hgt : intField data 1 > MaxAtomType
        · exact Or.inl (by rw [(readRow_partialCharge toDouble data d d1 hr).1 hgt])
        · exact Or.inr (by rw [(readRow_partialCharge toDouble data d d1 hr).2 (by omega)]))
      (fun s data d d1 hs hr => (readRow_frame_rest toDouble s data d d1 hr).2.1 hs)
      (pre ++ line1 :: mid) line2 lines tail (by rw [hpre1, hs]) (by decide) h21 h22 h2l hno
      htail (fun d d1 hr => by
        rw [(readRow_partialCharge toDouble (split line2) d d1 hr).2 hle]) hlater dat hfile1
  · intro sect lines1 hend hno1 hvdw
    refine readFile_section_isSome toDouble sect hend lines1 hno1 (fun data hd d => ?_)
    cases hr : readRow toDouble sect data d with
    | some d1 => rfl
    | none =>
      obtain ⟨hs, hle, h5⟩ := (readRow_eq_none_iff toDouble sect data d).mp hr
      rcases hvdw hs data hd with g | g
      · omega
      · exact absurd h5 g

/-- Instance of C21: in the bond-strech section the rows `0 1 5 4.258 1.508`
and `0 1 5 9.999 2.000` have the same key, with the row of another key
between them, one more after them, and an angle-bend row in the next section.
After the load the mapping holds one entry for the key of (0; 1, 5), with the
values of the second of the two rows. -/
theorem last_write_wins_witness :
    ∃ dat,
      readFile (fun s => s)
        ["0 1 5 4.258 1.508", "0 1 6 5.000 1.400", "0 1 5 9.999 2.000", "0 2 5 3.000 1.300",
          "$", "$", "1 1 2 3 0.695 119.1"] = some dat ∧
      dat.bondStrechParameters.value (calculateBondStrechIndex 0 1 5) =
        some ⟨"9.999", "2.000"⟩ ∧
      dat.bondStrechParameters.count (calculateBondStrechIndex 0 1 5) = 1 :=
  ⟨_, rfl,
   (last_write_wins (fun s : String => s) [] "0 1 5 4.258 1.508" "0 1 5 9.999 2.000"
      ["0 1 6 5.000 1.400"] ["0 2 5 3.000 1.300"] ["$", "$", "1 1 2 3 0.695 119.1"]
      (by decide) (by decide) (by decide) (by decide) (by decide) (by decide) (by decide)
      _ rfl).1 (by decide) (by decide) (by decide)⟩

/-! ## Bounds check of the type-keyed sections, on the load -/

end MmffParameters
